import Mathlib

/-!
# libosmium I/O pipeline: Reader, InputThread and the debug output format

Shallow embedding of

* `include/osmium/io/reader.hpp` (`InputThread`, `Reader`),
* `include/osmium/io/detail/debug_output_format.hpp` (`DebugOutputBlock`,
  `DebugOutputFormat`),

followed by theorems about the embedded code.

Conventions.  `std::string` is `String`.  A member function that can throw
returns the state it leaves behind together with an `Except`, so that the
state after an exception stays observable.  Operating-system calls act on an
explicit `World`; their outcomes are chosen by an `Env`.  Types and functions
that the two headers only use (queue, pool, header, entities, location, input
codec, decompressor, `printf` conversions) are parameters or are modelled next
to their first use.
-/

namespace osmium

/-! ## Definitions -/

namespace thread

/-- Modelled from the spec: `osmium::thread::Queue<T>` (osmium/thread/queue.hpp)
is an ordered delivery list, elements leave it in the order they were pushed.
The list's head is the front of the queue. -/
abbrev Queue (α : Type) : Type := List α

/-- Modelled from the spec: `Queue::push` appends at the back of the queue. -/
def Queue.push {α : Type} (q : Queue α) (x : α) : Queue α := q ++ [x]

/-- Modelled from the spec: `Queue::size` is the number of queued elements. -/
def Queue.size {α : Type} (q : Queue α) : Nat := q.length

/-- Modelled from the spec: popping removes the front element (nothing happens
on an empty queue, where the real consumer would wait). -/
def Queue.pop {α : Type} (q : Queue α) : Queue α := q.tail

end thread

namespace io

/-- Exceptions thrown by the embedded code: `std::system_error` with its error
code and message, and `std::runtime_error` with its message. -/
inductive Error where
  | system_error (code : Nat) (what : String)
  | runtime_error (what : String)
  deriving DecidableEq, Repr

/-- Modelled from the spec: a bounding box of the header (osmium/osm/box.hpp),
two corners over an unspecified location type. -/
structure Box (Location : Type) where
  bottom_left : Location
  top_right : Location

/-- Modelled from the spec: the header value (osmium/io/header.hpp), an ordered
list of bounding boxes, the multiple-object-versions flag, and an ordered list
of string option pairs. -/
structure Header (Location : Type) where
  has_multiple_object_versions : Bool
  boxes : List (Box Location)
  options : List (String × String)

namespace detail

def color_bold : String := "\x1b[1m"
def color_black : String := "\x1b[30m"
def color_gray : String := "\x1b[30;1m"
def color_red : String := "\x1b[31m"
def color_green : String := "\x1b[32m"
def color_yellow : String := "\x1b[33m"
def color_blue : String := "\x1b[34m"
def color_magenta : String := "\x1b[35m"
def color_cyan : String := "\x1b[36m"
def color_white : String := "\x1b[37m"
def color_reset : String := "\x1b[0m"

structure debug_output_options where
  add_metadata : Bool
  use_color : Bool
  deriving DecidableEq, Repr

/-- The task object `DebugOutputBlock{std::move(buffer), m_options}`: the buffer
to encode and a copy of the options. -/
structure DebugOutputBlock (Buffer : Type) where
  m_input_buffer : Buffer
  m_options : debug_output_options

/-- A `std::future<std::string>` in the output queue.  `ready v` is the future
of a promise whose value has been set to `v`; `task b` is the future returned
by `Pool::submit(b)`, whose value is produced when a worker has run `b`. -/
inductive Future (Buffer : Type) where
  | ready (value : String)
  | task (block : DebugOutputBlock Buffer)

/-- The value `future.get()` returns once the future is resolved; `run` is
`DebugOutputBlock::operator()`. -/
def Future.get {Buffer : Type} (run : DebugOutputBlock Buffer → String) :
    Future Buffer → String
  | .ready v => v
  | .task b => run b

/-- Whether `future.get()` would return without waiting. -/
def Future.is_ready {Buffer : Type} : Future Buffer → Bool
  | .ready _ => true
  | .task _ => false

/-- Class `DebugOutputFormat`: its options and the output queue it holds a reference
to. -/
structure DebugOutputFormat (Buffer : Type) where
  m_options : debug_output_options
  m_output_queue : thread.Queue (Future Buffer)

namespace DebugOutputFormat

variable {Buffer Location : Type}

/-- Method `write_buffer`: submit a `DebugOutputBlock` to the pool and push the future
it returns. -/
def write_buffer (self : DebugOutputFormat Buffer) (buffer : Buffer) :
    DebugOutputFormat Buffer :=
  { self with
    m_output_queue :=
      self.m_output_queue.push (.task { m_input_buffer := buffer, m_options := self.m_options }) }

/-- Method `write_fieldname(std::string& out, const char* name)`; returns the new
`out`. -/
def write_fieldname (self : DebugOutputFormat Buffer) (out : String) (name : String) :
    String :=
  let out := out ++ "  "
  let out := if self.m_options.use_color then out ++ color_cyan else out
  let out := out ++ name
  let out := if self.m_options.use_color then out ++ color_reset else out
  out ++ ": "

/-- The text `write_header` builds in its local `out`.  `as_string loc sep` is
what `Location::as_string(std::back_inserter(out), sep)` appends. -/
def render_header (as_string : Location → Char → String) (self : DebugOutputFormat Buffer)
    (header : Header Location) : String :=
  let out := ""
  let out := if self.m_options.use_color then out ++ color_bold else out
  let out := out ++ "header\n"
  let out := if self.m_options.use_color then out ++ color_reset else out
  let out := self.write_fieldname out "multiple object versions"
  let out := out ++ (if header.has_multiple_object_versions then "yes" else "no")
  let out := out.push '\n'
  let out := self.write_fieldname out "bounding boxes"
  let out := out.push '\n'
  let out := header.boxes.foldl
    (fun out box =>
      let out := out ++ "    "
      let out := out ++ as_string box.bottom_left ','
      let out := out ++ " "
      let out := out ++ as_string box.top_right ','
      out.push '\n')
    out
  let out := self.write_fieldname out "options"
  let out := out.push '\n'
  let out := header.options.foldl
    (fun out opt =>
      let out := out ++ "    "
      let out := out ++ opt.1
      let out := out ++ " = "
      let out := out ++ opt.2
      out.push '\n')
    out
  out ++ "\n=============================================\n\n"

/-- Method `write_header`: build the text, push the future of a fresh promise, then
set the promise's value. -/
def write_header (as_string : Location → Char → String) (self : DebugOutputFormat Buffer)
    (header : Header Location) : DebugOutputFormat Buffer :=
  let out := render_header as_string self header
  { self with m_output_queue := self.m_output_queue.push (.ready out) }

/-- Method `close`: push the future of a promise set to the empty string. -/
def close (self : DebugOutputFormat Buffer) : DebugOutputFormat Buffer :=
  let out := ""
  { self with m_output_queue := self.m_output_queue.push (.ready out) }

/-- The call sequence `write_header(h); write_buffer(b1); ...; write_buffer(bk);
close()`. -/
def write_all (as_string : Location → Char → String) (self : DebugOutputFormat Buffer)
    (header : Header Location) (buffers : List Buffer) : DebugOutputFormat Buffer :=
  close (buffers.foldl write_buffer (write_header as_string self header))

end DebugOutputFormat

/-! ### The pool workers and the drain step acting on the output queue -/

/-- Modelled from the spec: what can happen to the output queue once the futures
are in it.  A pool worker finishes the task whose future is at position `i`, or
the drain step tries to take the front future. -/
inductive QueueAction where
  | complete (i : Nat)
  | drain
  deriving DecidableEq, Repr

/-- The output queue together with the strings already written to the sink. -/
structure Delivery (Buffer : Type) where
  queue : thread.Queue (Future Buffer)
  sink : List String

/-- Completing a task turns its future into a resolved one. -/
def Future.complete {Buffer : Type} (run : DebugOutputBlock Buffer → String) :
    Future Buffer → Future Buffer
  | .ready v => .ready v
  | .task b => .ready (run b)

/-- Modelled from the spec: one action.  The drain step removes futures from the
front only, blocking on the front future until it is resolved: if it is
resolved its value goes to the sink and the future leaves the queue, otherwise
the consumer keeps waiting and nothing changes. -/
def Delivery.step {Buffer : Type} (run : DebugOutputBlock Buffer → String)
    (d : Delivery Buffer) : QueueAction → Delivery Buffer
  | .complete i => { d with queue := d.queue.modify (Future.complete run) i }
  | .drain =>
    match d.queue with
    | [] => d
    | f :: rest =>
      if f.is_ready then { queue := rest, sink := d.sink ++ [f.get run] } else d

/-- Run a finite schedule of actions. -/
def Delivery.run {Buffer : Type} (run : DebugOutputBlock Buffer → String)
    (d : Delivery Buffer) (schedule : List QueueAction) : Delivery Buffer :=
  schedule.foldl (Delivery.step run) d

end detail
end io
end osmium

/-! ### InputThread (reader.hpp) -/

namespace osmium
namespace io
namespace InputThread

/-- Program points of `InputThread::operator()`.
`loop_head`: about to test `!done`;
`push`: `decompressor->read()` has returned into `data` and `done` has been
updated, about to call `m_queue.push`;
`wait`: about to test `m_queue.size() > 10`;
`finished`: the outer loop has been left and the decompressor closed. -/
inductive Pc where
  | loop_head
  | push
  | wait
  | finished
  deriving DecidableEq, Repr

/-- The queue shared with the consumer, the thread's locals, and two history
fields: how often `decompressor->read()` has been called and every chunk that
was pushed, oldest first. -/
structure State where
  m_queue : thread.Queue String
  done : Bool
  data : String
  pc : Pc
  reads : Nat
  pushed : List String
  deriving DecidableEq, Repr

/-- Who moves next: the input thread or the thread popping from the queue. -/
inductive Action where
  | producer
  | consumer
  deriving DecidableEq, Repr

/-- The state when the thread enters the loop: `done = false`, empty queue. -/
def init : State :=
  { m_queue := [], done := false, data := "", pc := .loop_head, reads := 0, pushed := [] }

/-- One step of the input thread.  `read i` is what the `i`-th call (counting
from 0) of `decompressor->read()` returns. -/
def producer_step (read : Nat → String) (s : State) : State :=
  match s.pc with
  | .loop_head =>
    if !s.done then
      let data := read s.reads
      { s with data := data, done := if data = "" then true else s.done,
               reads := s.reads + 1, pc := .push }
    else
      { s with pc := .finished }
  | .push =>
    { s with m_queue := s.m_queue.push s.data, pushed := s.pushed ++ [s.data], pc := .wait }
  | .wait =>
    if s.m_queue.size > 10 then s else { s with pc := .loop_head }
  | .finished => s

/-- Modelled from the spec: one step of the consumer (the decode step), which
takes the front chunk if there is one. -/
def consumer_step (s : State) : State :=
  { s with m_queue := s.m_queue.pop }

def step (read : Nat → String) (s : State) : Action → State
  | .producer => producer_step read s
  | .consumer => consumer_step s

/-- The state after a finite interleaving of the two threads. -/
def run (read : Nat → String) (schedule : List Action) : State :=
  schedule.foldl (step read) init

/-- The producer pushes only onto a queue of at most 10 chunks. -/
def SizeInv (s : State) : Prop :=
  s.m_queue.size ≤ 11 ∧ (s.pc = .loop_head ∨ s.pc = .push → s.m_queue.size ≤ 10)

end InputThread
end io
end osmium

/-! ### Reader (reader.hpp) -/

namespace osmium

namespace osm_entity

/-- Modelled from the spec: the set of entity kinds a caller asks for
(`osmium::osm_entity::flags`), one bit per kind. -/
structure flags where
  node : Bool
  way : Bool
  relation : Bool
  changeset : Bool
  deriving DecidableEq, Repr

/-- Value `osm_entity::flags::nothing`: no kind requested. -/
def flags.nothing : flags := ⟨false, false, false, false⟩

/-- Value `osm_entity::flags::all`: every kind requested. -/
def flags.all : flags := ⟨true, true, true, true⟩

end osm_entity

namespace io

/-- Constant `std::string::npos`, the largest `size_t` (64 bit). -/
def npos : Nat := 2 ^ 64 - 1

/-- Call `s.find_first_of(c)`: the index of the first occurrence of `c`, or `npos`
when there is none. -/
def find_first_of (s : String) (c : Char) : Nat :=
  if c ∈ s.data then s.data.indexOf c else npos

/-- Call `s.substr(pos, count)` for `pos <= s.size()`: at most `count` characters
starting at `pos`. -/
def substr (s : String) (pos count : Nat) : String :=
  ⟨(s.data.drop pos).take count⟩

/-- The part of `osmium::io::File` the reader uses: `filename()` and
`encoding()->compress()`. -/
structure File where
  filename : String
  compress : String
  deriving DecidableEq, Repr

/-- What the process did to the outside world, in order: system calls, and
operations on the input thread and on the input codec. -/
inductive Event where
  | pipe
  | fork (pid : Int) (argv : List String)
  | close (fd : Int)
  | open_for_reading (filename : String)
  | waitpid (pid : Int)
  | thread_start (compression : String) (fd : Int)
  | thread_join
  | input_read
  | next_buffer
  deriving DecidableEq, Repr

/-- The state of the operating system as far as the reader can observe it:
`errno`, the children of this process that have not been waited for yet (each
with the status `waitpid` will report once it has terminated), whether the next
blocking call will be interrupted by a signal, and the log of events. -/
structure World where
  errno : Nat
  children : List (Int × Nat)
  interrupt : Bool
  log : List Event
  deriving DecidableEq, Repr

/-- Outcome of a system call: its result, or the `errno` it fails with. -/
inductive SysResult (α : Type) where
  | ok (value : α)
  | fail (errno : Nat)

/-- Everything the reader's code calls but does not define: the outcomes of
`pipe` and `fork` (the pid the parent sees, positive), what happens in the child
(`dup2_fails`; `exec = none` when `execlp` fails, `some st` when the program runs
and terminates with wait status `st`), `io::detail::open_for_reading`, the
input factory, and the two operations of the input codec that the reader uses. -/
structure Env (Input Buffer Location : Type) where
  pipe : SysResult (Int × Int)
  fork : SysResult Int
  dup2_fails : Bool
  exec : Option Nat
  open_for_reading : String → Except Error Int
  create_input : File → Option Input
  input_read : Input → osm_entity.flags → Except Error (Header Location) × Input
  next_buffer : Input → Except Error Buffer × Input

def ECHILD : Nat := 10
def EINTR : Nat := 4

/-- Macro `WIFEXITED(status)`: the low seven bits (the terminating signal) are 0. -/
def WIFEXITED (status : Nat) : Bool := status % 128 == 0

/-- Macro `WEXITSTATUS(status)`: bits 8..15. -/
def WEXITSTATUS (status : Nat) : Nat := status / 256 % 256

/-- The wait status of a process that called `exit(code)`. -/
def W_EXITCODE (code : Nat) : Nat := code % 256 * 256

/-- What `waitpid(pid, &status, 0)` returns: the pid or -1, and the status it
stored (meaningful only when the call succeeded). -/
structure WaitResult where
  pid : Int
  status : Nat
  deriving DecidableEq, Repr

/-- Call `waitpid(pid, &status, 0)`.  An interrupted call fails with `EINTR` and reaps
nothing; a call for a child that has not been waited for returns its pid and
status and removes it from the children (it is reaped); any other call fails
with `ECHILD`. -/
def waitpid (w : World) (pid : Int) : WaitResult × World :=
  let w := { w with log := w.log ++ [Event.waitpid pid] }
  if w.interrupt then
    (⟨-1, 0⟩, { w with errno := EINTR, interrupt := false })
  else
    match w.children.lookup pid with
    | some status => (⟨pid, status⟩, { w with children := w.children.eraseP (fun c => c.1 == pid) })
    | none => (⟨-1, 0⟩, { w with errno := ECHILD })

/-- The members of `Reader`.  `m_input_thread` is `some (compression, fd)` while
the `std::thread` is joinable.  The input queue is part of `InputThread.State`. -/
structure Reader (Input : Type) where
  m_file : File
  m_input : Input
  m_input_thread : Option (String × Int)
  m_read_types : osm_entity.flags
  m_childpid : Int

namespace Reader

variable {Input Buffer Location : Type}

/-- The child's branch of `execute` (`pid == 0`): the wait status the child
terminates with.  It closes descriptors 0..31 except the pipe's write end and
calls `exit(1)` when `dup2` or `execlp` fails; otherwise the program replaces
the process image and decides the status. -/
def execute_child (env : Env Input Buffer Location) : Nat :=
  if env.dup2_fails then W_EXITCODE 1
  else
    match env.exec with
    | none => W_EXITCODE 1
    | some status => status

/-- Method `Reader::execute(command, filename)` in the parent. -/
def execute (env : Env Input Buffer Location) (s : Reader Input × World)
    (command filename : String) : (Reader Input × World) × Except Error Int :=
  let (r, w) := s
  let w := { w with log := w.log ++ [Event.pipe] }
  match env.pipe with
  | .fail e =>
    let w := { w with errno := e }
    ((r, w), .error (.system_error w.errno "opening pipe failed"))
  | .ok pipefd =>
    match env.fork with
    | .fail e =>
      let w := { w with errno := e }
      ((r, w), .error (.system_error w.errno "fork failed"))
    | .ok pid =>
      let w := { w with children := w.children ++ [(pid, execute_child env)],
                        log := w.log ++ [Event.fork pid [command, filename]] }
      let r := { r with m_childpid := pid }
      let w := { w with log := w.log ++ [Event.close pipefd.2] }
      ((r, w), .ok pipefd.1)

/-- The local `protocol` of `open_input_file_or_url`. -/
def protocol (filename : String) : String :=
  substr filename 0 (find_first_of filename ':')

/-- Method `Reader::open_input_file_or_url(filename)`. -/
def open_input_file_or_url (env : Env Input Buffer Location) (s : Reader Input × World)
    (filename : String) : (Reader Input × World) × Except Error Int :=
  let protocol := protocol filename
  if protocol = "http" ∨ protocol = "https" ∨ protocol = "ftp" ∨ protocol = "file" then
    execute env s "curl" filename
  else
    ((s.1, { s.2 with log := s.2.log ++ [Event.open_for_reading filename] }),
      env.open_for_reading filename)

/-- The constructor `Reader(osmium::io::File file)`.  When it throws no reader
exists afterwards; the world it leaves behind is returned in both cases. -/
def construct (env : Env Input Buffer Location) (w : World) (file : File) :
    World × Except Error (Reader Input) :=
  match env.create_input file with
  | none => (w, .error (.runtime_error "file type not supported"))
  | some input =>
    let r : Reader Input :=
      { m_file := file, m_input := input, m_input_thread := none,
        m_read_types := osm_entity.flags.all, m_childpid := 0 }
    match open_input_file_or_url env (r, w) r.m_file.filename with
    | ((_, w), .error e) => (w, .error e)
    | ((r, w), .ok fd) =>
      let w := { w with log := w.log ++ [Event.thread_start r.m_file.compress fd] }
      (w, .ok { r with m_input_thread := some (r.m_file.compress, fd) })

/-- Method `Reader::close()`. -/
def close (s : Reader Input × World) : (Reader Input × World) × Except Error Unit :=
  let (r, w) := s
  if r.m_childpid ≠ 0 then
    let (res, w) := waitpid w r.m_childpid
    if res.pid < 0 ∨ ¬ WIFEXITED res.status = true ∨ WEXITSTATUS res.status ≠ 0 then
      ((r, w), .error (.system_error w.errno "subprocess returned error"))
    else
      (({ r with m_childpid := 0 }, w), .ok ())
  else
    ((r, w), .ok ())

/-- How a call of the destructor ends.  `~Reader()` is declared without an
exception specification, which makes it `noexcept`: it either returns, or an
exception tries to leave it and `std::terminate` ends the process. -/
inductive DestructorExit where
  | returned
  | terminate (e : Error)
  deriving DecidableEq, Repr

/-- The destructor `~Reader()`: `close()`, then join the thread if it is
joinable.  An exception from `close()` cannot leave the destructor:
`std::terminate` is called, the thread is not joined. -/
def destroy (s : Reader Input × World) : (Reader Input × World) × DestructorExit :=
  match close s with
  | (s, .error e) => (s, .terminate e)
  | ((r, w), .ok ()) =>
    if r.m_input_thread.isSome then
      (({ r with m_input_thread := none }, { w with log := w.log ++ [Event.thread_join] }),
        .returned)
    else
      ((r, w), .returned)

end Reader

/-- Method `Reader::open(read_types)`. -/
def Reader.open {Input Buffer Location : Type} (env : Env Input Buffer Location) (s : Reader Input × World)
    (read_types : osm_entity.flags) :
    (Reader Input × World) × Except Error (Header Location) :=
  let (r, w) := s
  let r := { r with m_read_types := read_types }
  let (res, input) := env.input_read r.m_input read_types
  (({ r with m_input := input }, { w with log := w.log ++ [Event.input_read] }), res)

namespace Reader

variable {Input Buffer Location : Type}

/-- Method `Reader::read()`; `default` is the default-constructed `Buffer()`. -/
def read [Inhabited Buffer] (env : Env Input Buffer Location) (s : Reader Input × World) :
    (Reader Input × World) × Except Error Buffer :=
  let (r, w) := s
  if r.m_read_types = osm_entity.flags.nothing then
    ((r, w), .ok default)
  else
    let (res, input) := env.next_buffer r.m_input
    (({ r with m_input := input }, { w with log := w.log ++ [Event.next_buffer] }), res)

/-- Call `read()` `n` times in a row, collecting what the calls return. -/
def read_n [Inhabited Buffer] (env : Env Input Buffer Location) :
    Nat → Reader Input × World → (Reader Input × World) × List (Except Error Buffer)
  | 0, s => (s, [])
  | n + 1, s =>
    let (s1, res) := read env s
    let (s2, rest) := read_n env n s1
    (s2, res :: rest)

end Reader
end io
end osmium

/-! ### Concrete environments used to evaluate the reader -/

namespace osmium
namespace io

/-- An environment in which every call of the parent succeeds (`pipe` yields the
descriptors 3 and 4, `fork` yields pid 1234, the codec exists) but `execlp`
fails in the child, as it does when the retrieval program is not installed. -/
def curl_missing_env : Env Unit Unit Unit where
  pipe := .ok (3, 4)
  fork := .ok 1234
  dup2_fails := false
  exec := none
  open_for_reading := fun _ => .ok 5
  create_input := fun _ => some ()
  input_read := fun i _ => (.ok ⟨false, [], []⟩, i)
  next_buffer := fun i => (.ok (), i)

/-- As `curl_missing_env`, but `pipe` fails with `EMFILE` (24). -/
def pipe_fails_env : Env Unit Unit Unit :=
  { curl_missing_env with pipe := .fail 24 }

/-- As `curl_missing_env`, but the input factory knows no codec. -/
def no_codec_env : Env Unit Unit Unit :=
  { curl_missing_env with create_input := fun _ => none }

/-- A world without children and without events. -/
def World.initial : World :=
  { errno := 0, children := [], interrupt := false, log := [] }

/-- A reader with child 1234 attached, as the constructor leaves it for a URL. -/
def reader_with_child : Reader Unit :=
  { m_file := ⟨"http://example.org/data.osm", ""⟩, m_input := (),
    m_input_thread := some ("", 3), m_read_types := osm_entity.flags.all,
    m_childpid := 1234 }

/-- A world in which child 1234 has terminated with `exit(1)` and has not been
waited for. -/
def world_child_failed : World :=
  { errno := 0, children := [(1234, W_EXITCODE 1)], interrupt := false, log := [] }

end io
end osmium

/-! ### Entities rendered by the debug output format -/

namespace osmium

/-- Modelled from the spec: a tag, a key and a value (osmium/osm/tag.hpp). -/
structure Tag where
  key : String
  value : String
  deriving DecidableEq, Repr

/-- Modelled from the spec: what `write_meta` and `write_tags` read of an
`osmium::OSMObject` (osmium/osm/object.hpp): the 64-bit id, the version, the
visible flag, the changeset id, the timestamp in seconds, the user id and
name, and the tags in order. -/
structure OSMObject where
  id : Int
  version : Nat
  visible : Bool
  changeset : Nat
  timestamp : Nat
  uid : Nat
  user : String
  tags : List Tag
  deriving DecidableEq, Repr

/-- Modelled from the spec: a point record, an object with a location. -/
structure Node (Location : Type) where
  object : OSMObject
  location : Location

/-- Modelled from the spec: a node reference of a way, the referenced id and a
location. -/
structure NodeRef (Location : Type) where
  ref : Int
  location : Location

/-- Modelled from the spec: a way record, an object with its node references in
order. -/
structure Way (Location : Type) where
  object : OSMObject
  nodes : List (NodeRef Location)

/-- Modelled from the spec: a closed way is one whose first node reference
equals its last (`NodeRefList::is_closed`, called on non-empty lists only). -/
def Way.is_closed {Location : Type} (nodes : List (NodeRef Location)) : Bool :=
  match nodes.head?, nodes.getLast? with
  | some first, some last => first.ref == last.ref
  | _, _ => false

/-- The three member kinds `item_type_to_nwr_index` accepts. -/
inductive item_type where
  | node
  | way
  | relation
  deriving DecidableEq, Repr

/-- Modelled from the spec: `item_type_to_nwr_index` numbers node, way and
relation 0, 1 and 2. -/
def item_type_to_nwr_index : item_type → Nat
  | .node => 0
  | .way => 1
  | .relation => 2

/-- Modelled from the spec: a relation member, its kind, the referenced id and
its role. -/
structure RelationMember where
  type : item_type
  ref : Int
  role : String
  deriving DecidableEq, Repr

/-- Modelled from the spec: a relation record, an object with its members in
order. -/
structure Relation where
  object : OSMObject
  members : List RelationMember
  deriving DecidableEq, Repr

/-- Modelled from the spec: a comment of a changeset discussion. -/
structure ChangesetComment where
  date : Nat
  uid : Nat
  user : String
  text : String
  deriving DecidableEq, Repr

/-- Modelled from the spec: what `DebugOutputBlock::changeset` reads of an
`osmium::Changeset` (osmium/osm/changeset.hpp). -/
structure Changeset (Location : Type) where
  id : Nat
  num_changes : Nat
  created_at : Nat
  closed_at : Nat
  closed : Bool
  uid : Nat
  user : String
  bounds : io.Box Location
  tags : List Tag
  num_comments : Nat
  discussion : List ChangesetComment

/-- The items of a buffer that the handler has a callback for, in the order
`osmium::apply` visits them. -/
inductive Item (Location : Type) where
  | node (n : Node Location)
  | way (w : Way Location)
  | relation (r : Relation)
  | changeset (c : Changeset Location)

namespace io
namespace detail

/-! ### printf conversions used by `output_formatted` -/

/-- The character of a digit below 36: `0`..`9`, then `A`.. (upper case). -/
def digit_char (d : Nat) : Char :=
  if d < 10 then Char.ofNat (48 + d) else Char.ofNat (55 + d)

/-- The digits of `n` in base `b`, most significant first; `fuel` bounds the
number of digits and `n + 1` always suffices. -/
def to_base (b : Nat) : Nat → Nat → List Char
  | 0, _ => []
  | fuel + 1, n =>
    if n < b then [digit_char n] else to_base b fuel (n / b) ++ [digit_char (n % b)]

/-- Fill up to `width` characters by putting `c` in front. -/
def pad_left (c : Char) (width : Nat) (l : List Char) : List Char :=
  List.replicate (width - l.length) c ++ l

/-- The value an unsigned or `size_t` argument has when `printf` reads it as a
32-bit `int` for `%d`. -/
def int32 (n : Nat) : Int :=
  if n % 2 ^ 32 < 2 ^ 31 then (n % 2 ^ 32 : Nat) else (n % 2 ^ 32 : Nat) - 2 ^ 32

/-- Conversion `%d` (and `%lld` for a 64-bit argument): decimal, with a minus
sign for a negative number. -/
def fmt_d (i : Int) : String :=
  if i < 0 then ⟨'-' :: to_base 10 (i.natAbs + 1) i.natAbs⟩
  else ⟨to_base 10 (i.natAbs + 1) i.natAbs⟩

/-- Conversion `%10lld`: `%lld` right-justified in 10 columns. -/
def fmt_10d (i : Int) : String :=
  ⟨pad_left ' ' 10 (fmt_d i).data⟩

/-- Conversion `%04X`: upper-case hexadecimal, zero-padded to 4 digits. -/
def fmt_04X (n : Nat) : String :=
  ⟨pad_left '0' 4 (to_base 16 (n + 1) n)⟩

/-- Conversion `%0*d` with the width taken from an `int` argument: zero-padded
to `width` columns (a negative width means left-justified in `-width`
columns, padded with spaces). -/
def fmt_0wd (width : Int) (i : Int) : String :=
  if width < 0 then
    ⟨(fmt_d i).data ++ List.replicate (width.natAbs - (fmt_d i).data.length) ' '⟩
  else if i < 0 then
    ⟨'-' :: pad_left '0' (width.natAbs - 1) (to_base 10 (i.natAbs + 1) i.natAbs)⟩
  else
    ⟨pad_left '0' width.natAbs (to_base 10 (i.natAbs + 1) i.natAbs)⟩

/-- Conversion `%*s` applied to the empty string: `|width|` spaces. -/
def fmt_ws (width : Int) : String :=
  ⟨List.replicate width.natAbs ' '⟩

/-- What the block calls but neither header defines, for an unspecified
location type: `Timestamp::to_iso()`, the `%.7f` renderings of
`lon_without_check()` and `lat_without_check()`, `Location::valid()`,
`Box::operator bool` and `Box::valid()`, and the value of `int(log10(n))`. -/
structure Formats (Location : Type) where
  to_iso : Nat → String
  lon_f7 : Location → String
  lat_f7 : Location → String
  location_valid : Location → Bool
  box_set : Box Location → Bool
  box_valid : Box Location → Bool
  int_log10 : Nat → Int

end detail
end io
end osmium

/-! ### DebugOutputBlock (debug_output_format.hpp)

Every method appends to `*m_out`; here it takes the text so far and returns
the text afterwards.  A `const char*` argument is given by the text it points
to (the bytes before the terminating NUL), which is valid UTF-8 wherever
`utf8::next` returns. -/

namespace osmium
namespace io
namespace detail
namespace DebugOutputBlock

variable {Location : Type}

/-- The list of code points that `append_encoded_string` lets through. -/
def allowed (c : Nat) : Bool :=
  (0x0020 ≤ c && c ≤ 0x0021) ||
  (0x0023 ≤ c && c ≤ 0x003b) ||
  (0x003d == c) ||
  (0x003f ≤ c && c ≤ 0x007e) ||
  (0x00a1 ≤ c && c ≤ 0x00ac) ||
  (0x00ae ≤ c && c ≤ 0x05ff)

/-- Method `write_color(color)`. -/
def write_color (opts : debug_output_options) (out : String) (color : String) : String :=
  if opts.use_color then out ++ color else out

/-- The body of the loop of `append_encoded_string` for one code point: `ch` is
the code point `utf8::next` decoded, and `m_out->append(last, data)` appends the
bytes it was decoded from. -/
def append_encoded_char (opts : debug_output_options) (out : String) (ch : Char) : String :=
  let c := ch.toNat
  if allowed c then
    out.push ch
  else
    let out := write_color opts out color_red
    let out := out ++ "<U+" ++ fmt_04X c ++ ">"
    write_color opts out color_blue

/-- Method `append_encoded_string(data)`: one round of the loop per code point. -/
def append_encoded_string (opts : debug_output_options) (out : String) (data : String) :
    String :=
  data.data.foldl (append_encoded_char opts) out

/-- Method `write_string(string)`. -/
def write_string (opts : debug_output_options) (out : String) (string : String) : String :=
  let out := out.push '"'
  let out := write_color opts out color_blue
  let out := append_encoded_string opts out string
  let out := write_color opts out color_reset
  out.push '"'

/-- Method `write_object_type(object_type, visible)`. -/
def write_object_type (opts : debug_output_options) (out : String) (object_type : String)
    (visible : Bool) : String :=
  let out := if visible then write_color opts out color_bold
             else write_color opts out color_white
  let out := out ++ object_type
  let out := write_color opts out color_reset
  out.push ' '

/-- Method `write_fieldname(name)`. -/
def write_fieldname (opts : debug_output_options) (out : String) (name : String) : String :=
  let out := out ++ "  "
  let out := write_color opts out color_cyan
  let out := out ++ name
  let out := write_color opts out color_reset
  out ++ ": "

/-- Method `write_comment_field(name)`. -/
def write_comment_field (opts : debug_output_options) (out : String) (name : String) :
    String :=
  let out := write_color opts out color_cyan
  let out := out ++ name
  let out := write_color opts out color_reset
  out ++ ": "

/-- Method `write_counter(width, n)`, format `"    %0*d: "`. -/
def write_counter (opts : debug_output_options) (out : String) (width : Int) (n : Int) :
    String :=
  let out := write_color opts out color_white
  let out := out ++ "    " ++ fmt_0wd width n ++ ": "
  write_color opts out color_reset

/-- Method `write_error(msg)`. -/
def write_error (opts : debug_output_options) (out : String) (msg : String) : String :=
  let out := write_color opts out color_red
  let out := out ++ msg
  write_color opts out color_reset

/-- The version line of `write_meta` (the first three statements of its
`if (m_options.add_metadata)` block). -/
def write_meta_version (opts : debug_output_options) (out : String) (object : OSMObject) :
    String :=
  let out := write_fieldname opts out "version"
  let out := out ++ "  " ++ fmt_d (int32 object.version)
  if object.visible then out ++ " visible\n" else write_error opts out " deleted\n"

/-- The changeset line of `write_meta`. -/
def write_meta_changeset (opts : debug_output_options) (out : String) (object : OSMObject) :
    String :=
  let out := write_fieldname opts out "changeset"
  out ++ fmt_d (int32 object.changeset) ++ "\n"

/-- The timestamp line of `write_meta`. -/
def write_meta_timestamp (F : Formats Location) (opts : debug_output_options) (out : String)
    (object : OSMObject) : String :=
  let out := write_fieldname opts out "timestamp"
  let out := out ++ F.to_iso object.timestamp
  out ++ " (" ++ fmt_d (int32 object.timestamp) ++ ")\n"

/-- The user line of `write_meta`. -/
def write_meta_user (opts : debug_output_options) (out : String) (object : OSMObject) :
    String :=
  let out := write_fieldname opts out "user"
  let out := out ++ "     " ++ fmt_d (int32 object.uid) ++ " "
  let out := write_string opts out object.user
  out.push '\n'

/-- Method `write_meta(object)`. -/
def write_meta (F : Formats Location) (opts : debug_output_options) (out : String)
    (object : OSMObject) : String :=
  let out := out ++ fmt_d object.id ++ "\n"
  if opts.add_metadata then
    let out := write_meta_version opts out object
    let out := write_meta_changeset opts out object
    let out := write_meta_timestamp F opts out object
    write_meta_user opts out object
  else
    out

/-- The value of `max()` after `max.update(std::strlen(tag.key()))` for every
tag: the largest key length in bytes (`osmium::max_op<size_t>` starts at 0). -/
def max_key_length (tags : List Tag) : Nat :=
  tags.foldl (fun m tag => max m tag.key.utf8ByteSize) 0

/-- One round of the second loop of `write_tags`; `spacing` is a `size_t`
difference and `while (spacing--)` appends that many spaces. -/
def write_tag (opts : debug_output_options) (maxlen : Nat) (out : String) (tag : Tag) :
    String :=
  let out := out ++ "    "
  let out := write_string opts out tag.key
  let spacing := (maxlen + 2 ^ 64 - tag.key.utf8ByteSize) % 2 ^ 64
  let out := out ++ ⟨List.replicate spacing ' '⟩
  let out := out ++ " = "
  let out := write_string opts out tag.value
  out.push '\n'

/-- Method `write_tags(tags, padding)`. -/
def write_tags (opts : debug_output_options) (out : String) (tags : List Tag)
    (padding : String) : String :=
  if !tags.isEmpty then
    let out := write_fieldname opts out "tags"
    let out := out ++ padding
    let out := out ++ "     " ++ fmt_d (int32 tags.length) ++ "\n"
    tags.foldl (write_tag opts (max_key_length tags)) out
  else
    out

/-- Method `write_location(location)`. -/
def write_location (F : Formats Location) (opts : debug_output_options) (out : String)
    (location : Location) : String :=
  let out := write_fieldname opts out "lon/lat"
  let out := out ++ "  " ++ F.lon_f7 location ++ "," ++ F.lat_f7 location
  let out := if !F.location_valid location then write_error opts out " INVALID LOCATION!"
             else out
  out.push '\n'

/-- Method `write_box(box)`. -/
def write_box (F : Formats Location) (opts : debug_output_options) (out : String)
    (box : Box Location) : String :=
  let out := write_fieldname opts out "box l/b/r/t"
  if !F.box_set box then
    write_error opts out "BOX NOT SET!\n"
  else
    let bl := box.bottom_left
    let tr := box.top_right
    let out := out ++ F.lon_f7 bl ++ "," ++ F.lat_f7 bl ++ " " ++ F.lon_f7 tr ++ ","
      ++ F.lat_f7 tr
    let out := if !F.box_valid box then write_error opts out " INVALID BOX!" else out
    out.push '\n'

/-- Method `node(node)`. -/
def node (F : Formats Location) (opts : debug_output_options) (out : String)
    (node : Node Location) : String :=
  let out := write_object_type opts out "node" node.object.visible
  let out := write_meta F opts out node.object
  let out := if node.object.visible then write_location F opts out node.location else out
  let out := write_tags opts out node.object.tags ""
  out.push '\n'

/-- The nodes line of `way` (from `write_fieldname("nodes")` to the end of the
`if` chain on the number of nodes). -/
def way_nodes_line (opts : debug_output_options) (out : String)
    (nodes : List (NodeRef Location)) : String :=
  let out := write_fieldname opts out "nodes"
  let out := out ++ "    " ++ fmt_d (int32 nodes.length)
  if nodes.length < 2 then
    write_error opts out " LESS THAN 2 NODES!\n"
  else if nodes.length > 2000 then
    write_error opts out " MORE THAN 2000 NODES!\n"
  else if Way.is_closed nodes then
    out ++ " (closed)\n"
  else
    out ++ " (open)\n"

/-- One round of the loop of `way` over the node references; `n` is the value
of the counter before `n++`. -/
def way_node_ref (F : Formats Location) (opts : debug_output_options) (width : Int)
    (out : String) (n : Nat) (node_ref : NodeRef Location) : String :=
  let out := write_counter opts out width n
  let out := out ++ fmt_10d node_ref.ref
  let out := if F.location_valid node_ref.location then
      out ++ " (" ++ F.lon_f7 node_ref.location ++ "," ++ F.lat_f7 node_ref.location ++ ")"
    else out
  out.push '\n'

/-- Run a loop body over a list with the `int n = 0; ... n++` counter. -/
def foldl_counted {α : Type} (f : String → Nat → α → String) : String → Nat → List α → String
  | out, _, [] => out
  | out, n, x :: xs => foldl_counted f (f out n x) (n + 1) xs

/-- Method `way(way)`. -/
def way (F : Formats Location) (opts : debug_output_options) (out : String)
    (way : Way Location) : String :=
  let out := write_object_type opts out "way" way.object.visible
  let out := write_meta F opts out way.object
  let out := write_tags opts out way.object.tags ""
  let out := way_nodes_line opts out way.nodes
  let width := F.int_log10 way.nodes.length + 1
  let out := foldl_counted (way_node_ref F opts width) out 0 way.nodes
  out.push '\n'

/-- The table `short_typename` of `relation`. -/
def short_typename : Nat → String
  | 0 => "node"
  | 1 => "way "
  | _ => "rel "

/-- One round of the loop of `relation` over the members. -/
def relation_member (opts : debug_output_options) (width : Int) (out : String) (n : Nat)
    (member : RelationMember) : String :=
  let out := write_counter opts out width n
  let out := out ++ short_typename (item_type_to_nwr_index member.type)
  let out := out ++ " " ++ fmt_10d member.ref ++ " "
  let out := write_string opts out member.role
  out.push '\n'

/-- Method `relation(relation)`. -/
def relation (F : Formats Location) (opts : debug_output_options) (out : String)
    (relation : Relation) : String :=
  let out := write_object_type opts out "relation" relation.object.visible
  let out := write_meta F opts out relation.object
  let out := write_tags opts out relation.object.tags ""
  let out := write_fieldname opts out "members"
  let out := out ++ "  " ++ fmt_d (int32 relation.members.length) ++ "\n"
  let width := F.int_log10 relation.members.length + 1
  let out := foldl_counted (relation_member opts width) out 0 relation.members
  out.push '\n'

/-- The num changes line of `changeset`. -/
def changeset_num_changes (opts : debug_output_options) (out : String)
    (num_changes : Nat) : String :=
  let out := write_fieldname opts out "num changes"
  let out := out ++ fmt_d (int32 num_changes)
  let out := if num_changes = 0 then write_error opts out " NO CHANGES!" else out
  out.push '\n'

/-- The created at line of `changeset`. -/
def changeset_created_at (F : Formats Location) (opts : debug_output_options) (out : String)
    (created_at : Nat) : String :=
  let out := write_fieldname opts out "created at"
  let out := out.push ' '
  let out := out ++ F.to_iso created_at
  out ++ " (" ++ fmt_d (int32 created_at) ++ ")\n"

/-- The closed at field of `changeset`. -/
def changeset_closed_at (F : Formats Location) (opts : debug_output_options) (out : String)
    (closed : Bool) (closed_at : Nat) : String :=
  let out := write_fieldname opts out "closed at"
  let out := out ++ "  "
  if closed then
    let out := out ++ F.to_iso closed_at
    out ++ " (" ++ fmt_d (int32 closed_at) ++ ")\n"
  else
    write_error opts out "OPEN!\n"

/-- The user line of `changeset`. -/
def changeset_user (opts : debug_output_options) (out : String) (uid : Nat) (user : String) :
    String :=
  let out := write_fieldname opts out "user"
  let out := out ++ "       " ++ fmt_d (int32 uid) ++ " "
  let out := write_string opts out user
  out.push '\n'

/-- One round of the loop of `changeset` over the discussion. -/
def changeset_comment (F : Formats Location) (opts : debug_output_options) (width : Int)
    (out : String) (n : Nat) (comment : ChangesetComment) : String :=
  let out := write_counter opts out width n
  let out := write_comment_field opts out "date"
  let out := out ++ F.to_iso comment.date
  let out := out ++ " (" ++ fmt_d (int32 comment.date) ++ ")\n      " ++ fmt_ws width
  let out := write_comment_field opts out "user"
  let out := out ++ fmt_d (int32 comment.uid) ++ " "
  let out := write_string opts out comment.user
  let out := out ++ "\n      " ++ fmt_ws width
  let out := write_comment_field opts out "text"
  let out := write_string opts out comment.text
  out.push '\n'

/-- The comments part of `changeset`. -/
def changeset_comments (F : Formats Location) (opts : debug_output_options) (out : String)
    (changeset : Changeset Location) : String :=
  if changeset.num_comments > 0 then
    let out := write_fieldname opts out "comments"
    let out := out ++ "   " ++ fmt_d (int32 changeset.num_comments) ++ "\n"
    let width := F.int_log10 changeset.num_comments + 1
    foldl_counted (changeset_comment F opts width) out 0 changeset.discussion
  else
    out

/-- Method `changeset(changeset)`. -/
def changeset (F : Formats Location) (opts : debug_output_options) (out : String)
    (changeset : Changeset Location) : String :=
  let out := write_object_type opts out "changeset" true
  let out := out ++ fmt_d (int32 changeset.id) ++ "\n"
  let out := changeset_num_changes opts out changeset.num_changes
  let out := changeset_created_at F opts out changeset.created_at
  let out := changeset_closed_at F opts out changeset.closed changeset.closed_at
  let out := changeset_user opts out changeset.uid changeset.user
  let out := write_box F opts out changeset.bounds
  let out := write_tags opts out changeset.tags "  "
  let out := changeset_comments F opts out changeset
  out.push '\n'

/-- The callback `osmium::apply` invokes for one item. -/
def item (F : Formats Location) (opts : debug_output_options) (out : String) :
    Item Location → String
  | .node n => node F opts out n
  | .way w => way F opts out w
  | .relation r => relation F opts out r
  | .changeset c => changeset F opts out c

/-- The call operator `DebugOutputBlock::operator()`: apply the block to every
item of the input buffer and return the text collected in `*m_out`. -/
def run (F : Formats Location) (self : DebugOutputBlock (List (Item Location))) : String :=
  self.m_input_buffer.foldl (item F self.m_options) ""

end DebugOutputBlock

/-- Modelled from the spec: the option bag of a file, key/value pairs; `get`
returns the value set for a key and the empty string when the key is not set
(`osmium::io::File::get`). -/
def file_get (options : List (String × String)) (key : String) : String :=
  (options.lookup key).getD ""

/-- The options the constructor `DebugOutputFormat(file, output_queue)` stores. -/
def DebugOutputFormat.options_of_file (options : List (String × String)) :
    debug_output_options :=
  { add_metadata := file_get options "add_metadata" != "false",
    use_color := file_get options "color" == "true" }

end detail
end io
end osmium

/-! ### Notions used to state properties of the rendered text -/

namespace osmium
namespace io
namespace detail

/-- The text `text` contains `pattern` as a contiguous piece. -/
@[reducible] def contains (text pattern : String) : Prop :=
  pattern.data <:+: text.data

/-- The value of a hexadecimal digit written with `0`..`9`, `A`..`F`. -/
def hex_value (c : Char) : Nat :=
  if c.toNat < 58 then c.toNat - 48 else c.toNat - 55

/-- The number that a list of hexadecimal digits, most significant first,
denotes. -/
def hex_number (digits : List Char) : Nat :=
  digits.foldl (fun acc d => 16 * acc + hex_value d) 0

/-- An environment for evaluating the block on concrete entities over the
one-point location type: a fixed timestamp text, fixed coordinate texts, every
location invalid, every box unset, and `int(log10(n))` computed from the
number of decimal digits. -/
def example_formats : Formats Unit where
  to_iso := fun _ => "2015-01-01T00:00:00Z"
  lon_f7 := fun _ => "1.0000000"
  lat_f7 := fun _ => "2.0000000"
  location_valid := fun _ => false
  box_set := fun _ => false
  box_valid := fun _ => false
  int_log10 := fun n => ((to_base 10 (n + 1) n).length : Int) - 1

end detail

end io
end osmium

/-! ### Concrete entities used to evaluate the block -/

namespace osmium
namespace io
namespace detail

/-- A visible object without tags. -/
def example_object : OSMObject :=
  { id := 17, version := 3, visible := true, changeset := 55, timestamp := 1420070400,
    uid := 9, user := "bob", tags := [] }

/-- A way with the single node reference 1. -/
def one_node_way : Way Unit :=
  { object := example_object, nodes := [⟨1, ()⟩] }

/-- A way with the node references 1 and 2. -/
def two_node_way : Way Unit :=
  { object := example_object, nodes := [⟨1, ()⟩, ⟨2, ()⟩] }

/-- A closed changeset with one change and no tags or comments. -/
def example_changeset : Changeset Unit :=
  { id := 7, num_changes := 1, created_at := 1420070400, closed_at := 1420074000,
    closed := true, uid := 9, user := "bob", bounds := ⟨(), ()⟩, tags := [],
    num_comments := 0, discussion := [] }

end detail
end io
end osmium

/-! ### Further concrete inputs for the reader -/

namespace osmium
namespace io

/-- As `curl_missing_env`, but the retrieval program runs and exits with
status 0. -/
def curl_env : Env Unit Unit Unit :=
  { curl_missing_env with exec := some (W_EXITCODE 0) }

/-- The reader as the constructor has built it when it calls
`open_input_file_or_url`, for the local file name `file`. -/
def reader_before_open : Reader Unit :=
  { m_file := ⟨"file", ""⟩, m_input := (), m_input_thread := none,
    m_read_types := osm_entity.flags.all, m_childpid := 0 }

end io
end osmium

/-! ### The padding loop of `write_tags` -/

namespace osmium
namespace io
namespace detail
namespace DebugOutputBlock

/-- The loop `while (spacing--) { *m_out += " "; }` of `write_tags`, started with
the given value of `spacing`. -/
def padding_loop : Nat → String → String
  | 0, out => out
  | spacing + 1, out => padding_loop spacing (out ++ " ")

/-- The line that `write_tags` emits for one tag when the longest key has
`maxlen` bytes. -/
def tag_line (opts : debug_output_options) (maxlen : Nat) (tag : Tag) : String :=
  "    " ++ write_string opts "" tag.key
    ++ ⟨List.replicate (maxlen - tag.key.utf8ByteSize) ' '⟩
    ++ " = " ++ write_string opts "" tag.value ++ "\n"

end DebugOutputBlock

/-- Two tags whose keys have 7 and 2 bytes. -/
def example_tags : List Tag :=
  [⟨"highway", "primary"⟩, ⟨"na", "x"⟩]

end detail
end io
end osmium

/-! ### The escape of one code point, as a text -/

namespace osmium
namespace io
namespace detail
namespace DebugOutputBlock

/-- The text `append_encoded_string` appends for one code point when colour is
off: the code point itself if it is on the allow-list, else `<U+`, its `%04X`
text and `>`. -/
def escape_char (ch : Char) : List Char :=
  if allowed ch.toNat then [ch]
  else '<' :: 'U' :: '+' :: ((fmt_04X ch.toNat).data ++ ['>'])

end DebugOutputBlock
end detail
end io
end osmium

/-! ### Control characters and colour sequences in a text -/

namespace osmium
namespace io
namespace detail

/-- Every code point of the text is a line feed or is U+0020 or above: the text
has no ESC and no other control character below U+0020 except line feed. -/
def no_control (s : String) : Prop :=
  ∀ c ∈ s.data, c = '\n' ∨ 32 ≤ c.toNat

instance (s : String) : Decidable (no_control s) := by
  unfold no_control
  infer_instance

/-- The eleven ANSI colour sequences of the header, in the order they are
declared. -/
def color_sequences : List String :=
  [color_bold, color_black, color_gray, color_red, color_green, color_yellow, color_blue,
    color_magenta, color_cyan, color_white, color_reset]

/-- Delete every occurrence of a colour sequence, scanning from the left:
`skip` is the number of characters of a sequence that are still to be
dropped; where a sequence starts it is dropped, any other character is
kept. -/
def strip_colors_aux : Nat → List Char → List Char
  | _, [] => []
  | skip, c :: cs =>
    if skip > 0 then strip_colors_aux (skip - 1) cs
    else
      match color_sequences.find? (fun s => s.data.isPrefixOf (c :: cs)) with
      | some s => strip_colors_aux (s.data.length - 1) cs
      | none => c :: strip_colors_aux 0 cs

/-- The text with every occurrence of a colour sequence deleted. -/
def strip_colors (s : String) : String :=
  ⟨strip_colors_aux 0 s.data⟩

/-- Removing the colour sequences from `colored`, whatever follows it, leaves
`plain` followed by what is left of the rest. -/
def Strips (colored plain : String) : Prop :=
  ∀ rest : List Char,
    strip_colors_aux 0 (colored.data ++ rest) = plain.data ++ strip_colors_aux 0 rest

/-- A node whose user name and tags contain control characters, an ESC sequence
among them, followed by a way and a changeset. -/
def example_buffer : List (Item Unit) :=
  [.node ⟨{ example_object with user := "a\x1b[31mb\t", tags := [⟨"k\r", "v\x07w"⟩] }, ()⟩,
    .way two_node_way,
    .changeset example_changeset]

end detail
end io
end osmium

/-! ## Theorems -/

namespace osmium
namespace io
namespace detail

section DebugOutputFormatLemmas

variable {Buffer Location : Type}

theorem foldl_write_buffer_queue (self : DebugOutputFormat Buffer) (buffers : List Buffer) :
    (buffers.foldl DebugOutputFormat.write_buffer self).m_output_queue
        = self.m_output_queue
            ++ buffers.map (fun b => Future.task ⟨b, self.m_options⟩) ∧
      (buffers.foldl DebugOutputFormat.write_buffer self).m_options = self.m_options := by
  induction buffers generalizing self with
  | nil => simp
  | cons b bs ih =>
    obtain ⟨h1, h2⟩ := ih (DebugOutputFormat.write_buffer self b)
    simp only [List.foldl_cons, h1, h2]
    simp [DebugOutputFormat.write_buffer, thread.Queue.push]

theorem Future.get_complete (run : DebugOutputBlock Buffer → String) (f : Future Buffer) :
    (f.complete run).get run = f.get run := by
  cases f <;> rfl

theorem map_get_modify_complete (run : DebugOutputBlock Buffer → String)
    (q : List (Future Buffer)) (i : Nat) :
    (q.modify (Future.complete run) i).map (Future.get run) = q.map (Future.get run) := by
  induction q generalizing i with
  | nil => cases i <;> simp [List.modify]
  | cons f rest ih =>
    cases i with
    | zero => simp [List.modify, Future.get_complete]
    | succ i => simpa [List.modify] using ih i

/-- No action changes the text that the sink has received followed by the text
still to be delivered. -/
theorem Delivery.step_preserves (run : DebugOutputBlock Buffer → String)
    (d : Delivery Buffer) (a : QueueAction) :
    (d.step run a).sink ++ (d.step run a).queue.map (Future.get run)
      = d.sink ++ d.queue.map (Future.get run) := by
  cases a with
  | complete i => simp [Delivery.step, map_get_modify_complete]
  | drain =>
    obtain ⟨q, sink⟩ := d
    cases q with
    | nil => simp [Delivery.step]
    | cons f rest =>
      by_cases h : f.is_ready = true <;> simp [Delivery.step, h]

theorem Delivery.run_preserves (run : DebugOutputBlock Buffer → String)
    (d : Delivery Buffer) (schedule : List QueueAction) :
    (d.run run schedule).sink ++ (d.run run schedule).queue.map (Future.get run)
      = d.sink ++ d.queue.map (Future.get run) := by
  induction schedule generalizing d with
  | nil => rfl
  | cons a rest ih =>
    have := ih (d.step run a)
    simp only [Delivery.run, List.foldl_cons] at this ⊢
    rw [this, Delivery.step_preserves]

/-- From every state the queue can be emptied: finish the front task, take it,
and repeat. -/
theorem Delivery.can_drain (run : DebugOutputBlock Buffer → String) (d : Delivery Buffer) :
    ∃ more : List QueueAction, (d.run run more).queue = [] := by
  obtain ⟨q, sink⟩ := d
  induction q generalizing sink with
  | nil => exact ⟨[], rfl⟩
  | cons f rest ih =>
    obtain ⟨more, hmore⟩ := ih (sink ++ [f.get run])
    refine ⟨.complete 0 :: .drain :: more, ?_⟩
    cases f <;> simpa [Delivery.run, Delivery.step, List.modify, Future.complete,
      Future.is_ready, Future.get] using hmore

end DebugOutputFormatLemmas

/-- C1: after `write_header(h); write_buffer(b1); ...; write_buffer(bk); close()`
the output queue has gained exactly k+2 futures, in call order: the resolved
header text, one pool task per buffer (resolving to the encoding of that buffer
under the format's options), and the resolved empty string.  Starting from an
empty queue and an empty sink, whatever the pool workers and the consumer do
afterwards, in whatever order, the strings already written to the sink
followed by the values of the futures still queued are the header text, the
encodings of b1..bk in order and the empty string; and every such state can be
continued until the queue is empty, the sink then holding exactly that
sequence. -/
theorem write_all_delivers_in_call_order {Buffer Location : Type}
    (as_string : Location → Char → String) (run : DebugOutputBlock Buffer → String)
    (opts : debug_output_options) (q0 : thread.Queue (Future Buffer))
    (header : Header Location) (buffers : List Buffer) (schedule : List QueueAction) :
    (DebugOutputFormat.write_all as_string ⟨opts, q0⟩ header buffers).m_output_queue
        = q0 ++ (Future.ready
                  (DebugOutputFormat.render_header as_string
                    (⟨opts, q0⟩ : DebugOutputFormat Buffer) header)
                :: buffers.map (fun b => Future.task ⟨b, opts⟩)
                ++ [Future.ready ""]) ∧
      (DebugOutputFormat.write_all as_string ⟨opts, q0⟩ header buffers).m_output_queue.length
        = q0.length + (buffers.length + 2) ∧
      (Delivery.run run
          ⟨(DebugOutputFormat.write_all as_string ⟨opts, []⟩ header buffers).m_output_queue, []⟩
          schedule).sink
        ++ (Delivery.run run
          ⟨(DebugOutputFormat.write_all as_string ⟨opts, []⟩ header buffers).m_output_queue, []⟩
          schedule).queue.map (Future.get run)
        = DebugOutputFormat.render_header as_string
              (⟨opts, []⟩ : DebugOutputFormat Buffer) header
            :: buffers.map (fun b => run ⟨b, opts⟩) ++ [""] ∧
      ∃ more : List QueueAction,
        (Delivery.run run
          ⟨(DebugOutputFormat.write_all as_string ⟨opts, []⟩ header buffers).m_output_queue, []⟩
          (schedule ++ more)).queue = [] ∧
        (Delivery.run run
          ⟨(DebugOutputFormat.write_all as_string ⟨opts, []⟩ header buffers).m_output_queue, []⟩
          (schedule ++ more)).sink
          = DebugOutputFormat.render_header as_string
                (⟨opts, []⟩ : DebugOutputFormat Buffer) header
              :: buffers.map (fun b => run ⟨b, opts⟩) ++ [""] := by
  have hq : ∀ s : DebugOutputFormat Buffer,
      (DebugOutputFormat.write_all as_string s header buffers).m_output_queue
        = s.m_output_queue
            ++ (Future.ready (DebugOutputFormat.render_header as_string s header)
                :: buffers.map (fun b => Future.task ⟨b, s.m_options⟩)
                ++ [Future.ready ""]) := by
    intro s
    obtain ⟨h1, _⟩ := foldl_write_buffer_queue
      (DebugOutputFormat.write_header as_string s header) buffers
    simp only [DebugOutputFormat.write_all, DebugOutputFormat.close, thread.Queue.push]
    rw [h1]
    simp [DebugOutputFormat.write_header, thread.Queue.push]
  have hinv := Delivery.run_preserves run
    ⟨(DebugOutputFormat.write_all as_string ⟨opts, []⟩ header buffers).m_output_queue, []⟩
    schedule
  have hstart : (DebugOutputFormat.write_all as_string ⟨opts, []⟩ header
        buffers).m_output_queue.map (Future.get run)
      = DebugOutputFormat.render_header as_string
              (⟨opts, []⟩ : DebugOutputFormat Buffer) header
            :: buffers.map (fun b => run ⟨b, opts⟩) ++ [""] := by
    rw [hq]
    simp [Future.get, Function.comp_def]
  refine ⟨hq _, ?_, ?_, ?_⟩
  · rw [hq]; simp
  · rw [hinv]; simpa using hstart
  · obtain ⟨more, hmore⟩ := Delivery.can_drain run
      (Delivery.run run
        ⟨(DebugOutputFormat.write_all as_string ⟨opts, []⟩ header buffers).m_output_queue, []⟩
        schedule)
    have hrun : ∀ (d : Delivery Buffer) (a b : List QueueAction),
        d.run run (a ++ b) = (d.run run a).run run b := by
      intro d a b; simp [Delivery.run, List.foldl_append]
    refine ⟨more, ?_, ?_⟩
    · rw [hrun]; exact hmore
    · have h2 := Delivery.run_preserves run
        ⟨(DebugOutputFormat.write_all as_string ⟨opts, []⟩ header buffers).m_output_queue, []⟩
        (schedule ++ more)
      rw [hrun] at h2 ⊢
      rw [hmore] at h2
      simpa [hstart] using h2

end detail
end io
end osmium

namespace osmium
namespace io
namespace InputThread

theorem SizeInv_step (read : Nat → String) (s : State) (a : Action) (h : SizeInv s) :
    SizeInv (step read s a) := by
  obtain ⟨q, done, data, pc, reads, pushed⟩ := s
  obtain ⟨h1, h2⟩ := h
  simp only [thread.Queue.size] at h1 h2
  cases a with
  | consumer =>
    simp only [SizeInv, step, consumer_step, thread.Queue.pop, thread.Queue.size,
      List.length_tail]
    exact ⟨by omega, fun hp => by have := h2 hp; omega⟩
  | producer =>
    cases pc with
    | loop_head =>
      have := h2 (Or.inl rfl)
      cases done <;> simp [SizeInv, step, producer_step, thread.Queue.size] <;> omega
    | push =>
      have := h2 (Or.inr rfl)
      simp [SizeInv, step, producer_step, thread.Queue.size, thread.Queue.push]
      omega
    | wait =>
      by_cases hq : q.length > 10
      · simp [SizeInv, step, producer_step, thread.Queue.size, hq]
        omega
      · simp [SizeInv, step, producer_step, thread.Queue.size, hq]
        omega
    | finished =>
      simp [SizeInv, step, producer_step, thread.Queue.size]
      omega

theorem SizeInv_run (read : Nat → String) (schedule : List Action) :
    SizeInv (run read schedule) := by
  induction schedule using List.reverseRecOn with
  | nil => simp [run, SizeInv, init, thread.Queue.size]
  | append_singleton l a ih =>
    have := SizeInv_step read _ a ih
    simpa [run, List.foldl_append] using this

/-- C2, as stated, fails: with eleven non-empty chunks and a consumer that has
not popped yet, the queue holds 11 chunks after 32 steps of the input thread. -/
theorem queue_exceeds_ten :
    ¬ ∀ (read : Nat → String) (schedule : List Action),
        (run read schedule).m_queue.size ≤ 10 := by
  intro h
  have := h (fun _ => "x") (List.replicate 32 .producer)
  revert this
  decide

/-- C2, amended: in every reachable state of the input thread interleaved with
an arbitrary consumer the queue holds at most 11 chunks, and at most 10
whenever the input thread is about to read or to push. -/
theorem queue_size_le_eleven (read : Nat → String) (schedule : List Action) :
    (run read schedule).m_queue.size ≤ 11 ∧
      ((run read schedule).pc = .loop_head ∨ (run read schedule).pc = .push →
        (run read schedule).m_queue.size ≤ 10) :=
  SizeInv_run read schedule

end InputThread
end io
end osmium

namespace osmium
namespace io
namespace Reader

section ReaderLemmas

variable {Input Buffer Location : Type}

theorem mem_of_lookup_eq_some (l : List (Int × Nat)) (a : Int) (b : Nat)
    (h : l.lookup a = some b) : (a, b) ∈ l := by
  induction l with
  | nil => simp at h
  | cons x xs ih =>
    obtain ⟨k, v⟩ := x
    by_cases hk : a = k
    · subst hk
      simp [List.lookup] at h
      simp [h]
    · have hk2 : (a == k) = false := by simpa using hk
      simp only [List.lookup, hk2] at h
      exact List.mem_cons_of_mem _ (ih h)

theorem close_no_child (r : Reader Input) (w : World) (h : r.m_childpid = 0) :
    close (r, w) = ((r, w), .ok ()) := by
  simp [close, h]

theorem close_wait_bad (r : Reader Input) (w : World) (h : r.m_childpid ≠ 0)
    (hbad : (waitpid w r.m_childpid).1.pid < 0 ∨
        ¬ WIFEXITED (waitpid w r.m_childpid).1.status = true ∨
        WEXITSTATUS (waitpid w r.m_childpid).1.status ≠ 0) :
    close (r, w) = ((r, (waitpid w r.m_childpid).2),
      .error (.system_error (waitpid w r.m_childpid).2.errno "subprocess returned error")) := by
  unfold close
  simp only [h, ne_eq, not_false_eq_true, if_true]
  rw [if_pos hbad]

theorem close_wait_good (r : Reader Input) (w : World) (h : r.m_childpid ≠ 0)
    (hgood : ¬ ((waitpid w r.m_childpid).1.pid < 0 ∨
        ¬ WIFEXITED (waitpid w r.m_childpid).1.status = true ∨
        WEXITSTATUS (waitpid w r.m_childpid).1.status ≠ 0)) :
    close (r, w) = (({ r with m_childpid := 0 }, (waitpid w r.m_childpid).2), .ok ()) := by
  unfold close
  simp only [h, ne_eq, not_false_eq_true, if_true]
  rw [if_neg hgood]

/-- When `close()` returns normally, a further `close()` does nothing. -/
theorem close_after_successful_close (s : Reader Input × World)
    (h : (close s).2 = .ok ()) : close (close s).1 = ((close s).1, .ok ()) := by
  obtain ⟨r, w⟩ := s
  by_cases hpid : r.m_childpid = 0
  · rw [close_no_child r w hpid, close_no_child r w hpid]
  · by_cases hbad : (waitpid w r.m_childpid).1.pid < 0 ∨
        ¬ WIFEXITED (waitpid w r.m_childpid).1.status = true ∨
        WEXITSTATUS (waitpid w r.m_childpid).1.status ≠ 0
    · rw [close_wait_bad r w hpid hbad] at h
      cases h
    · rw [close_wait_good r w hpid hbad]
      exact close_no_child _ _ rfl

end ReaderLemmas

/-- C4 fails on the code: the reader has child 1234 attached and the child has
exited with status 1.  The first `close()` waits for the child and throws
without resetting `m_childpid`; the second `close()` therefore calls `waitpid`
for the same child again and throws again, now because the child is gone
(`ECHILD`).  The destructor's `close()` does the same, and as that exception
cannot leave the destructor the process ends in `std::terminate`. -/
theorem close_twice_waits_twice :
    (close (reader_with_child, world_child_failed)).2
        = .error (.system_error 0 "subprocess returned error") ∧
      (close (reader_with_child, world_child_failed)).1.1.m_childpid = 1234 ∧
      (close (reader_with_child, world_child_failed)).1.2.log = [Event.waitpid 1234] ∧
      (close (close (reader_with_child, world_child_failed)).1).2
        = .error (.system_error ECHILD "subprocess returned error") ∧
      (close (close (reader_with_child, world_child_failed)).1).1.2.log
        = [Event.waitpid 1234, Event.waitpid 1234] ∧
      (destroy (close (reader_with_child, world_child_failed)).1).2
        = .terminate (.system_error ECHILD "subprocess returned error") ∧
      (destroy (close (reader_with_child, world_child_failed)).1).1.2.log
        = [Event.waitpid 1234, Event.waitpid 1234] := by
  refine ⟨?_, ?_, ?_, ?_, ?_, ?_, ?_⟩ <;> rfl

/-- C5: `close()` throws exactly when a child is attached and `waitpid` fails, or
the child did not exit normally, or it exited with a non-zero status.  Whenever
`close()` returns normally no child is attached afterwards; without a child it
changes nothing; and a child that exited normally with status 0 is waited for
once and detached. -/
theorem close_raises_iff {Input : Type} (s : Reader Input × World) :
    ((∃ e, (close s).2 = .error e) ↔
        s.1.m_childpid ≠ 0 ∧
          ((waitpid s.2 s.1.m_childpid).1.pid < 0 ∨
            WIFEXITED (waitpid s.2 s.1.m_childpid).1.status = false ∨
            WEXITSTATUS (waitpid s.2 s.1.m_childpid).1.status ≠ 0)) ∧
      ((close s).2 = .ok () → (close s).1.1.m_childpid = 0) ∧
      (s.1.m_childpid = 0 → close s = (s, .ok ())) ∧
      (∀ status, 0 < s.1.m_childpid → s.2.interrupt = false →
        s.2.children.lookup s.1.m_childpid = some status →
        WIFEXITED status = true → WEXITSTATUS status = 0 →
        (close s).2 = .ok () ∧ (close s).1.1.m_childpid = 0 ∧
          (close s).1.2.log = s.2.log ++ [Event.waitpid s.1.m_childpid] ∧
          (close s).1.2.children.length + 1 = s.2.children.length) := by
  obtain ⟨r, w⟩ := s
  have hcases : r.m_childpid = 0 ∨ (r.m_childpid ≠ 0 ∧
      ((waitpid w r.m_childpid).1.pid < 0 ∨
        ¬ WIFEXITED (waitpid w r.m_childpid).1.status = true ∨
        WEXITSTATUS (waitpid w r.m_childpid).1.status ≠ 0)) ∨ (r.m_childpid ≠ 0 ∧
      ¬ ((waitpid w r.m_childpid).1.pid < 0 ∨
        ¬ WIFEXITED (waitpid w r.m_childpid).1.status = true ∨
        WEXITSTATUS (waitpid w r.m_childpid).1.status ≠ 0)) := by
    by_cases hpid : r.m_childpid = 0
    · exact Or.inl hpid
    · by_cases hbad : (waitpid w r.m_childpid).1.pid < 0 ∨
          ¬ WIFEXITED (waitpid w r.m_childpid).1.status = true ∨
          WEXITSTATUS (waitpid w r.m_childpid).1.status ≠ 0
      · exact Or.inr (Or.inl ⟨hpid, hbad⟩)
      · exact Or.inr (Or.inr ⟨hpid, hbad⟩)
  refine ⟨?_, ?_, ?_, ?_⟩
  · rcases hcases with hpid | ⟨hpid, hbad⟩ | ⟨hpid, hgood⟩
    · rw [close_no_child r w hpid]
      simp [hpid]
    · rw [close_wait_bad r w hpid hbad]
      simp only [Bool.not_eq_true] at hbad
      exact ⟨fun _ => ⟨hpid, hbad⟩, fun _ => ⟨_, rfl⟩⟩
    · rw [close_wait_good r w hpid hgood]
      simp only [Bool.not_eq_true] at hgood
      constructor
      · rintro ⟨e, he⟩
        cases he
      · rintro ⟨_, hbad⟩
        exact absurd hbad hgood
  · intro h
    rcases hcases with hpid | ⟨hpid, hbad⟩ | ⟨hpid, hgood⟩
    · rw [close_no_child r w hpid]
      exact hpid
    · rw [close_wait_bad r w hpid hbad] at h
      cases h
    · rw [close_wait_good r w hpid hgood]
  · intro hpid
    exact close_no_child r w hpid
  · intro status hpid hint hlook hexit hstatus
    simp only at hpid hint hlook
    have hw : waitpid w r.m_childpid
        = (⟨r.m_childpid, status⟩,
            { w with log := w.log ++ [Event.waitpid r.m_childpid],
                     children := w.children.eraseP (fun c => c.1 == r.m_childpid) }) := by
      simp [waitpid, hint, hlook]
    have hgood : ¬ ((waitpid w r.m_childpid).1.pid < 0 ∨
        ¬ WIFEXITED (waitpid w r.m_childpid).1.status = true ∨
        WEXITSTATUS (waitpid w r.m_childpid).1.status ≠ 0) := by
      simp only [hw, hexit, hstatus, not_true_eq_false, ne_eq, not_false_eq_true, or_false,
        false_or, not_lt]
      omega
    rw [close_wait_good r w (by omega) hgood, hw]
    refine ⟨rfl, rfl, rfl, ?_⟩
    have hmem : (r.m_childpid, status) ∈ w.children := mem_of_lookup_eq_some _ _ _ hlook
    have hlen := List.length_eraseP_of_mem (p := fun c => c.1 == r.m_childpid) hmem (by simp)
    have hpos : 0 < w.children.length := List.length_pos_of_mem hmem
    simp only [hlen]
    omega

section ReaderLemmas2

variable {Input Buffer Location : Type}

theorem read_nothing [Inhabited Buffer] (env : Env Input Buffer Location)
    (s : Reader Input × World) (h : s.1.m_read_types = osm_entity.flags.nothing) :
    read env s = (s, .ok default) := by
  obtain ⟨r, w⟩ := s
  simp only at h
  simp [read, h]

theorem read_n_nothing [Inhabited Buffer] (env : Env Input Buffer Location)
    (s : Reader Input × World) (h : s.1.m_read_types = osm_entity.flags.nothing) (n : Nat) :
    read_n env n s = (s, List.replicate n (.ok default)) := by
  induction n with
  | zero => rfl
  | succ n ih => simp [read_n, read_nothing env s h, ih, List.replicate_succ]

end ReaderLemmas2

/-- C6: after `open(osm_entity::flags::nothing)`, whether or not the codec's
header read threw, any number of `read()` calls all return the
default-constructed buffer and leave the reader and the world exactly as
`open` left them: the codec is not called (`m_input` and the event log are
unchanged, so there is no `next_buffer` call and the queue is not touched). -/
theorem read_after_open_nothing {Input Buffer Location : Type} [Inhabited Buffer]
    (env : Env Input Buffer Location) (s : Reader Input × World) (n : Nat) :
    read_n env n (Reader.open env s osm_entity.flags.nothing).1
      = ((Reader.open env s osm_entity.flags.nothing).1, List.replicate n (.ok default)) :=
  read_n_nothing env _ rfl n

section ProtocolLemmas

/-- The protocol of `scheme:rest` is `scheme` when `scheme` has no colon. -/
theorem protocol_of_colon (a b : List Char) (h : ':' ∉ a) :
    protocol ⟨a ++ ':' :: b⟩ = ⟨a⟩ := by
  have hidx : List.indexOf ':' (a ++ ':' :: b) = a.length := by
    induction a with
    | nil => simp [List.indexOf_cons]
    | cons x xs ih =>
      have hx : x ≠ ':' := fun hc => h (by simp [hc])
      have hxs : ':' ∉ xs := fun hc => h (by simp [hc])
      simp [List.indexOf_cons, hx, ih hxs]
  simp [protocol, substr, find_first_of, hidx]

/-- The protocol of a location without a colon is the whole location. -/
theorem protocol_no_colon (s : String) (h : ':' ∉ s.data) (hlen : s.data.length ≤ npos) :
    protocol s = s := by
  simp [protocol, substr, find_first_of, h, List.take_of_length_le hlen]

end ProtocolLemmas

/-- The test in the code: `open_input_file_or_url` takes the subprocess path
(`execute("curl", filename)`, whose first action is `pipe()`) exactly when the
local variable `protocol` is `http`, `https`, `ftp` or `file`.  Every child it forks is forked to
run `curl` with the location as its only argument and is recorded in
`m_childpid`.  For every other location the only thing that happens is
`open_for_reading(filename)`: the reader (in particular `m_childpid`) and the
set of children are unchanged.  The protocol of a location `scheme:rest` is
`scheme` (the text before the first colon); the protocol of a location without
a colon is the whole location. -/
theorem open_input_file_or_url_spawns_iff {Input Buffer Location : Type}
    (env : Env Input Buffer Location) (r : Reader Input) (w : World) (filename : String) :
    (∀ a b : List Char, ':' ∉ a → filename = ⟨a ++ ':' :: b⟩ → protocol filename = ⟨a⟩) ∧
    (':' ∉ filename.data → filename.data.length ≤ npos → protocol filename = filename) ∧
    ∃ events : List Event,
      (open_input_file_or_url env (r, w) filename).1.2.log = w.log ++ events ∧
      (Event.pipe ∈ events ↔
        (protocol filename = "http" ∨ protocol filename = "https" ∨
          protocol filename = "ftp" ∨ protocol filename = "file")) ∧
      ((∃ pid argv, Event.fork pid argv ∈ events) ↔
        ((protocol filename = "http" ∨ protocol filename = "https" ∨
          protocol filename = "ftp" ∨ protocol filename = "file") ∧
          ∃ fds pid, env.pipe = .ok fds ∧ env.fork = .ok pid)) ∧
      (∀ pid argv, Event.fork pid argv ∈ events →
        argv = ["curl", filename] ∧
          (open_input_file_or_url env (r, w) filename).1.1.m_childpid = pid ∧
          (pid, execute_child env) ∈ (open_input_file_or_url env (r, w) filename).1.2.children) ∧
      (¬ (protocol filename = "http" ∨ protocol filename = "https" ∨
          protocol filename = "ftp" ∨ protocol filename = "file") →
        events = [Event.open_for_reading filename] ∧
          (open_input_file_or_url env (r, w) filename).1.1 = r ∧
          (open_input_file_or_url env (r, w) filename).1.2.children = w.children ∧
          (open_input_file_or_url env (r, w) filename).2 = env.open_for_reading filename) := by
  refine ⟨fun a b ha hf => by rw [hf]; exact protocol_of_colon a b ha,
    fun h hlen => protocol_no_colon filename h hlen, ?_⟩
  by_cases hnet : protocol filename = "http" ∨ protocol filename = "https" ∨
      protocol filename = "ftp" ∨ protocol filename = "file"
  · have hopen : open_input_file_or_url env (r, w) filename
        = execute env (r, w) "curl" filename := by
      unfold open_input_file_or_url
      simp only [hnet, if_true]
    rw [hopen]
    cases hp : env.pipe with
    | fail e =>
      refine ⟨[Event.pipe], ?_, ?_, ?_, ?_, ?_⟩
      · simp [execute, hp]
      · simp [hnet]
      · simp [hnet]
      · simp
      · exact fun h => absurd hnet h
    | ok fds =>
      cases hf : env.fork with
      | fail e =>
        refine ⟨[Event.pipe], ?_, ?_, ?_, ?_, ?_⟩
        · simp [execute, hp, hf]
        · simp [hnet]
        · simp [hnet]
        · simp
        · exact fun h => absurd hnet h
      | ok pid =>
        refine ⟨[Event.pipe, Event.fork pid ["curl", filename], Event.close fds.2],
          ?_, ?_, ?_, ?_, ?_⟩
        · simp [execute, hp, hf]
        · simp [hnet]
        · simp [hnet]
        · intro pid2 argv hmem
          simp at hmem
          obtain ⟨rfl, rfl⟩ := hmem
          simp [execute, hp, hf]
        · exact fun h => absurd hnet h
  · refine ⟨[Event.open_for_reading filename], ?_, ?_, ?_, ?_, ?_⟩
    · unfold open_input_file_or_url
      simp only [hnet, if_false]
    · simp [hnet]
    · simp [hnet]
    · simp
    · intro _
      simp [open_input_file_or_url, hnet]

/-- C8 fails on the code: with `http://example.org/data.osm`, every call in the
parent succeeding and `execlp` failing in the child, the constructor returns a
reader (child 1234 attached, input thread started) and raises nothing. -/
theorem construct_succeeds_when_exec_fails :
    protocol "http://example.org/data.osm" = "http" ∧
      curl_missing_env.exec = none ∧
      (construct curl_missing_env World.initial ⟨"http://example.org/data.osm", ""⟩).2
        = .ok { m_file := ⟨"http://example.org/data.osm", ""⟩, m_input := (),
                m_input_thread := some ("", 3), m_read_types := osm_entity.flags.all,
                m_childpid := 1234 } ∧
      (construct curl_missing_env World.initial ⟨"http://example.org/data.osm", ""⟩).1.log
        = [Event.pipe, Event.fork 1234 ["curl", "http://example.org/data.osm"],
            Event.close 4, Event.thread_start "" 3] := by
  exact ⟨by decide, rfl, rfl, by decide⟩

section ConstructLemmas

variable {Input Buffer Location : Type}

theorem lookup_append_of_none (l m : List (Int × Nat)) (a : Int)
    (h : l.lookup a = none) : (l ++ m).lookup a = m.lookup a := by
  induction l with
  | nil => rfl
  | cons x xs ih =>
    obtain ⟨k, v⟩ := x
    by_cases hk : a = k
    · subst hk
      simp [List.lookup] at h
    · have hk2 : (a == k) = false := by simpa using hk
      simp only [List.lookup, hk2, List.cons_append] at h ⊢
      exact ih h

theorem open_input_file_or_url_network (env : Env Input Buffer Location)
    (s : Reader Input × World) (filename : String)
    (hnet : protocol filename = "http" ∨ protocol filename = "https" ∨
      protocol filename = "ftp" ∨ protocol filename = "file") :
    open_input_file_or_url env s filename = execute env s "curl" filename := by
  unfold open_input_file_or_url
  simp only [hnet, if_true]

end ConstructLemmas

/-- C8, amended: for a location with a network scheme, when the codec exists,
`pipe` and `fork` succeed and `execlp` fails in the child, the constructor does
not raise: it returns a reader with the child attached and the input thread
started, and the child terminates with `exit(1)`.  The failure is raised by
`close()`, as a `system_error` with the message "subprocess returned error". -/
theorem exec_failure_surfaces_at_close {Input Buffer Location : Type}
    (env : Env Input Buffer Location) (w : World) (file : File) (input : Input)
    (fds : Int × Int) (pid : Int)
    (hnet : protocol file.filename = "http" ∨ protocol file.filename = "https" ∨
      protocol file.filename = "ftp" ∨ protocol file.filename = "file")
    (hinput : env.create_input file = some input)
    (hpipe : env.pipe = .ok fds) (hfork : env.fork = .ok pid) (hpid : 0 < pid)
    (hexec : env.exec = none) (hfresh : w.children.lookup pid = none) :
    ∃ (r : Reader Input) (w1 : World),
      construct env w file = (w1, .ok r) ∧
      r.m_childpid = pid ∧
      r.m_input_thread = some (file.compress, fds.1) ∧
      w1.log = w.log ++ [Event.pipe, Event.fork pid ["curl", file.filename],
        Event.close fds.2, Event.thread_start file.compress fds.1] ∧
      w1.children = w.children ++ [(pid, W_EXITCODE 1)] ∧
      ∃ code, (close (r, w1)).2 = .error (.system_error code "subprocess returned error") := by
  have hchild : execute_child env = W_EXITCODE 1 := by
    unfold execute_child
    cases env.dup2_fails <;> simp [hexec]
  have hconstruct : construct env w file
      = ({ w with
            children := w.children ++ [(pid, W_EXITCODE 1)],
            log := w.log ++ [Event.pipe, Event.fork pid ["curl", file.filename],
              Event.close fds.2, Event.thread_start file.compress fds.1] },
          .ok { m_file := file, m_input := input,
                m_input_thread := some (file.compress, fds.1),
                m_read_types := osm_entity.flags.all, m_childpid := pid }) := by
    unfold construct
    simp only [hinput]
    rw [open_input_file_or_url_network env _ _ hnet]
    simp [execute, hpipe, hfork, hchild]
  have hclose : ∀ (r1 : Reader Input) (w1 : World), r1.m_childpid = pid →
      w1.children = w.children ++ [(pid, W_EXITCODE 1)] →
      ∃ code, (close (r1, w1)).2 = .error (.system_error code "subprocess returned error") := by
    intro r1 w1 hr1 hw1
    have hne : r1.m_childpid ≠ 0 := by omega
    have hbad : (waitpid w1 r1.m_childpid).1.pid < 0 ∨
        ¬ WIFEXITED (waitpid w1 r1.m_childpid).1.status = true ∨
        WEXITSTATUS (waitpid w1 r1.m_childpid).1.status ≠ 0 := by
      cases hint : w1.interrupt with
      | true =>
        left
        simp [waitpid, hint]
      | false =>
        right; right
        have hl : List.lookup pid (w.children ++ [(pid, 256)]) = some 256 := by
          rw [lookup_append_of_none w.children [(pid, 256)] pid hfresh]
          simp [List.lookup]
        simp [waitpid, hint, hr1, hw1, W_EXITCODE, hl, WEXITSTATUS]
    rw [close_wait_bad r1 w1 hne hbad]
    exact ⟨_, rfl⟩
  exact ⟨_, _, hconstruct, rfl, rfl, rfl, rfl, hclose _ _ rfl rfl⟩

/-- C8, amended, at a concrete input: `http://example.org/data.osm` in an
environment where `execlp` fails in the child. -/
theorem exec_failure_surfaces_at_close_witness :
    ∃ (r : Reader Unit) (w1 : World),
      construct curl_missing_env World.initial ⟨"http://example.org/data.osm", ""⟩
        = (w1, .ok r) ∧
      r.m_childpid = 1234 ∧
      r.m_input_thread = some ("", 3) ∧
      w1.log = World.initial.log ++ [Event.pipe,
        Event.fork 1234 ["curl", "http://example.org/data.osm"],
        Event.close 4, Event.thread_start "" 3] ∧
      w1.children = World.initial.children ++ [(1234, W_EXITCODE 1)] ∧
      ∃ code, (close (r, w1)).2 = .error (.system_error code "subprocess returned error") :=
  exec_failure_surfaces_at_close curl_missing_env World.initial
    ⟨"http://example.org/data.osm", ""⟩ () (3, 4) 1234 (Or.inl (by decide)) rfl rfl rfl
    (by decide) rfl rfl

/-- C9: when `pipe` fails, or `pipe` succeeds and `fork` fails, with error code
`e`, `execute` throws a `system_error` carrying `e`, leaves the reader (in
particular `m_childpid`) and the set of children unchanged, and the only event
is the `pipe` call.  The constructor, for a location with a network scheme and
an existing codec, then throws the same error with nothing else done: no child,
no file opened, no input thread started. -/
theorem execute_raises_when_pipe_or_fork_fails {Input Buffer Location : Type}
    (env : Env Input Buffer Location) (r : Reader Input) (w : World)
    (command filename : String) (e : Nat)
    (h : env.pipe = .fail e ∨ ((∃ fds, env.pipe = .ok fds) ∧ env.fork = .fail e)) :
    (∃ what, (execute env (r, w) command filename).2 = .error (.system_error e what)) ∧
      (execute env (r, w) command filename).1.1 = r ∧
      (execute env (r, w) command filename).1.2.children = w.children ∧
      (execute env (r, w) command filename).1.2.log = w.log ++ [Event.pipe] ∧
      (∀ (file : File) (input : Input),
        env.create_input file = some input →
        (protocol file.filename = "http" ∨ protocol file.filename = "https" ∨
          protocol file.filename = "ftp" ∨ protocol file.filename = "file") →
        (∃ what, (construct env w file).2 = .error (.system_error e what)) ∧
          (construct env w file).1.children = w.children ∧
          (construct env w file).1.log = w.log ++ [Event.pipe]) := by
  have hex : ∀ (s : Reader Input × World) (command filename : String),
      (∃ what, execute env s command filename
          = ((s.1, { s.2 with log := s.2.log ++ [Event.pipe], errno := e }),
              .error (.system_error e what))) := by
    intro s command filename
    obtain ⟨r, w⟩ := s
    rcases h with hp | ⟨⟨fds, hp⟩, hf⟩
    · exact ⟨"opening pipe failed", by simp [execute, hp]⟩
    · exact ⟨"fork failed", by simp [execute, hp, hf]⟩
  obtain ⟨what, hwhat⟩ := hex (r, w) command filename
  refine ⟨⟨what, by rw [hwhat]⟩, by rw [hwhat], by rw [hwhat], by rw [hwhat], ?_⟩
  intro file input hinput hnet
  obtain ⟨what2, hwhat2⟩ := hex
    ({ m_file := file, m_input := input, m_input_thread := none,
       m_read_types := osm_entity.flags.all, m_childpid := 0 }, w) "curl" file.filename
  have hconstruct : construct env w file
      = ({ w with log := w.log ++ [Event.pipe], errno := e },
          .error (.system_error e what2)) := by
    unfold construct
    simp only [hinput]
    rw [open_input_file_or_url_network env _ _ hnet, hwhat2]
  rw [hconstruct]
  exact ⟨⟨what2, rfl⟩, rfl, rfl⟩

/-- C9 at a concrete input: `pipe` fails with `EMFILE`. -/
theorem execute_raises_when_pipe_or_fork_fails_witness :
    (∃ what, (execute pipe_fails_env (reader_with_child, World.initial) "curl"
        "http://example.org/data.osm").2 = .error (.system_error 24 what)) ∧
      (execute pipe_fails_env (reader_with_child, World.initial) "curl"
        "http://example.org/data.osm").1.1 = reader_with_child ∧
      (execute pipe_fails_env (reader_with_child, World.initial) "curl"
        "http://example.org/data.osm").1.2.children = World.initial.children ∧
      (execute pipe_fails_env (reader_with_child, World.initial) "curl"
        "http://example.org/data.osm").1.2.log = World.initial.log ++ [Event.pipe] ∧
      (∃ what, (construct pipe_fails_env World.initial
          ⟨"http://example.org/data.osm", ""⟩).2 = .error (.system_error 24 what)) ∧
      (construct pipe_fails_env World.initial
          ⟨"http://example.org/data.osm", ""⟩).1.log = World.initial.log ++ [Event.pipe] := by
  have h := execute_raises_when_pipe_or_fork_fails pipe_fails_env reader_with_child
    World.initial "curl" "http://example.org/data.osm" 24 (Or.inl rfl)
  obtain ⟨h1, h2, h3, h4, h5⟩ := h
  have h6 := h5 ⟨"http://example.org/data.osm", ""⟩ () rfl (Or.inl (by decide))
  exact ⟨h1, h2, h3, h4, h6.1, h6.2.2⟩

/-- C10: when the input factory has no codec for the file (`create_input`
yields null), the constructor throws `runtime_error("file type not supported")`
and the world is exactly as before: no file opened, no pipe, no child, no input
thread. -/
theorem construct_raises_without_codec {Input Buffer Location : Type}
    (env : Env Input Buffer Location) (w : World) (file : File)
    (h : env.create_input file = none) :
    construct env w file = (w, .error (.runtime_error "file type not supported")) := by
  unfold construct
  simp only [h]

/-- C10 at a concrete input: a factory without codecs and a URL. -/
theorem construct_raises_without_codec_witness :
    no_codec_env.create_input ⟨"http://example.org/data.osm", ""⟩ = none ∧
      construct no_codec_env World.initial ⟨"http://example.org/data.osm", ""⟩
        = (World.initial, .error (.runtime_error "file type not supported")) :=
  ⟨rfl, construct_raises_without_codec no_codec_env World.initial
    ⟨"http://example.org/data.osm", ""⟩ rfl⟩

end Reader
end io
end osmium

namespace osmium
namespace io
namespace Reader

end Reader

namespace detail

/-- C17: the options are `add_metadata = true`, `use_color = false` when the
file sets no options, and more generally when it sets neither key;
`add_metadata` is false exactly when the option `add_metadata` is the text
`false`, and `use_color` is true exactly when the option `color` is the text
`true`.  The option bag of `debug,add_metadata=true,color=false` gives
`add_metadata = true`, `use_color = false`. -/
theorem options_of_file_defaults (options : List (String × String)) :
    DebugOutputFormat.options_of_file [] = ⟨true, false⟩ ∧
      (options.lookup "add_metadata" = none →
        (DebugOutputFormat.options_of_file options).add_metadata = true) ∧
      (options.lookup "color" = none →
        (DebugOutputFormat.options_of_file options).use_color = false) ∧
      ((DebugOutputFormat.options_of_file options).add_metadata = false ↔
        options.lookup "add_metadata" = some "false") ∧
      ((DebugOutputFormat.options_of_file options).use_color = true ↔
        options.lookup "color" = some "true") ∧
      DebugOutputFormat.options_of_file [("add_metadata", "true"), ("color", "false")]
        = ⟨true, false⟩ := by
  refine ⟨by decide, ?_, ?_, ?_, ?_, by decide⟩
  · intro h
    simp [DebugOutputFormat.options_of_file, file_get, h]
  · intro h
    simp [DebugOutputFormat.options_of_file, file_get, h]
  · cases h : options.lookup "add_metadata" with
    | none => simp [DebugOutputFormat.options_of_file, file_get, h]
    | some v => simp [DebugOutputFormat.options_of_file, file_get, h]
  · cases h : options.lookup "color" with
    | none => simp [DebugOutputFormat.options_of_file, file_get, h]
    | some v => simp [DebugOutputFormat.options_of_file, file_get, h]

end detail
end io
end osmium

namespace osmium
namespace io
namespace detail

section PrintfLemmas

theorem hex_value_digit_char (d : Nat) (h : d < 16) : hex_value (digit_char d) = d := by
  interval_cases d <;> decide

theorem digit_char_hex (d : Nat) (h : d < 16) : digit_char d ∈ "0123456789ABCDEF".data := by
  interval_cases d <;> decide

theorem digit_char_dec (d : Nat) (h : d < 10) : digit_char d ∈ "0123456789".data := by
  interval_cases d <;> decide

theorem hex_number_append (l : List Char) (d : Char) :
    hex_number (l ++ [d]) = 16 * hex_number l + hex_value d := by
  simp [hex_number, List.foldl_append]

/-- With enough fuel the hexadecimal digits denote the number. -/
theorem hex_number_to_base (fuel n : Nat) (h : n < fuel) :
    hex_number (to_base 16 fuel n) = n := by
  induction fuel generalizing n with
  | zero => omega
  | succ fuel ih =>
    by_cases hn : n < 16
    · simp only [to_base, hn, if_true]
      simpa [hex_number] using hex_value_digit_char n hn
    · simp only [to_base, hn, if_false]
      rw [hex_number_append, ih (n / 16) (by omega),
        hex_value_digit_char (n % 16) (Nat.mod_lt _ (by decide))]
      omega

theorem to_base_chars (b : Nat) (hb : 0 < b) (fuel n : Nat) :
    ∀ c ∈ to_base b fuel n, ∃ d, d < b ∧ c = digit_char d := by
  induction fuel generalizing n with
  | zero => simp [to_base]
  | succ fuel ih =>
    intro c hc
    by_cases hn : n < b
    · simp only [to_base, hn, if_true, List.mem_singleton] at hc
      exact ⟨n, hn, hc⟩
    · simp only [to_base, hn, if_false, List.mem_append, List.mem_singleton] at hc
      rcases hc with hc | hc
      · exact ih _ c hc
      · exact ⟨n % b, Nat.mod_lt _ hb, hc⟩

theorem to_base_ne_nil (b fuel n : Nat) : to_base b (fuel + 1) n ≠ [] := by
  simp only [to_base]
  split <;> simp

/-- The first digit is not zero unless the number has a single digit. -/
theorem to_base_head (b : Nat) (hb : 1 < b) (fuel n : Nat) (h : n < fuel) (hn : b ≤ n) :
    ∃ d rest, to_base b fuel n = digit_char d :: rest ∧ 0 < d ∧ d < b := by
  induction fuel generalizing n with
  | zero => omega
  | succ fuel ih =>
    have hnb : ¬ n < b := by omega
    simp only [to_base, hnb, if_false]
    by_cases hq : n / b < b
    · have hq0 : 0 < n / b := Nat.div_pos hn (by omega)
      cases fuel with
      | zero => omega
      | succ fuel =>
        simp only [to_base, hq, if_true]
        exact ⟨n / b, _, rfl, hq0, hq⟩
    · have hlt : n / b < n := Nat.div_lt_self (by omega) hb
      obtain ⟨d, rest, hrest, hd0, hdb⟩ := ih (n / b) (by omega) (by omega)
      rw [hrest]
      exact ⟨d, _, rfl, hd0, hdb⟩

theorem to_base_length_of_lt (b fuel n : Nat) (hn : n < b) :
    (to_base b (fuel + 1) n).length = 1 := by
  simp [to_base, hn]

theorem hex_number_replicate_zero (k : Nat) (l : List Char) :
    hex_number (List.replicate k '0' ++ l) = hex_number l := by
  induction k with
  | zero => rfl
  | succ k ih =>
    have h0 : hex_value '0' = 0 := by decide
    simp only [hex_number, List.replicate_succ, List.cons_append, List.foldl_cons, h0] at ih ⊢
    exact ih

/-- What `%04X` prints: at least four upper-case hexadecimal digits that denote
the number, with no zero in front once there are more than four. -/
theorem fmt_04X_spec (n : Nat) :
    (∀ c ∈ (fmt_04X n).data, c ∈ "0123456789ABCDEF".data) ∧
      4 ≤ (fmt_04X n).data.length ∧
      hex_number (fmt_04X n).data = n ∧
      (4 < (fmt_04X n).data.length → (fmt_04X n).data.head? ≠ some '0') := by
  refine ⟨?_, ?_, ?_, ?_⟩
  · intro c hc
    simp only [fmt_04X, pad_left, List.mem_append, List.mem_replicate] at hc
    rcases hc with ⟨_, rfl⟩ | hc
    · decide
    · obtain ⟨d, hd, rfl⟩ := to_base_chars 16 (by decide) _ _ c hc
      exact digit_char_hex d hd
  · simp only [fmt_04X, pad_left, List.length_append, List.length_replicate]
    omega
  · simp only [fmt_04X, pad_left]
    rw [hex_number_replicate_zero, hex_number_to_base _ _ (Nat.lt_succ_self n)]
  · intro hlen
    simp only [fmt_04X, pad_left, List.length_append, List.length_replicate] at hlen
    have hlong : 4 < (to_base 16 (n + 1) n).length := by omega
    have hpad : 4 - (to_base 16 (n + 1) n).length = 0 := by omega
    have hge : 16 ≤ n := by
      by_contra hlt
      have := to_base_length_of_lt 16 n n (by omega)
      omega
    obtain ⟨d, rest, hrest, hd0, hdb⟩ := to_base_head 16 (by decide) (n + 1) n
      (Nat.lt_succ_self n) hge
    simp only [fmt_04X, pad_left]
    rw [hpad]
    simp only [List.replicate_zero, List.nil_append, hrest, List.head?_cons]
    intro hc
    have hv := congrArg hex_value (Option.some.inj hc)
    rw [hex_value_digit_char d hdb] at hv
    have h0 : hex_value '0' = 0 := by decide
    omega

end PrintfLemmas

end detail
end io
end osmium

namespace osmium
namespace io
namespace detail
namespace DebugOutputBlock

section EncodedStringLemmas

theorem write_color_eq (opts : debug_output_options) (out color : String) :
    write_color opts out color = out ++ write_color opts "" color := by
  unfold write_color
  split <;> simp

theorem append_encoded_char_eq (opts : debug_output_options) (out : String) (ch : Char) :
    append_encoded_char opts out ch = out ++ append_encoded_char opts "" ch := by
  apply String.ext
  by_cases h : allowed ch.toNat = true <;> cases hc : opts.use_color <;>
    simp [append_encoded_char, write_color, h, hc]

theorem foldl_append_encoded_char (opts : debug_output_options) (out : String)
    (l : List Char) :
    l.foldl (append_encoded_char opts) out
      = out ++ ⟨l.flatMap (fun ch => (append_encoded_char opts "" ch).data)⟩ := by
  induction l generalizing out with
  | nil => exact String.ext (by simp)
  | cons ch rest ih =>
    rw [List.foldl_cons, ih, append_encoded_char_eq]
    exact String.ext (by simp)

theorem append_encoded_string_eq (opts : debug_output_options) (out data : String) :
    append_encoded_string opts out data = out ++ append_encoded_string opts "" data := by
  unfold append_encoded_string
  rw [foldl_append_encoded_char, foldl_append_encoded_char opts ""]
  simp

end EncodedStringLemmas

/-- C12: with `use_color` false, `append_encoded_string` appends, for each code
point of the string in order, the code point itself when it is on the
allow-list and otherwise `<U+`, the `%04X` text of the code point and `>`, and
nothing else.  The `%04X` text consists of at least four upper-case
hexadecimal digits denoting the code point, without a zero in front once there
are more than four.  The allow-list is U+0020-0021, U+0023-003B, U+003D,
U+003F-007E, U+00A1-00AC, U+00AE-05FF.  U+1F600 becomes `<U+1F600>` and the
double quote becomes `<U+0022>`. -/
theorem append_encoded_string_escapes (add_metadata : Bool) (out data : String) (c : Nat) :
    append_encoded_string ⟨add_metadata, false⟩ out data
        = out ++ ⟨data.data.flatMap (fun ch =>
            if allowed ch.toNat then [ch]
            else "<U+".data ++ (fmt_04X ch.toNat).data ++ ">".data)⟩ ∧
      ((∀ d ∈ (fmt_04X c).data, d ∈ "0123456789ABCDEF".data) ∧
        4 ≤ (fmt_04X c).data.length ∧
        hex_number (fmt_04X c).data = c ∧
        (4 < (fmt_04X c).data.length → (fmt_04X c).data.head? ≠ some '0')) ∧
      (allowed c = true ↔
        (0x0020 ≤ c ∧ c ≤ 0x0021) ∨ (0x0023 ≤ c ∧ c ≤ 0x003B) ∨ c = 0x003D ∨
          (0x003F ≤ c ∧ c ≤ 0x007E) ∨ (0x00A1 ≤ c ∧ c ≤ 0x00AC) ∨
          (0x00AE ≤ c ∧ c ≤ 0x05FF)) ∧
      append_encoded_string ⟨add_metadata, false⟩ "" (String.singleton (Char.ofNat 0x1F600))
        = "<U+1F600>" ∧
      append_encoded_string ⟨add_metadata, false⟩ "" "\""
        = "<U+0022>" ∧
      append_encoded_string ⟨add_metadata, false⟩ "" "a\"b"
        = "a<U+0022>b" := by
  refine ⟨?_, fmt_04X_spec c, ?_, ?_, ?_, ?_⟩
  · unfold append_encoded_string
    rw [foldl_append_encoded_char]
    congr 2
    apply List.flatMap_congr
    intro ch _
    by_cases h : allowed ch.toNat = true <;> simp [append_encoded_char, write_color, h]
  · simp only [allowed, Bool.or_eq_true, Bool.and_eq_true, decide_eq_true_eq, beq_iff_eq]
    constructor
    · rintro (((((h | h) | h) | h) | h) | h) <;> omega
    · intro h
      omega
  · cases add_metadata <;> decide
  · cases add_metadata <;> decide
  · cases add_metadata <;> decide

/-- C13: `append_encoded_string` appends a string made only of allow-listed code
points unchanged, whatever the options are; and for all strings `s` and `t`
what it appends for `s` followed by `t` is what it appends for `s` followed by
what it appends for `t`. -/
theorem append_encoded_string_verbatim_and_additive (opts : debug_output_options)
    (out s t : String) :
    ((∀ ch ∈ s.data, allowed ch.toNat = true) →
        append_encoded_string opts out s = out ++ s) ∧
      append_encoded_string opts out (s ++ t)
        = append_encoded_string opts (append_encoded_string opts out s) t ∧
      append_encoded_string opts "" (s ++ t)
        = append_encoded_string opts "" s ++ append_encoded_string opts "" t := by
  refine ⟨?_, ?_, ?_⟩
  · intro h
    unfold append_encoded_string
    rw [foldl_append_encoded_char]
    congr 1
    apply String.ext
    simp only
    have : ∀ l : List Char, (∀ ch ∈ l, allowed ch.toNat = true) →
        l.flatMap (fun ch => (append_encoded_char opts "" ch).data) = l := by
      intro l hl
      induction l with
      | nil => rfl
      | cons ch rest ih =>
        have hch := hl ch (List.mem_cons_self _ _)
        have hrest := ih (fun x hx => hl x (List.mem_cons_of_mem _ hx))
        simp only [List.flatMap_cons, hrest]
        simp [append_encoded_char, hch]
    exact this s.data h
  · simp [append_encoded_string, List.foldl_append]
  · rw [← append_encoded_string_eq]
    simp [append_encoded_string, List.foldl_append]

end DebugOutputBlock
end detail
end io
end osmium

namespace osmium
namespace io
namespace detail
namespace DebugOutputBlock

section AppendLemmas

variable {Location : Type}

theorem push_append (a b : String) (c : Char) : (a ++ b).push c = a ++ b.push c :=
  String.ext (by simp)

theorem ite_append (p : Prop) [Decidable p] (a x y : String) :
    (if p then a ++ x else a ++ y) = a ++ (if p then x else y) := by
  split <;> rfl

theorem write_color_append (opts : debug_output_options) (a b color : String) :
    write_color opts (a ++ b) color = a ++ write_color opts b color := by
  unfold write_color
  split <;> simp [String.append_assoc]

theorem append_encoded_string_append (opts : debug_output_options) (a b data : String) :
    append_encoded_string opts (a ++ b) data = a ++ append_encoded_string opts b data := by
  rw [append_encoded_string_eq, append_encoded_string_eq opts b, String.append_assoc]

theorem write_string_append (opts : debug_output_options) (a b s : String) :
    write_string opts (a ++ b) s = a ++ write_string opts b s := by
  simp [write_string, push_append, write_color_append, append_encoded_string_append]

theorem write_object_type_append (opts : debug_output_options) (a b t : String) (v : Bool) :
    write_object_type opts (a ++ b) t v = a ++ write_object_type opts b t v := by
  cases v <;>
    simp [write_object_type, push_append, write_color_append, String.append_assoc]

theorem write_fieldname_append (opts : debug_output_options) (a b name : String) :
    write_fieldname opts (a ++ b) name = a ++ write_fieldname opts b name := by
  simp [write_fieldname, write_color_append, String.append_assoc]

theorem write_comment_field_append (opts : debug_output_options) (a b name : String) :
    write_comment_field opts (a ++ b) name = a ++ write_comment_field opts b name := by
  simp [write_comment_field, write_color_append, String.append_assoc]

theorem write_counter_append (opts : debug_output_options) (a b : String) (w n : Int) :
    write_counter opts (a ++ b) w n = a ++ write_counter opts b w n := by
  simp [write_counter, write_color_append, String.append_assoc]

theorem write_error_append (opts : debug_output_options) (a b msg : String) :
    write_error opts (a ++ b) msg = a ++ write_error opts b msg := by
  simp [write_error, write_color_append, String.append_assoc]

theorem write_meta_version_append (opts : debug_output_options) (a b : String)
    (object : OSMObject) :
    write_meta_version opts (a ++ b) object = a ++ write_meta_version opts b object := by
  cases h : object.visible <;>
    simp [write_meta_version, write_fieldname_append, write_error_append,
      String.append_assoc, h]

theorem write_meta_changeset_append (opts : debug_output_options) (a b : String)
    (object : OSMObject) :
    write_meta_changeset opts (a ++ b) object = a ++ write_meta_changeset opts b object := by
  simp [write_meta_changeset, write_fieldname_append, String.append_assoc]

theorem write_meta_timestamp_append (F : Formats Location) (opts : debug_output_options)
    (a b : String) (object : OSMObject) :
    write_meta_timestamp F opts (a ++ b) object
      = a ++ write_meta_timestamp F opts b object := by
  simp [write_meta_timestamp, write_fieldname_append, String.append_assoc]

theorem write_meta_user_append (opts : debug_output_options) (a b : String)
    (object : OSMObject) :
    write_meta_user opts (a ++ b) object = a ++ write_meta_user opts b object := by
  simp [write_meta_user, write_fieldname_append, write_string_append, push_append,
    String.append_assoc]

theorem write_meta_append (F : Formats Location) (opts : debug_output_options)
    (a b : String) (object : OSMObject) :
    write_meta F opts (a ++ b) object = a ++ write_meta F opts b object := by
  cases h : opts.add_metadata <;>
    simp [write_meta, write_meta_version_append, write_meta_changeset_append,
      write_meta_timestamp_append, write_meta_user_append, String.append_assoc, h]

theorem write_tag_append (opts : debug_output_options) (maxlen : Nat) (a b : String)
    (tag : Tag) :
    write_tag opts maxlen (a ++ b) tag = a ++ write_tag opts maxlen b tag := by
  simp [write_tag, write_string_append, push_append, String.append_assoc]

theorem foldl_append_of_step {α : Type} (step : String → α → String)
    (h : ∀ a b x, step (a ++ b) x = a ++ step b x) (l : List α) (a b : String) :
    l.foldl step (a ++ b) = a ++ l.foldl step b := by
  induction l generalizing b with
  | nil => rfl
  | cons x xs ih => rw [List.foldl_cons, h, ih, List.foldl_cons]

theorem foldl_counted_append {α : Type} (step : String → Nat → α → String)
    (h : ∀ a b n x, step (a ++ b) n x = a ++ step b n x) (l : List α) (a b : String)
    (n : Nat) :
    foldl_counted step (a ++ b) n l = a ++ foldl_counted step b n l := by
  induction l generalizing b n with
  | nil => rfl
  | cons x xs ih => simp only [foldl_counted, h, ih]

theorem write_tags_append (opts : debug_output_options) (a b : String) (tags : List Tag)
    (padding : String) :
    write_tags opts (a ++ b) tags padding = a ++ write_tags opts b tags padding := by
  cases h : tags.isEmpty <;>
    simp [write_tags, write_fieldname_append, String.append_assoc, h,
      foldl_append_of_step _ (write_tag_append opts _)]

theorem write_location_append (F : Formats Location) (opts : debug_output_options)
    (a b : String) (location : Location) :
    write_location F opts (a ++ b) location = a ++ write_location F opts b location := by
  cases h : F.location_valid location <;>
    simp [write_location, write_fieldname_append, write_error_append, push_append,
      String.append_assoc, h]

theorem write_box_append (F : Formats Location) (opts : debug_output_options)
    (a b : String) (box : Box Location) :
    write_box F opts (a ++ b) box = a ++ write_box F opts b box := by
  cases h : F.box_set box <;> cases h2 : F.box_valid box <;>
    simp [write_box, write_fieldname_append, write_error_append, push_append,
      String.append_assoc, h, h2]

theorem way_nodes_line_append (opts : debug_output_options) (a b : String)
    (nodes : List (NodeRef Location)) :
    way_nodes_line opts (a ++ b) nodes = a ++ way_nodes_line opts b nodes := by
  unfold way_nodes_line
  simp only [write_fieldname_append, String.append_assoc]
  split
  · rw [write_error_append]
  · split
    · rw [write_error_append]
    · split <;> rfl

theorem way_node_ref_append (F : Formats Location) (opts : debug_output_options)
    (width : Int) (a b : String) (n : Nat) (node_ref : NodeRef Location) :
    way_node_ref F opts width (a ++ b) n node_ref
      = a ++ way_node_ref F opts width b n node_ref := by
  cases h : F.location_valid node_ref.location <;>
    simp [way_node_ref, write_counter_append, push_append, String.append_assoc, h]

theorem relation_member_append (opts : debug_output_options) (width : Int) (a b : String)
    (n : Nat) (member : RelationMember) :
    relation_member opts width (a ++ b) n member
      = a ++ relation_member opts width b n member := by
  simp [relation_member, write_counter_append, write_string_append, push_append,
    String.append_assoc]

theorem changeset_num_changes_append (opts : debug_output_options) (a b : String)
    (num_changes : Nat) :
    changeset_num_changes opts (a ++ b) num_changes
      = a ++ changeset_num_changes opts b num_changes := by
  by_cases h : num_changes = 0 <;>
    simp [changeset_num_changes, write_fieldname_append, write_error_append, push_append,
      String.append_assoc, h]

theorem changeset_created_at_append (F : Formats Location) (opts : debug_output_options)
    (a b : String) (created_at : Nat) :
    changeset_created_at F opts (a ++ b) created_at
      = a ++ changeset_created_at F opts b created_at := by
  simp [changeset_created_at, write_fieldname_append, push_append, String.append_assoc]

theorem changeset_closed_at_append (F : Formats Location) (opts : debug_output_options)
    (a b : String) (closed : Bool) (closed_at : Nat) :
    changeset_closed_at F opts (a ++ b) closed closed_at
      = a ++ changeset_closed_at F opts b closed closed_at := by
  cases closed <;>
    simp [changeset_closed_at, write_fieldname_append, write_error_append,
      String.append_assoc]

theorem changeset_user_append (opts : debug_output_options) (a b : String) (uid : Nat)
    (user : String) :
    changeset_user opts (a ++ b) uid user = a ++ changeset_user opts b uid user := by
  simp [changeset_user, write_fieldname_append, write_string_append, push_append,
    String.append_assoc]

theorem changeset_comment_append (F : Formats Location) (opts : debug_output_options)
    (width : Int) (a b : String) (n : Nat) (comment : ChangesetComment) :
    changeset_comment F opts width (a ++ b) n comment
      = a ++ changeset_comment F opts width b n comment := by
  simp [changeset_comment, write_counter_append, write_comment_field_append,
    write_string_append, push_append, String.append_assoc]

theorem changeset_comments_append (F : Formats Location) (opts : debug_output_options)
    (a b : String) (changeset : Changeset Location) :
    changeset_comments F opts (a ++ b) changeset
      = a ++ changeset_comments F opts b changeset := by
  by_cases h : changeset.num_comments > 0 <;>
    simp [changeset_comments, write_fieldname_append, String.append_assoc, h,
      foldl_counted_append _ (changeset_comment_append F opts _)]

end AppendLemmas

end DebugOutputBlock
end detail
end io
end osmium

namespace osmium
namespace io
namespace detail
namespace DebugOutputBlock

section ContainsLemmas

variable {Location : Type}

theorem contains_of_eq (text pre pattern post : String)
    (h : text = pre ++ pattern ++ post) : contains text pattern :=
  ⟨pre.data, post.data, by rw [h]; simp⟩

theorem not_contains_of_char (text pattern : String) (c : Char) (hc : c ∈ pattern.data)
    (h : c ∉ text.data) : ¬ contains text pattern := by
  rintro ⟨s, t, hst⟩
  apply h
  rw [← hst]
  simp [hc]

theorem fmt_d_chars (i : Int) : ∀ c ∈ (fmt_d i).data, c ∈ "-0123456789".data := by
  intro c hc
  have hdigits : ∀ c ∈ to_base 10 (i.natAbs + 1) i.natAbs, c ∈ "-0123456789".data := by
    intro c hc
    obtain ⟨d, hd, rfl⟩ := to_base_chars 10 (by decide) _ _ c hc
    interval_cases d <;> decide
  unfold fmt_d at hc
  split at hc
  · simp only [List.mem_cons] at hc
    rcases hc with rfl | hc
    · decide
    · exact hdigits c hc
  · exact hdigits c hc

theorem not_mem_fmt_d (c : Char) (hc : c ∉ "-0123456789".data) (i : Int) :
    c ∉ (fmt_d i).data :=
  fun h => hc (fmt_d_chars i c h)

end ContainsLemmas

section PartsLemmas

variable {Location : Type}

theorem write_object_type_eq (opts : debug_output_options) (out t : String) (v : Bool) :
    write_object_type opts out t v = out ++ write_object_type opts "" t v := by
  simpa using write_object_type_append opts out "" t v

theorem write_fieldname_eq (opts : debug_output_options) (out name : String) :
    write_fieldname opts out name = out ++ write_fieldname opts "" name := by
  simpa using write_fieldname_append opts out "" name

theorem write_meta_eq (F : Formats Location) (opts : debug_output_options) (out : String)
    (object : OSMObject) :
    write_meta F opts out object = out ++ write_meta F opts "" object := by
  simpa using write_meta_append F opts out "" object

theorem write_meta_version_eq (opts : debug_output_options) (out : String)
    (object : OSMObject) :
    write_meta_version opts out object = out ++ write_meta_version opts "" object := by
  simpa using write_meta_version_append opts out "" object

theorem write_meta_changeset_eq (opts : debug_output_options) (out : String)
    (object : OSMObject) :
    write_meta_changeset opts out object = out ++ write_meta_changeset opts "" object := by
  simpa using write_meta_changeset_append opts out "" object

theorem write_meta_timestamp_eq (F : Formats Location) (opts : debug_output_options)
    (out : String) (object : OSMObject) :
    write_meta_timestamp F opts out object
      = out ++ write_meta_timestamp F opts "" object := by
  simpa using write_meta_timestamp_append F opts out "" object

theorem write_meta_user_eq (opts : debug_output_options) (out : String)
    (object : OSMObject) :
    write_meta_user opts out object = out ++ write_meta_user opts "" object := by
  simpa using write_meta_user_append opts out "" object

theorem write_tags_eq (opts : debug_output_options) (out : String) (tags : List Tag)
    (padding : String) :
    write_tags opts out tags padding = out ++ write_tags opts "" tags padding := by
  simpa using write_tags_append opts out "" tags padding

theorem write_location_eq (F : Formats Location) (opts : debug_output_options)
    (out : String) (location : Location) :
    write_location F opts out location = out ++ write_location F opts "" location := by
  simpa using write_location_append F opts out "" location

theorem write_box_eq (F : Formats Location) (opts : debug_output_options) (out : String)
    (box : Box Location) :
    write_box F opts out box = out ++ write_box F opts "" box := by
  simpa using write_box_append F opts out "" box

theorem way_nodes_line_eq (opts : debug_output_options) (out : String)
    (nodes : List (NodeRef Location)) :
    way_nodes_line opts out nodes = out ++ way_nodes_line opts "" nodes := by
  simpa using way_nodes_line_append opts out "" nodes

theorem foldl_counted_eq {α : Type} (step : String → Nat → α → String)
    (h : ∀ a b n x, step (a ++ b) n x = a ++ step b n x) (l : List α) (out : String)
    (n : Nat) :
    foldl_counted step out n l = out ++ foldl_counted step "" n l := by
  simpa using foldl_counted_append step h l out "" n

theorem changeset_num_changes_eq (opts : debug_output_options) (out : String)
    (num_changes : Nat) :
    changeset_num_changes opts out num_changes
      = out ++ changeset_num_changes opts "" num_changes := by
  simpa using changeset_num_changes_append opts out "" num_changes

theorem changeset_created_at_eq (F : Formats Location) (opts : debug_output_options)
    (out : String) (created_at : Nat) :
    changeset_created_at F opts out created_at
      = out ++ changeset_created_at F opts "" created_at := by
  simpa using changeset_created_at_append F opts out "" created_at

theorem changeset_closed_at_eq (F : Formats Location) (opts : debug_output_options)
    (out : String) (closed : Bool) (closed_at : Nat) :
    changeset_closed_at F opts out closed closed_at
      = out ++ changeset_closed_at F opts "" closed closed_at := by
  simpa using changeset_closed_at_append F opts out "" closed closed_at

theorem changeset_user_eq (opts : debug_output_options) (out : String) (uid : Nat)
    (user : String) :
    changeset_user opts out uid user = out ++ changeset_user opts "" uid user := by
  simpa using changeset_user_append opts out "" uid user

theorem changeset_comments_eq (F : Formats Location) (opts : debug_output_options)
    (out : String) (changeset : Changeset Location) :
    changeset_comments F opts out changeset
      = out ++ changeset_comments F opts "" changeset := by
  simpa using changeset_comments_append F opts out "" changeset

/-- The text of `write_meta` is the id line followed, when `add_metadata` is
set, by the version, changeset, timestamp and user lines. -/
theorem write_meta_parts (F : Formats Location) (opts : debug_output_options)
    (out : String) (object : OSMObject) :
    write_meta F opts out object
      = out ++ (fmt_d object.id ++ "\n"
          ++ (if opts.add_metadata then
                write_meta_version opts "" object ++ write_meta_changeset opts "" object
                  ++ write_meta_timestamp F opts "" object
                  ++ write_meta_user opts "" object
              else "")) := by
  unfold write_meta
  cases opts.add_metadata
  · simp [String.append_assoc]
  · simp only [if_true]
    rw [write_meta_user_eq, write_meta_timestamp_eq, write_meta_changeset_eq,
      write_meta_version_eq]
    simp [String.append_assoc]

/-- The text of a way: kind and id, metadata, tags, the nodes line, one line per
node reference, and an empty line. -/
theorem way_parts (F : Formats Location) (opts : debug_output_options) (out : String)
    (w : Way Location) :
    way F opts out w
      = out ++ (write_object_type opts "" "way" w.object.visible
          ++ (write_meta F opts "" w.object
          ++ (write_tags opts "" w.object.tags ""
          ++ (way_nodes_line opts "" w.nodes
          ++ (foldl_counted (way_node_ref F opts (F.int_log10 w.nodes.length + 1)) "" 0
                w.nodes
          ++ "\n"))))) := by
  unfold way
  simp only
  rw [foldl_counted_eq _ (way_node_ref_append F opts _), way_nodes_line_eq, write_tags_eq,
    write_meta_eq, write_object_type_eq]
  apply String.ext
  simp

/-- The text of a node. -/
theorem node_parts (F : Formats Location) (opts : debug_output_options) (out : String)
    (n : Node Location) :
    node F opts out n
      = out ++ (write_object_type opts "" "node" n.object.visible
          ++ (write_meta F opts "" n.object
          ++ ((if n.object.visible then write_location F opts "" n.location else "")
          ++ (write_tags opts "" n.object.tags "" ++ "\n")))) := by
  unfold node
  simp only
  rw [write_tags_eq]
  cases n.object.visible
  · simp only [Bool.false_eq_true, if_false]
    rw [write_meta_eq, write_object_type_eq]
    apply String.ext
    simp
  · simp only [if_true]
    rw [write_location_eq, write_meta_eq, write_object_type_eq]
    apply String.ext
    simp

/-- The text of a relation. -/
theorem relation_parts (F : Formats Location) (opts : debug_output_options) (out : String)
    (r : Relation) :
    relation F opts out r
      = out ++ (write_object_type opts "" "relation" r.object.visible
          ++ (write_meta F opts "" r.object
          ++ (write_tags opts "" r.object.tags ""
          ++ (write_fieldname opts "" "members"
          ++ ("  " ++ fmt_d (int32 r.members.length) ++ "\n"
          ++ (foldl_counted (relation_member opts (F.int_log10 r.members.length + 1)) "" 0
                r.members
          ++ "\n")))))) := by
  unfold relation
  simp only
  rw [foldl_counted_eq _ (relation_member_append opts _), write_fieldname_eq, write_tags_eq,
    write_meta_eq, write_object_type_eq]
  apply String.ext
  simp

/-- The text of a changeset. -/
theorem changeset_parts (F : Formats Location) (opts : debug_output_options) (out : String)
    (c : Changeset Location) :
    changeset F opts out c
      = out ++ (write_object_type opts "" "changeset" true
          ++ (fmt_d (int32 c.id) ++ "\n"
          ++ (changeset_num_changes opts "" c.num_changes
          ++ (changeset_created_at F opts "" c.created_at
          ++ (changeset_closed_at F opts "" c.closed c.closed_at
          ++ (changeset_user opts "" c.uid c.user
          ++ (write_box F opts "" c.bounds
          ++ (write_tags opts "" c.tags "  "
          ++ (changeset_comments F opts "" c ++ "\n"))))))))) := by
  unfold changeset
  simp only
  rw [changeset_comments_eq, write_tags_eq, write_box_eq, changeset_user_eq,
    changeset_closed_at_eq, changeset_created_at_eq, changeset_num_changes_eq,
    write_object_type_eq]
  apply String.ext
  simp

end PartsLemmas

end DebugOutputBlock
end detail
end io
end osmium

namespace osmium
namespace io
namespace detail
namespace DebugOutputBlock

section WayLemmas

variable {Location : Type}

theorem contains_trans (a b c : String) (h1 : contains a b) (h2 : contains b c) :
    contains a c :=
  List.IsInfix.trans h2 h1

theorem way_contains_nodes_line (F : Formats Location) (opts : debug_output_options)
    (out : String) (w : Way Location) :
    contains (way F opts out w) (way_nodes_line opts "" w.nodes) := by
  rw [way_parts]
  exact ⟨(out ++ (write_object_type opts "" "way" w.object.visible
      ++ (write_meta F opts "" w.object ++ write_tags opts "" w.object.tags ""))).data,
    (foldl_counted (way_node_ref F opts (F.int_log10 w.nodes.length + 1)) "" 0 w.nodes
      ++ "\n").data, by simp⟩

end WayLemmas

/-- C14: the rendering of a way is its kind and id, metadata and tags, then the
nodes line, then one line per node reference and an empty line.  The nodes line
contains `LESS THAN 2 NODES!` (and not the other warning) when the way has
fewer than 2 nodes, `MORE THAN 2000 NODES!` (and not the other warning) when it
has more than 2000, and neither warning when it has between 2 and 2000. -/
theorem way_nodes_line_warnings {Location : Type} (F : Formats Location)
    (opts : debug_output_options) (out : String) (w : Way Location) :
    way F opts out w
        = out ++ (write_object_type opts "" "way" w.object.visible
            ++ (write_meta F opts "" w.object
            ++ (write_tags opts "" w.object.tags ""
            ++ (way_nodes_line opts "" w.nodes
            ++ (foldl_counted (way_node_ref F opts (F.int_log10 w.nodes.length + 1)) "" 0
                  w.nodes
            ++ "\n"))))) ∧
      (w.nodes.length < 2 →
        contains (way_nodes_line opts "" w.nodes) "LESS THAN 2 NODES!" ∧
          ¬ contains (way_nodes_line opts "" w.nodes) "MORE THAN 2000 NODES!") ∧
      (2000 < w.nodes.length →
        contains (way_nodes_line opts "" w.nodes) "MORE THAN 2000 NODES!" ∧
          ¬ contains (way_nodes_line opts "" w.nodes) "LESS THAN 2 NODES!") ∧
      (2 ≤ w.nodes.length ∧ w.nodes.length ≤ 2000 →
        ¬ contains (way_nodes_line opts "" w.nodes) "LESS THAN 2 NODES!" ∧
          ¬ contains (way_nodes_line opts "" w.nodes) "MORE THAN 2000 NODES!") := by
  obtain ⟨m, color⟩ := opts
  have hL := not_mem_fmt_d 'L' (by decide) (int32 w.nodes.length)
  have hM := not_mem_fmt_d 'M' (by decide) (int32 w.nodes.length)
  refine ⟨way_parts F _ out w, ?_, ?_, ?_⟩
  · intro h
    constructor
    · cases color
      · exact contains_of_eq _ ("  nodes:     " ++ fmt_d (int32 w.nodes.length) ++ " ") _ "\n"
          (String.ext (by simp [way_nodes_line, write_fieldname, write_error, write_color, h]))
      · exact contains_of_eq _
          ("  \x1b[36mnodes\x1b[0m:     " ++ fmt_d (int32 w.nodes.length) ++ "\x1b[31m ") _
          "\n\x1b[0m"
          (String.ext (by
            simp [way_nodes_line, write_fieldname, write_error, write_color, h, color_cyan,
              color_reset, color_red]))
    · apply not_contains_of_char _ _ 'M' (by decide)
      cases color <;>
        simp [way_nodes_line, write_fieldname, write_error, write_color, h, hM, color_cyan,
          color_reset, color_red]
  · intro h
    have h2 : ¬ w.nodes.length < 2 := by omega
    constructor
    · cases color
      · exact contains_of_eq _ ("  nodes:     " ++ fmt_d (int32 w.nodes.length) ++ " ") _ "\n"
          (String.ext (by
            simp [way_nodes_line, write_fieldname, write_error, write_color, h, h2]))
      · exact contains_of_eq _
          ("  \x1b[36mnodes\x1b[0m:     " ++ fmt_d (int32 w.nodes.length) ++ "\x1b[31m ") _
          "\n\x1b[0m"
          (String.ext (by
            simp [way_nodes_line, write_fieldname, write_error, write_color, h, h2,
              color_cyan, color_reset, color_red]))
    · apply not_contains_of_char _ _ 'L' (by decide)
      cases color <;>
        simp [way_nodes_line, write_fieldname, write_error, write_color, h, h2, hL,
          color_cyan, color_reset, color_red]
  · rintro ⟨h2, h2000⟩
    have h2' : ¬ w.nodes.length < 2 := by omega
    have h2000' : ¬ w.nodes.length > 2000 := by omega
    constructor
    · apply not_contains_of_char _ _ 'L' (by decide)
      cases color <;> cases hc : Way.is_closed w.nodes <;>
        simp [way_nodes_line, write_fieldname, write_error, write_color, h2', h2000', hc, hL,
          color_cyan, color_reset, color_red]
    · apply not_contains_of_char _ _ 'M' (by decide)
      cases color <;> cases hc : Way.is_closed w.nodes <;>
        simp [way_nodes_line, write_fieldname, write_error, write_color, h2', h2000', hc, hM,
          color_cyan, color_reset, color_red]

/-- C15 fails on the code: a way with a single node reference, whose first and
last node reference are therefore equal, is rendered without `(closed)`; its
nodes line carries the warning `LESS THAN 2 NODES!` instead. -/
theorem one_node_way_not_closed :
    one_node_way.nodes.head?.map (fun n => n.ref)
        = one_node_way.nodes.getLast?.map (fun n => n.ref) ∧
      way example_formats ⟨false, false⟩ "" one_node_way
        = "way 17\n  nodes:     1 LESS THAN 2 NODES!\n    0:          1\n\n" ∧
      ¬ contains (way example_formats ⟨false, false⟩ "" one_node_way) "(closed)" := by
  refine ⟨by decide, by decide, by decide⟩

/-- C15, amended: for a way with between 2 and 2000 node references, the
rendering contains `(closed)` when the first node reference equals the last and
`(open)` otherwise, and the nodes line contains only that one of the two.  (With
fewer than 2 or more than 2000 node references the nodes line carries the
warning instead.) -/
theorem way_closed_or_open {Location : Type} (F : Formats Location)
    (opts : debug_output_options) (out : String) (w : Way Location)
    (first last : NodeRef Location)
    (h2 : 2 ≤ w.nodes.length) (h2000 : w.nodes.length ≤ 2000)
    (hfirst : w.nodes.head? = some first) (hlast : w.nodes.getLast? = some last) :
    (first.ref = last.ref →
        contains (way F opts out w) "(closed)" ∧
          contains (way_nodes_line opts "" w.nodes) "(closed)" ∧
          ¬ contains (way_nodes_line opts "" w.nodes) "(open)") ∧
      (first.ref ≠ last.ref →
        contains (way F opts out w) "(open)" ∧
          contains (way_nodes_line opts "" w.nodes) "(open)" ∧
          ¬ contains (way_nodes_line opts "" w.nodes) "(closed)") := by
  obtain ⟨m, color⟩ := opts
  have h2' : ¬ w.nodes.length < 2 := by omega
  have h2000' : ¬ w.nodes.length > 2000 := by omega
  have hp := not_mem_fmt_d 'p' (by decide) (int32 w.nodes.length)
  have hc := not_mem_fmt_d 'c' (by decide) (int32 w.nodes.length)
  constructor
  · intro href
    have hclosed : Way.is_closed w.nodes = true := by
      simp [Way.is_closed, hfirst, hlast, href]
    have hline : contains (way_nodes_line ⟨m, color⟩ "" w.nodes) "(closed)" := by
      cases color
      · exact contains_of_eq _ ("  nodes:     " ++ fmt_d (int32 w.nodes.length) ++ " ") _ "\n"
          (String.ext (by
            simp [way_nodes_line, write_fieldname, write_color, h2', h2000', hclosed]))
      · exact contains_of_eq _
          ("  \x1b[36mnodes\x1b[0m:     " ++ fmt_d (int32 w.nodes.length) ++ " ") _ "\n"
          (String.ext (by
            simp [way_nodes_line, write_fieldname, write_color, h2', h2000', hclosed,
              color_cyan, color_reset]))
    refine ⟨contains_trans _ _ _ (way_contains_nodes_line F _ out w) hline, hline, ?_⟩
    apply not_contains_of_char _ _ 'p' (by decide)
    cases color <;>
      simp [way_nodes_line, write_fieldname, write_color, h2', h2000', hclosed, hp,
        color_cyan, color_reset]
  · intro href
    have hopen : Way.is_closed w.nodes = false := by
      simp [Way.is_closed, hfirst, hlast, href]
    have hline : contains (way_nodes_line ⟨m, color⟩ "" w.nodes) "(open)" := by
      cases color
      · exact contains_of_eq _ ("  nodes:     " ++ fmt_d (int32 w.nodes.length) ++ " ") _ "\n"
          (String.ext (by
            simp [way_nodes_line, write_fieldname, write_color, h2', h2000', hopen]))
      · exact contains_of_eq _
          ("  \x1b[36mnodes\x1b[0m:     " ++ fmt_d (int32 w.nodes.length) ++ " ") _ "\n"
          (String.ext (by
            simp [way_nodes_line, write_fieldname, write_color, h2', h2000', hopen,
              color_cyan, color_reset]))
    refine ⟨contains_trans _ _ _ (way_contains_nodes_line F _ out w) hline, hline, ?_⟩
    apply not_contains_of_char _ _ 'c' (by decide)
    cases color <;>
      simp [way_nodes_line, write_fieldname, write_color, h2', h2000', hopen, hc,
        color_cyan, color_reset]

/-- C15, amended, at a concrete input: a way with the node references 1 and 2
is rendered with `(open)`. -/
theorem way_closed_or_open_witness :
    contains (way example_formats ⟨false, false⟩ "" two_node_way) "(open)" ∧
      contains (way_nodes_line ⟨false, false⟩ "" two_node_way.nodes) "(open)" ∧
      ¬ contains (way_nodes_line ⟨false, false⟩ "" two_node_way.nodes) "(closed)" :=
  (way_closed_or_open example_formats ⟨false, false⟩ "" two_node_way ⟨1, ()⟩ ⟨2, ()⟩
    (by decide) (by decide) rfl rfl).2 (by decide)

end DebugOutputBlock
end detail
end io
end osmium

namespace osmium
namespace io
namespace detail
namespace DebugOutputBlock

section MetaLemmas

variable {Location : Type}

theorem contains_mid (a b c : String) : contains (a ++ (b ++ c)) b :=
  ⟨a.data, c.data, by simp⟩

theorem node_contains_meta (F : Formats Location) (opts : debug_output_options)
    (out : String) (n : Node Location) :
    contains (node F opts out n) (write_meta F opts "" n.object) := by
  rw [node_parts, ← String.append_assoc]
  exact contains_mid _ _ _

theorem way_contains_meta (F : Formats Location) (opts : debug_output_options)
    (out : String) (w : Way Location) :
    contains (way F opts out w) (write_meta F opts "" w.object) := by
  rw [way_parts, ← String.append_assoc]
  exact contains_mid _ _ _

theorem relation_contains_meta (F : Formats Location) (opts : debug_output_options)
    (out : String) (r : Relation) :
    contains (relation F opts out r) (write_meta F opts "" r.object) := by
  rw [relation_parts, ← String.append_assoc]
  exact contains_mid _ _ _

theorem write_meta_contains_version (F : Formats Location) (color : Bool)
    (object : OSMObject) :
    contains (write_meta F ⟨true, color⟩ "" object)
      (write_meta_version ⟨true, color⟩ "" object) := by
  rw [write_meta_parts]
  exact ⟨(fmt_d object.id ++ "\n").data,
    (write_meta_changeset ⟨true, color⟩ "" object
      ++ write_meta_timestamp F ⟨true, color⟩ "" object
      ++ write_meta_user ⟨true, color⟩ "" object).data, by simp⟩

end MetaLemmas

/-- C18: with `add_metadata` true the version line is part of the rendering of
every node, way and relation; it contains `visible` and not `deleted` when the
object is visible, and `deleted` and not `visible` when it is not. -/
theorem version_line_visible_or_deleted {Location : Type} (F : Formats Location)
    (color : Bool) (out : String) (object : OSMObject) (n : Node Location)
    (w : Way Location) (r : Relation) :
    contains (node F ⟨true, color⟩ out n) (write_meta_version ⟨true, color⟩ "" n.object) ∧
      contains (way F ⟨true, color⟩ out w) (write_meta_version ⟨true, color⟩ "" w.object) ∧
      contains (relation F ⟨true, color⟩ out r)
        (write_meta_version ⟨true, color⟩ "" r.object) ∧
      (object.visible = true →
        contains (write_meta_version ⟨true, color⟩ "" object) "visible" ∧
          ¬ contains (write_meta_version ⟨true, color⟩ "" object) "deleted") ∧
      (object.visible = false →
        contains (write_meta_version ⟨true, color⟩ "" object) "deleted" ∧
          ¬ contains (write_meta_version ⟨true, color⟩ "" object) "visible") := by
  have hd := not_mem_fmt_d 'd' (by decide) (int32 object.version)
  have hb := not_mem_fmt_d 'b' (by decide) (int32 object.version)
  refine ⟨?_, ?_, ?_, ?_, ?_⟩
  · exact contains_trans _ _ _ (node_contains_meta F _ out n)
      (write_meta_contains_version F color n.object)
  · exact contains_trans _ _ _ (way_contains_meta F _ out w)
      (write_meta_contains_version F color w.object)
  · exact contains_trans _ _ _ (relation_contains_meta F _ out r)
      (write_meta_contains_version F color r.object)
  · intro hv
    constructor
    · cases color
      · exact contains_of_eq _ ("  version:   " ++ fmt_d (int32 object.version) ++ " ") _ "\n"
          (String.ext (by simp [write_meta_version, write_fieldname, write_color, hv]))
      · exact contains_of_eq _
          ("  \x1b[36mversion\x1b[0m:   " ++ fmt_d (int32 object.version) ++ " ") _ "\n"
          (String.ext (by
            simp [write_meta_version, write_fieldname, write_color, hv, color_cyan,
              color_reset]))
    · apply not_contains_of_char _ _ 'd' (by decide)
      cases color <;>
        simp [write_meta_version, write_fieldname, write_color, hv, hd, color_cyan,
          color_reset]
  · intro hv
    constructor
    · cases color
      · exact contains_of_eq _ ("  version:   " ++ fmt_d (int32 object.version) ++ " ") _ "\n"
          (String.ext (by
            simp [write_meta_version, write_fieldname, write_error, write_color, hv]))
      · exact contains_of_eq _
          ("  \x1b[36mversion\x1b[0m:   " ++ fmt_d (int32 object.version) ++ "\x1b[31m ") _
          "\n\x1b[0m"
          (String.ext (by
            simp [write_meta_version, write_fieldname, write_error, write_color, hv,
              color_cyan, color_reset, color_red]))
    · apply not_contains_of_char _ _ 'b' (by decide)
      cases color <;>
        simp [write_meta_version, write_fieldname, write_error, write_color, hv, hb,
          color_cyan, color_reset, color_red]

end DebugOutputBlock
end detail
end io
end osmium

namespace osmium
namespace io
namespace detail
namespace DebugOutputBlock

section WriteStringLemmas

theorem write_string_eq (opts : debug_output_options) (out s : String) :
    write_string opts out s = out ++ write_string opts "" s := by
  simpa using write_string_append opts out "" s

end WriteStringLemmas

set_option maxRecDepth 100000 in
/-- C16 fails on the code for changesets: rendered with `add_metadata` false, a
changeset still has its user field, and rendered with `add_metadata` true it
has the same text, without version, changeset id or timestamp fields. -/
theorem changeset_ignores_add_metadata :
    changeset example_formats ⟨false, false⟩ "" example_changeset
        = "changeset 7\n  num changes: 1\n  created at:  2015-01-01T00:00:00Z (1420070400)\n  closed at:   2015-01-01T00:00:00Z (1420074000)\n  user:        9 \"bob\"\n  box l/b/r/t: BOX NOT SET!\n\n" ∧
      contains (changeset example_formats ⟨false, false⟩ "" example_changeset)
        "  user:        9 \"bob\"\n" ∧
      changeset example_formats ⟨true, false⟩ "" example_changeset
        = changeset example_formats ⟨false, false⟩ "" example_changeset ∧
      ¬ contains (changeset example_formats ⟨true, false⟩ "" example_changeset) "version" := by
  refine ⟨by decide, by decide, by decide, by decide⟩

/-- C16, amended: the rendering of a node, way or relation starts with the kind
label and the id line; the version, changeset, timestamp and user lines
follow, in that order, exactly when `add_metadata` is true, and with
`add_metadata` false the rest of the rendering follows the id line directly.
Without colour the four lines are `  version:   V visible` (or `deleted`),
`  changeset: C`, `  timestamp: ISO (T)` and `  user:      U "name"`.  The
rendering of a changeset does not depend on `add_metadata`: it starts with the
kind label and the id line, has no version, changeset id or timestamp line,
and always has its user line. -/
theorem metadata_lines_iff_add_metadata {Location : Type} (F : Formats Location)
    (m color : Bool) (out : String) (n : Node Location) (w : Way Location) (r : Relation)
    (c : Changeset Location) (object : OSMObject) :
    (write_meta F ⟨true, color⟩ out object
        = out ++ (fmt_d object.id ++ "\n"
            ++ (write_meta_version ⟨m, color⟩ "" object
              ++ write_meta_changeset ⟨m, color⟩ "" object
              ++ write_meta_timestamp F ⟨m, color⟩ "" object
              ++ write_meta_user ⟨m, color⟩ "" object))) ∧
      write_meta F ⟨false, color⟩ out object = out ++ (fmt_d object.id ++ "\n") ∧
      (write_meta_version ⟨m, false⟩ "" object
          = "  version:   " ++ fmt_d (int32 object.version)
              ++ (if object.visible then " visible\n" else " deleted\n") ∧
        write_meta_changeset ⟨m, false⟩ "" object
          = "  changeset: " ++ fmt_d (int32 object.changeset) ++ "\n" ∧
        write_meta_timestamp F ⟨m, false⟩ "" object
          = "  timestamp: " ++ F.to_iso object.timestamp
              ++ " (" ++ fmt_d (int32 object.timestamp) ++ ")\n" ∧
        write_meta_user ⟨m, false⟩ "" object
          = "  user:      " ++ fmt_d (int32 object.uid) ++ " "
              ++ write_string ⟨m, false⟩ "" object.user ++ "\n") ∧
      (∀ add_metadata : Bool,
        node F ⟨add_metadata, color⟩ out n
          = out ++ (write_object_type ⟨m, color⟩ "" "node" n.object.visible
              ++ (write_meta F ⟨add_metadata, color⟩ "" n.object
              ++ ((if n.object.visible then write_location F ⟨m, color⟩ "" n.location
                   else "")
              ++ (write_tags ⟨m, color⟩ "" n.object.tags "" ++ "\n"))))) ∧
      (∀ add_metadata : Bool,
        way F ⟨add_metadata, color⟩ out w
          = out ++ (write_object_type ⟨m, color⟩ "" "way" w.object.visible
              ++ (write_meta F ⟨add_metadata, color⟩ "" w.object
              ++ (write_tags ⟨m, color⟩ "" w.object.tags ""
              ++ (way_nodes_line ⟨m, color⟩ "" w.nodes
              ++ (foldl_counted
                    (way_node_ref F ⟨m, color⟩ (F.int_log10 w.nodes.length + 1)) "" 0 w.nodes
              ++ "\n")))))) ∧
      (∀ add_metadata : Bool,
        relation F ⟨add_metadata, color⟩ out r
          = out ++ (write_object_type ⟨m, color⟩ "" "relation" r.object.visible
              ++ (write_meta F ⟨add_metadata, color⟩ "" r.object
              ++ (write_tags ⟨m, color⟩ "" r.object.tags ""
              ++ (write_fieldname ⟨m, color⟩ "" "members"
              ++ ("  " ++ fmt_d (int32 r.members.length) ++ "\n"
              ++ (foldl_counted
                    (relation_member ⟨m, color⟩ (F.int_log10 r.members.length + 1)) "" 0
                    r.members
              ++ "\n"))))))) ∧
      (∀ add_metadata : Bool,
        changeset F ⟨add_metadata, color⟩ out c
          = out ++ (write_object_type ⟨m, color⟩ "" "changeset" true
              ++ (fmt_d (int32 c.id) ++ "\n"
              ++ (changeset_num_changes ⟨m, color⟩ "" c.num_changes
              ++ (changeset_created_at F ⟨m, color⟩ "" c.created_at
              ++ (changeset_closed_at F ⟨m, color⟩ "" c.closed c.closed_at
              ++ (changeset_user ⟨m, color⟩ "" c.uid c.user
              ++ (write_box F ⟨m, color⟩ "" c.bounds
              ++ (write_tags ⟨m, color⟩ "" c.tags "  "
              ++ (changeset_comments F ⟨m, color⟩ "" c ++ "\n")))))))))) := by
  refine ⟨?_, ?_, ⟨?_, ?_, ?_, ?_⟩, ?_, ?_, ?_, ?_⟩
  · rw [write_meta_parts]
    rfl
  · rw [write_meta_parts]
    simp
  · cases hv : object.visible <;>
      exact String.ext (by
        simp [write_meta_version, write_fieldname, write_error, write_color, hv])
  · exact String.ext (by simp [write_meta_changeset, write_fieldname, write_color])
  · exact String.ext (by simp [write_meta_timestamp, write_fieldname, write_color])
  · unfold write_meta_user
    simp only
    rw [write_string_eq]
    exact String.ext (by simp [write_fieldname, write_color])
  · intro a
    exact node_parts F ⟨a, color⟩ out n
  · intro a
    exact way_parts F ⟨a, color⟩ out w
  · intro a
    exact relation_parts F ⟨a, color⟩ out r
  · intro a
    exact changeset_parts F ⟨a, color⟩ out c

end DebugOutputBlock
end detail
end io
end osmium

namespace osmium
namespace io
namespace detail
namespace DebugOutputBlock

section WriteErrorLemmas

theorem write_error_eq (opts : debug_output_options) (out msg : String) :
    write_error opts out msg = out ++ write_error opts "" msg := by
  simpa using write_error_append opts out "" msg

end WriteErrorLemmas

set_option maxRecDepth 100000 in
/-- C19 fails on the code as stated for the whole rendering: a changeset with
one change whose user name is `NO CHANGES!` is rendered with that text, inside
the quoted user name, because every character of it is on the allow-list. -/
theorem changeset_user_text_in_rendering :
    ({ example_changeset with user := "NO CHANGES!" } : Changeset Unit).num_changes = 1 ∧
      changeset example_formats ⟨true, false⟩ ""
          { example_changeset with user := "NO CHANGES!" }
        = "changeset 7\n  num changes: 1\n  created at:  2015-01-01T00:00:00Z (1420070400)\n  closed at:   2015-01-01T00:00:00Z (1420074000)\n  user:        9 \"NO CHANGES!\"\n  box l/b/r/t: BOX NOT SET!\n\n" ∧
      contains (changeset example_formats ⟨true, false⟩ ""
          { example_changeset with user := "NO CHANGES!" }) "NO CHANGES!" := by
  refine ⟨rfl, by decide, by decide⟩

/-- C19, amended: the num changes line and the closed at field are parts of the
rendering of a changeset.  The num changes line contains `NO CHANGES!` if and
only if `num_changes` is 0.  The closed at field of a changeset that is not
closed is the field name followed by `OPEN!`, without a timestamp; that of a
closed changeset is the field name followed by the close timestamp in ISO form
and in numeric form.  Provided the ISO text of a timestamp has no exclamation
mark, the closed at field contains `OPEN!` if and only if the changeset is not
closed. -/
theorem changeset_warnings {Location : Type} (F : Formats Location)
    (opts : debug_output_options) (out : String) (c : Changeset Location)
    (hiso : ∀ t, '!' ∉ (F.to_iso t).data) :
    changeset F opts out c
        = out ++ (write_object_type opts "" "changeset" true
            ++ (fmt_d (int32 c.id) ++ "\n"
            ++ (changeset_num_changes opts "" c.num_changes
            ++ (changeset_created_at F opts "" c.created_at
            ++ (changeset_closed_at F opts "" c.closed c.closed_at
            ++ (changeset_user opts "" c.uid c.user
            ++ (write_box F opts "" c.bounds
            ++ (write_tags opts "" c.tags "  "
            ++ (changeset_comments F opts "" c ++ "\n"))))))))) ∧
      (contains (changeset_num_changes opts "" c.num_changes) "NO CHANGES!" ↔
        c.num_changes = 0) ∧
      (c.closed = false →
        changeset_closed_at F opts "" c.closed c.closed_at
          = write_fieldname opts "" "closed at" ++ "  " ++ write_error opts "" "OPEN!\n") ∧
      (c.closed = true →
        changeset_closed_at F opts "" c.closed c.closed_at
          = write_fieldname opts "" "closed at" ++ "  " ++ F.to_iso c.closed_at
              ++ " (" ++ fmt_d (int32 c.closed_at) ++ ")\n") ∧
      (contains (changeset_closed_at F opts "" c.closed c.closed_at) "OPEN!" ↔
        c.closed = false) := by
  obtain ⟨m, color⟩ := opts
  have hN := not_mem_fmt_d 'N' (by decide) (int32 c.num_changes)
  have hbang := not_mem_fmt_d '!' (by decide) (int32 c.closed_at)
  refine ⟨changeset_parts F _ out c, ?_, ?_, ?_, ?_⟩
  · constructor
    · intro hcont
      by_contra hne
      revert hcont
      apply not_contains_of_char _ _ 'N' (by decide)
      cases color <;>
        simp [changeset_num_changes, write_fieldname, write_color, hne, hN, color_cyan,
          color_reset]
    · intro h0
      cases color
      · exact contains_of_eq _ ("  num changes: " ++ fmt_d (int32 c.num_changes) ++ " ") _ "\n"
          (String.ext (by
            simp [changeset_num_changes, write_fieldname, write_error, write_color, h0]))
      · exact contains_of_eq _
          ("  \x1b[36mnum changes\x1b[0m: " ++ fmt_d (int32 c.num_changes) ++ "\x1b[31m ") _
          "\x1b[0m\n"
          (String.ext (by
            simp [changeset_num_changes, write_fieldname, write_error, write_color, h0,
              color_cyan, color_reset, color_red]))
  · intro hopen
    unfold changeset_closed_at
    simp only [hopen, Bool.false_eq_true, if_false]
    rw [write_error_eq]
  · intro hclosed
    unfold changeset_closed_at
    simp only [hclosed, if_true]
  · constructor
    · intro hcont
      cases hclosed : c.closed with
      | false => rfl
      | true =>
        exfalso
        revert hcont
        apply not_contains_of_char _ _ '!' (by decide)
        have h1 := hiso c.closed_at
        cases color <;>
          simp [changeset_closed_at, write_fieldname, write_color, hclosed, hbang, h1,
            color_cyan, color_reset]
    · intro hopen
      cases color
      · exact contains_of_eq _ "  closed at:   " _ "\n"
          (String.ext (by
            simp [changeset_closed_at, write_fieldname, write_error, write_color, hopen]))
      · exact contains_of_eq _ "  \x1b[36mclosed at\x1b[0m:   \x1b[31m" _ "\n\x1b[0m"
          (String.ext (by
            simp [changeset_closed_at, write_fieldname, write_error, write_color, hopen,
              color_cyan, color_reset, color_red]))

/-- C19, amended, at a concrete input: the closed example changeset with one
change, with a fixed ISO text. -/
theorem changeset_warnings_witness :
    (contains (changeset_num_changes ⟨true, false⟩ "" example_changeset.num_changes)
        "NO CHANGES!" ↔ example_changeset.num_changes = 0) ∧
      (contains (changeset_closed_at example_formats ⟨true, false⟩ ""
          example_changeset.closed example_changeset.closed_at) "OPEN!" ↔
        example_changeset.closed = false) :=
  ⟨(changeset_warnings example_formats ⟨true, false⟩ "" example_changeset
      (fun _ => (by decide : '!' ∉ "2015-01-01T00:00:00Z".data))).2.1,
    (changeset_warnings example_formats ⟨true, false⟩ "" example_changeset
      (fun _ => (by decide : '!' ∉ "2015-01-01T00:00:00Z".data))).2.2.2.2⟩

/-- C20: for an unset box `write_box` emits the field name and `BOX NOT SET!`
and nothing else (no coordinates); for a set box it emits the field name and
the four coordinates, followed by `INVALID BOX!` exactly when the box is not
valid.  Provided the `%.7f` text of a coordinate consists of digits, sign,
point and the letters of `nan` and `inf`, the text for an unset box contains
`BOX NOT SET!` and not `INVALID BOX!`, the text for a set invalid box contains
`INVALID BOX!` and not `BOX NOT SET!`, and the text for a set valid box
contains neither. -/
theorem write_box_warnings {Location : Type} (F : Formats Location)
    (opts : debug_output_options) (out : String) (box : Box Location)
    (hlon : ∀ l, ∀ ch ∈ (F.lon_f7 l).data, ch ∈ "-.0123456789naif".data)
    (hlat : ∀ l, ∀ ch ∈ (F.lat_f7 l).data, ch ∈ "-.0123456789naif".data) :
    (F.box_set box = false →
        write_box F opts out box
            = out ++ write_fieldname opts "" "box l/b/r/t"
                ++ write_error opts "" "BOX NOT SET!\n" ∧
          contains (write_box F opts "" box) "BOX NOT SET!" ∧
          ¬ contains (write_box F opts "" box) "INVALID BOX!") ∧
      (F.box_set box = true → F.box_valid box = false →
        write_box F opts out box
            = out ++ write_fieldname opts "" "box l/b/r/t"
                ++ (F.lon_f7 box.bottom_left ++ "," ++ F.lat_f7 box.bottom_left ++ " "
                  ++ F.lon_f7 box.top_right ++ "," ++ F.lat_f7 box.top_right)
                ++ write_error opts "" " INVALID BOX!" ++ "\n" ∧
          contains (write_box F opts "" box) "INVALID BOX!" ∧
          ¬ contains (write_box F opts "" box) "BOX NOT SET!") ∧
      (F.box_set box = true → F.box_valid box = true →
        write_box F opts out box
            = out ++ write_fieldname opts "" "box l/b/r/t"
                ++ (F.lon_f7 box.bottom_left ++ "," ++ F.lat_f7 box.bottom_left ++ " "
                  ++ F.lon_f7 box.top_right ++ "," ++ F.lat_f7 box.top_right)
                ++ "\n" ∧
          ¬ contains (write_box F opts "" box) "BOX NOT SET!" ∧
          ¬ contains (write_box F opts "" box) "INVALID BOX!") := by
  obtain ⟨m, color⟩ := opts
  have hno : ∀ (c : Char), c ∉ "-.0123456789naif".data →
      c ∉ (F.lon_f7 box.bottom_left).data ∧ c ∉ (F.lat_f7 box.bottom_left).data ∧
      c ∉ (F.lon_f7 box.top_right).data ∧ c ∉ (F.lat_f7 box.top_right).data :=
    fun c hc => ⟨fun h => hc (hlon _ c h), fun h => hc (hlat _ c h),
      fun h => hc (hlon _ c h), fun h => hc (hlat _ c h)⟩
  obtain ⟨hI1, hI2, hI3, hI4⟩ := hno 'I' (by decide)
  obtain ⟨hT1, hT2, hT3, hT4⟩ := hno 'T' (by decide)
  refine ⟨?_, ?_, ?_⟩
  · intro hset
    refine ⟨?_, ?_, ?_⟩
    · rw [write_box_eq]
      unfold write_box
      simp only [hset, Bool.not_false, if_true]
      rw [write_error_eq]
      exact String.ext (by simp)
    · cases color
      · exact contains_of_eq _ "  box l/b/r/t: " _ "\n"
          (String.ext (by simp [write_box, write_fieldname, write_error, write_color, hset]))
      · exact contains_of_eq _ "  \x1b[36mbox l/b/r/t\x1b[0m: \x1b[31m" _ "\n\x1b[0m"
          (String.ext (by
            simp [write_box, write_fieldname, write_error, write_color, hset, color_cyan,
              color_reset, color_red]))
    · apply not_contains_of_char _ _ 'I' (by decide)
      cases color <;>
        simp [write_box, write_fieldname, write_error, write_color, hset, color_cyan,
          color_reset, color_red]
  · intro hset hvalid
    refine ⟨?_, ?_, ?_⟩
    · rw [write_box_eq]
      unfold write_box
      simp only [hset, hvalid, Bool.not_true, Bool.not_false, Bool.false_eq_true, if_false,
        if_true]
      rw [write_error_eq, write_fieldname_eq]
      exact String.ext (by simp)
    · cases color
      · exact contains_of_eq _
          ("  box l/b/r/t: " ++ F.lon_f7 box.bottom_left ++ "," ++ F.lat_f7 box.bottom_left
            ++ " " ++ F.lon_f7 box.top_right ++ "," ++ F.lat_f7 box.top_right ++ " ") _ "\n"
          (String.ext (by
            simp [write_box, write_fieldname, write_error, write_color, hset, hvalid]))
      · exact contains_of_eq _
          ("  \x1b[36mbox l/b/r/t\x1b[0m: " ++ F.lon_f7 box.bottom_left ++ ","
            ++ F.lat_f7 box.bottom_left ++ " " ++ F.lon_f7 box.top_right ++ ","
            ++ F.lat_f7 box.top_right ++ "\x1b[31m ") _ "\x1b[0m\n"
          (String.ext (by
            simp [write_box, write_fieldname, write_error, write_color, hset, hvalid,
              color_cyan, color_reset, color_red]))
    · apply not_contains_of_char _ _ 'T' (by decide)
      cases color <;>
        simp [write_box, write_fieldname, write_error, write_color, hset, hvalid, color_cyan,
          color_reset, color_red, hT1, hT2, hT3, hT4]
  · intro hset hvalid
    refine ⟨?_, ?_, ?_⟩
    · rw [write_box_eq]
      unfold write_box
      simp only [hset, hvalid, Bool.not_true, Bool.false_eq_true, if_false]
      rw [write_fieldname_eq]
      exact String.ext (by simp)
    · apply not_contains_of_char _ _ 'T' (by decide)
      cases color <;>
        simp [write_box, write_fieldname, write_error, write_color, hset, hvalid, color_cyan,
          color_reset, color_red, hT1, hT2, hT3, hT4]
    · apply not_contains_of_char _ _ 'I' (by decide)
      cases color <;>
        simp [write_box, write_fieldname, write_error, write_color, hset, hvalid, color_cyan,
          color_reset, color_red, hI1, hI2, hI3, hI4]

/-- C20 at a concrete input: an unset box, with fixed coordinate texts. -/
theorem write_box_warnings_witness :
    write_box example_formats ⟨true, false⟩ "" ⟨(), ()⟩
        = "" ++ write_fieldname ⟨true, false⟩ "" "box l/b/r/t"
            ++ write_error ⟨true, false⟩ "" "BOX NOT SET!\n" ∧
      contains (write_box example_formats ⟨true, false⟩ "" ⟨(), ()⟩) "BOX NOT SET!" ∧
      ¬ contains (write_box example_formats ⟨true, false⟩ "" ⟨(), ()⟩) "INVALID BOX!" :=
  (write_box_warnings example_formats ⟨true, false⟩ "" ⟨(), ()⟩
    (fun _ => (by decide : ∀ ch ∈ "1.0000000".data, ch ∈ "-.0123456789naif".data))
    (fun _ => (by decide : ∀ ch ∈ "2.0000000".data, ch ∈ "-.0123456789naif".data))).1 rfl

end DebugOutputBlock
end detail
end io
end osmium

namespace osmium
namespace io
namespace Reader

section NoColonLemmas

variable {Input Buffer Location : Type}

/-- A location without a colon that is none of the four scheme words is opened
as a local file. -/
theorem no_colon_opens_file_unless_scheme_word (env : Env Input Buffer Location)
    (r : Reader Input) (w : World) (filename : String)
    (hcolon : ':' ∉ filename.data) (hlen : filename.data.length ≤ npos)
    (hword : ¬ (filename = "http" ∨ filename = "https" ∨ filename = "ftp" ∨
      filename = "file")) :
    open_input_file_or_url env (r, w) filename
      = ((r, { w with log := w.log ++ [Event.open_for_reading filename] }),
          env.open_for_reading filename) := by
  unfold open_input_file_or_url
  simp only [protocol_no_colon filename hcolon hlen, hword, if_false]

end NoColonLemmas

/-- C21 fails on the code: the location `file` has no colon, yet
`open_input_file_or_url` does not open it as a local file but forks a child
that runs `curl file`, and the constructor starts the input thread on the
pipe. -/
theorem no_colon_location_runs_curl :
    ':' ∉ "file".data ∧
      protocol "file" = "file" ∧
      (open_input_file_or_url curl_env (reader_before_open, World.initial) "file").1.2.log
        = [Event.pipe, Event.fork 1234 ["curl", "file"], Event.close 4] ∧
      (open_input_file_or_url curl_env (reader_before_open, World.initial) "file").1.1.m_childpid
        = 1234 ∧
      (open_input_file_or_url curl_env (reader_before_open, World.initial) "file").2
        = .ok 3 ∧
      (construct curl_env World.initial ⟨"file", ""⟩).1.log
        = [Event.pipe, Event.fork 1234 ["curl", "file"], Event.close 4,
            Event.thread_start "" 3] := by
  refine ⟨by decide, by decide, by decide, by decide, rfl, by decide⟩

end Reader
end io
end osmium

namespace osmium
namespace io
namespace detail
namespace DebugOutputBlock

section TagLemmas

theorem padding_loop_eq (spacing : Nat) (out : String) :
    padding_loop spacing out = out ++ ⟨List.replicate spacing ' '⟩ := by
  induction spacing generalizing out with
  | zero => exact String.ext (by simp [padding_loop])
  | succ n ih =>
    rw [padding_loop, ih]
    apply String.ext
    simp only [String.data_append, List.append_assoc, List.replicate_succ]
    rfl

theorem foldl_max_key_ge (l : List Tag) (init : Nat) :
    init ≤ l.foldl (fun m tag => max m tag.key.utf8ByteSize) init ∧
      ∀ tag ∈ l, tag.key.utf8ByteSize
        ≤ l.foldl (fun m tag => max m tag.key.utf8ByteSize) init := by
  induction l generalizing init with
  | nil => simp
  | cons t rest ih =>
    obtain ⟨h1, h2⟩ := ih (max init t.key.utf8ByteSize)
    simp only [List.foldl_cons, List.mem_cons, forall_eq_or_imp]
    exact ⟨by omega, by omega, h2⟩

theorem foldl_max_key_attained (l : List Tag) (init : Nat) :
    l.foldl (fun m tag => max m tag.key.utf8ByteSize) init = init ∨
      ∃ tag ∈ l, tag.key.utf8ByteSize
        = l.foldl (fun m tag => max m tag.key.utf8ByteSize) init := by
  induction l generalizing init with
  | nil => simp
  | cons t rest ih =>
    simp only [List.foldl_cons, List.mem_cons, exists_eq_or_imp]
    rcases ih (max init t.key.utf8ByteSize) with h | ⟨tag, hmem, htag⟩
    · rw [h]
      rcases Nat.le_total init t.key.utf8ByteSize with hle | hle
      · right; left
        omega
      · left
        omega
    · right; right
      exact ⟨tag, hmem, htag⟩

theorem max_key_length_attained (tags : List Tag) (hne : tags ≠ []) :
    ∃ tag ∈ tags, tag.key.utf8ByteSize = max_key_length tags := by
  rcases foldl_max_key_attained tags 0 with h | h
  · obtain ⟨t, rest, rfl⟩ := List.exists_cons_of_ne_nil hne
    refine ⟨t, List.mem_cons_self _ _, ?_⟩
    have := (foldl_max_key_ge (t :: rest) 0).2 t (List.mem_cons_self _ _)
    unfold max_key_length
    omega
  · exact h

theorem spacing_no_wrap (maxlen len : Nat) (hle : len ≤ maxlen) (hmax : maxlen < 2 ^ 64) :
    (maxlen + 2 ^ 64 - len) % 2 ^ 64 = maxlen - len := by
  have h64 : (2 : Nat) ^ 64 = 18446744073709551616 := by norm_num
  rw [h64] at hmax ⊢
  omega

theorem write_tag_eq_line (opts : debug_output_options) (maxlen : Nat) (out : String)
    (tag : Tag) (hle : tag.key.utf8ByteSize ≤ maxlen) (hmax : maxlen < 2 ^ 64) :
    write_tag opts maxlen out tag = out ++ tag_line opts maxlen tag := by
  unfold write_tag tag_line
  simp only [spacing_no_wrap maxlen _ hle hmax]
  rw [write_string_eq opts (_ ++ " = "), write_string_eq opts (out ++ "    ")]
  exact String.ext (by simp)

theorem foldl_write_tag_lines (opts : debug_output_options) (maxlen : Nat)
    (hmax : maxlen < 2 ^ 64) (l : List Tag) (out : String)
    (hle : ∀ tag ∈ l, tag.key.utf8ByteSize ≤ maxlen) :
    l.foldl (write_tag opts maxlen) out
      = out ++ ⟨l.flatMap (fun tag => (tag_line opts maxlen tag).data)⟩ := by
  induction l generalizing out with
  | nil => exact String.ext (by simp)
  | cons t rest ih =>
    rw [List.foldl_cons, write_tag_eq_line opts maxlen out t
      (hle t (List.mem_cons_self _ _)) hmax,
      ih _ (fun tag h => hle tag (List.mem_cons_of_mem _ h))]
    exact String.ext (by simp)

end TagLemmas

/-- C25: for a non-empty tag list whose keys are shorter than 2^64 bytes,
`write_tags` emits the tags header and then one line per tag, in list order;
the line of a tag is the quoted key, exactly (largest key length in bytes)
minus (length of this key in bytes) spaces, ` = `, the quoted value and a line
feed.  The largest key length is attained by a key of the list and no key is
longer, so the `size_t` difference does not wrap around; and the padding loop
started with `spacing` appends exactly `spacing` spaces. -/
theorem write_tags_lines_and_padding (opts : debug_output_options) (out : String)
    (tags : List Tag) (padding : String) (hne : tags ≠ [])
    (hsize : ∀ tag ∈ tags, tag.key.utf8ByteSize < 2 ^ 64) :
    write_tags opts out tags padding
        = out ++ (write_fieldname opts "" "tags" ++ padding ++ "     "
            ++ fmt_d (int32 tags.length) ++ "\n")
          ++ ⟨tags.flatMap (fun tag => (tag_line opts (max_key_length tags) tag).data)⟩ ∧
      (∀ tag ∈ tags,
        tag.key.utf8ByteSize ≤ max_key_length tags ∧
          (max_key_length tags + 2 ^ 64 - tag.key.utf8ByteSize) % 2 ^ 64
            = max_key_length tags - tag.key.utf8ByteSize) ∧
      (∃ tag ∈ tags, tag.key.utf8ByteSize = max_key_length tags) ∧
      (∀ (spacing : Nat) (acc : String),
        padding_loop spacing acc = acc ++ ⟨List.replicate spacing ' '⟩) := by
  have hge : ∀ tag ∈ tags, tag.key.utf8ByteSize ≤ max_key_length tags :=
    (foldl_max_key_ge tags 0).2
  obtain ⟨top, htop, htopeq⟩ := max_key_length_attained tags hne
  have hmax : max_key_length tags < 2 ^ 64 := by
    rw [← htopeq]
    exact hsize top htop
  refine ⟨?_, fun tag h => ⟨hge tag h, spacing_no_wrap _ _ (hge tag h) hmax⟩,
    ⟨top, htop, htopeq⟩, padding_loop_eq⟩
  have hempty : tags.isEmpty = false := by
    cases tags with
    | nil => exact absurd rfl hne
    | cons _ _ => rfl
  unfold write_tags
  simp only [hempty, Bool.not_false, if_true]
  rw [foldl_write_tag_lines opts _ hmax tags _ hge, write_fieldname_eq]
  exact String.ext (by simp)

/-- C25 at a concrete input: keys of 7 and 2 bytes, so the second key is followed
by 5 spaces. -/
theorem write_tags_lines_and_padding_witness :
    write_tags ⟨true, false⟩ "" example_tags ""
        = "" ++ (write_fieldname ⟨true, false⟩ "" "tags" ++ "" ++ "     "
            ++ fmt_d (int32 example_tags.length) ++ "\n")
          ++ ⟨example_tags.flatMap
              (fun tag => (tag_line ⟨true, false⟩ (max_key_length example_tags) tag).data)⟩ ∧
      max_key_length example_tags = 7 ∧
      write_tags ⟨true, false⟩ "" example_tags ""
        = "  tags:      2\n    \"highway\" = \"primary\"\n    \"na\"      = \"x\"\n" :=
  ⟨(write_tags_lines_and_padding ⟨true, false⟩ "" example_tags "" (by decide)
      (by decide)).1, by decide, by decide⟩

end DebugOutputBlock
end detail
end io
end osmium

namespace osmium
namespace io
namespace detail
namespace DebugOutputBlock

section InjectiveLemmas

/-- The text appended for one code point without colour. -/
theorem append_encoded_char_plain (m : Bool) (ch : Char) :
    (append_encoded_char ⟨m, false⟩ "" ch).data = escape_char ch := by
  by_cases h : allowed ch.toNat = true <;>
    simp [append_encoded_char, write_color, escape_char, h]

theorem allowed_ne_special (ch : Char) (h : allowed ch.toNat = true) :
    ch ≠ '<' ∧ ch ≠ '>' ∧ ch ≠ '"' := by
  refine ⟨?_, ?_, ?_⟩ <;>
    · rintro rfl
      revert h
      decide

theorem fmt_04X_no_gt (n : Nat) : '>' ∉ (fmt_04X n).data := by
  intro h
  have := (fmt_04X_spec n).1 _ h
  revert this
  decide

theorem fmt_04X_injective (a b : Nat) (h : fmt_04X a = fmt_04X b) : a = b := by
  rw [← (fmt_04X_spec a).2.2.1, ← (fmt_04X_spec b).2.2.1, h]

theorem char_eq_of_toNat_eq (c d : Char) (h : c.toNat = d.toNat) : c = d := by
  rw [← Char.ofNat_toNat c, ← Char.ofNat_toNat d, h]

/-- Two texts that are cut at their first `>` agree piece by piece. -/
theorem split_at_first_gt (a b x y : List Char) (ha : '>' ∉ a) (hb : '>' ∉ b)
    (h : a ++ '>' :: x = b ++ '>' :: y) : a = b ∧ x = y := by
  induction a generalizing b with
  | nil =>
    cases b with
    | nil => simpa using h
    | cons d b =>
      simp only [List.nil_append, List.cons_append, List.cons.injEq] at h
      exact absurd h.1.symm (fun hd => hb (by simp [hd]))
  | cons c a ih =>
    cases b with
    | nil =>
      simp only [List.nil_append, List.cons_append, List.cons.injEq] at h
      exact absurd h.1 (fun hc => ha (by simp [hc]))
    | cons d b =>
      simp only [List.cons_append, List.cons.injEq] at h
      obtain ⟨hab, hxy⟩ := ih b (fun hm => ha (List.mem_cons_of_mem _ hm))
        (fun hm => hb (List.mem_cons_of_mem _ hm)) h.2
      exact ⟨by rw [h.1, hab], hxy⟩

/-- The escaped text followed by a double quote determines the string and what
follows the quote. -/
theorem escaped_prefix_decodable (l1 l2 r1 r2 : List Char)
    (h : l1.flatMap escape_char ++ '"' :: r1 = l2.flatMap escape_char ++ '"' :: r2) :
    l1 = l2 ∧ r1 = r2 := by
  induction l1 generalizing l2 with
  | nil =>
    cases l2 with
    | nil => simpa using h
    | cons d l2 =>
      exfalso
      simp only [List.flatMap_nil, List.nil_append, List.flatMap_cons, escape_char] at h
      by_cases hd : allowed d.toNat = true
      · simp only [hd, if_true, List.cons_append, List.nil_append, List.cons.injEq] at h
        exact (allowed_ne_special d hd).2.2 h.1.symm
      · simp [hd] at h
  | cons c l1 ih =>
    cases l2 with
    | nil =>
      exfalso
      simp only [List.flatMap_nil, List.nil_append, List.flatMap_cons, escape_char] at h
      by_cases hc : allowed c.toNat = true
      · simp only [hc, if_true, List.cons_append, List.nil_append, List.cons.injEq] at h
        exact (allowed_ne_special c hc).2.2 h.1
      · simp [hc] at h
    | cons d l2 =>
      simp only [List.flatMap_cons, escape_char] at h
      by_cases hc : allowed c.toNat = true <;> by_cases hd : allowed d.toNat = true
      · simp only [hc, hd, if_true, List.cons_append, List.nil_append, List.cons.injEq] at h
        obtain ⟨h1, h2⟩ := ih l2 h.2
        exact ⟨by rw [h.1, h1], h2⟩
      · exfalso
        simp only [hc, hd, if_true, if_false, List.cons_append, List.nil_append,
          List.cons.injEq, Bool.false_eq_true] at h
        exact (allowed_ne_special c hc).1 h.1
      · exfalso
        simp only [hc, hd, if_true, if_false, List.cons_append, List.nil_append,
          List.cons.injEq, Bool.false_eq_true] at h
        exact (allowed_ne_special d hd).1 h.1.symm
      · simp only [hc, hd, if_false, List.cons_append, List.append_assoc,
          List.singleton_append, List.cons.injEq, true_and, Bool.false_eq_true] at h
        obtain ⟨hhex, hrest⟩ := split_at_first_gt _ _ _ _ (fmt_04X_no_gt _)
          (fmt_04X_no_gt _) h
        have hcd : c = d :=
          char_eq_of_toNat_eq c d (fmt_04X_injective _ _ (String.ext hhex))
        obtain ⟨h1, h2⟩ := ih l2 (by simpa using hrest)
        exact ⟨by rw [hcd, h1], h2⟩

theorem append_encoded_string_plain_data (m : Bool) (s : String) :
    (append_encoded_string ⟨m, false⟩ "" s).data = s.data.flatMap escape_char := by
  unfold append_encoded_string
  rw [foldl_append_encoded_char]
  simp only [String.data_append, String.empty_append]
  exact List.flatMap_congr (fun ch _ => append_encoded_char_plain m ch)

end InjectiveLemmas

/-- C24: without colour the escaping of `append_encoded_string` is injective:
strings with the same escaped text are equal.  The characters `<`, `>` and `"`
are not on the allow-list, so they occur in the escaped text only as written
by an escape (`<` at its start, `>` at its end) and the double quote not at
all; and the quoted text written by `write_string`, followed by anything,
determines the string and what follows it. -/
theorem append_encoded_string_injective (m : Bool) (s t r1 r2 : String) :
    (append_encoded_string ⟨m, false⟩ "" s = append_encoded_string ⟨m, false⟩ "" t →
        s = t) ∧
      (allowed '<'.toNat = false ∧ allowed '>'.toNat = false ∧ allowed '"'.toNat = false) ∧
      '"' ∉ (append_encoded_string ⟨m, false⟩ "" s).data ∧
      write_string ⟨m, false⟩ "" s
        = "\"" ++ append_encoded_string ⟨m, false⟩ "" s ++ "\"" ∧
      (write_string ⟨m, false⟩ "" s ++ r1 = write_string ⟨m, false⟩ "" t ++ r2 →
        s = t ∧ r1 = r2) := by
  have hws : ∀ x : String, write_string ⟨m, false⟩ "" x
      = "\"" ++ append_encoded_string ⟨m, false⟩ "" x ++ "\"" := by
    intro x
    unfold write_string
    simp only [write_color, Bool.false_eq_true, if_false]
    rw [append_encoded_string_eq]
    exact String.ext (by simp)
  refine ⟨?_, ⟨by decide, by decide, by decide⟩, ?_, hws s, ?_⟩
  · intro h
    have hd := congrArg String.data h
    rw [append_encoded_string_plain_data, append_encoded_string_plain_data] at hd
    have := escaped_prefix_decodable s.data t.data [] [] (by rw [hd])
    exact String.ext this.1
  · rw [append_encoded_string_plain_data]
    intro hmem
    obtain ⟨ch, _, hch⟩ := List.mem_flatMap.mp hmem
    unfold escape_char at hch
    by_cases hc : allowed ch.toNat = true
    · simp only [hc, if_true, List.mem_singleton] at hch
      exact (allowed_ne_special ch hc).2.2 hch.symm
    · simp only [hc, if_false, List.mem_cons, List.mem_append, List.mem_singleton,
        Bool.false_eq_true] at hch
      rcases hch with hch | hch | hch | hch | hch
      · exact absurd hch (by decide)
      · exact absurd hch (by decide)
      · exact absurd hch (by decide)
      · have := (fmt_04X_spec ch.toNat).1 _ hch
        revert this
        decide
      · exact absurd hch (by decide)
  · intro h
    rw [hws s, hws t] at h
    have hd := congrArg String.data h
    simp only [String.data_append, append_encoded_string_plain_data,
      List.append_assoc] at hd
    have hd2 : s.data.flatMap escape_char ++ '"' :: r1.data
        = t.data.flatMap escape_char ++ '"' :: r2.data := by
      simpa using hd
    obtain ⟨h1, h2⟩ := escaped_prefix_decodable s.data t.data r1.data r2.data hd2
    exact ⟨String.ext h1, String.ext h2⟩

end DebugOutputBlock
end detail
end io
end osmium

namespace osmium
namespace io
namespace detail
namespace DebugOutputBlock

section NoControlLemmas

variable {Location : Type}

theorem nc_append (a b : String) : no_control (a ++ b) ↔ no_control a ∧ no_control b := by
  simp [no_control, or_imp, forall_and]

theorem nc_push (a : String) (c : Char) :
    no_control (a.push c) ↔ no_control a ∧ (c = '\n' ∨ 32 ≤ c.toNat) := by
  simp [no_control, or_imp, forall_and]

theorem nc_of_alphabet (s alphabet : String) (h : ∀ c ∈ s.data, c ∈ alphabet.data)
    (ha : no_control alphabet) : no_control s :=
  fun c hc => ha c (h c hc)

theorem nc_to_base (b : Nat) (hb : 0 < b) (hb16 : b ≤ 16) (fuel n : Nat) :
    no_control ⟨to_base b fuel n⟩ := by
  intro c hc
  obtain ⟨d, hd, rfl⟩ := to_base_chars b hb fuel n c hc
  have hd16 : d < 16 := by omega
  right
  interval_cases d <;> decide

theorem nc_mk_append (a b : List Char) :
    no_control ⟨a ++ b⟩ ↔ no_control ⟨a⟩ ∧ no_control ⟨b⟩ := by
  simp [no_control, or_imp, forall_and]

theorem nc_mk_cons (c : Char) (a : List Char) :
    no_control ⟨c :: a⟩ ↔ (c = '\n' ∨ 32 ≤ c.toNat) ∧ no_control ⟨a⟩ := by
  simp [no_control]

theorem nc_replicate (n : Nat) (c : Char) (hc : 32 ≤ c.toNat) :
    no_control ⟨List.replicate n c⟩ := by
  intro x hx
  rw [List.eq_of_mem_replicate hx]
  exact Or.inr hc

theorem nc_fmt_d (i : Int) : no_control (fmt_d i) :=
  nc_of_alphabet _ "-0123456789" (fmt_d_chars i) (by simp [no_control])

theorem nc_fmt_10d (i : Int) : no_control (fmt_10d i) := by
  unfold fmt_10d pad_left
  rw [nc_mk_append]
  exact ⟨nc_replicate _ _ (by decide), nc_fmt_d i⟩

theorem nc_fmt_04X (n : Nat) : no_control (fmt_04X n) := by
  unfold fmt_04X pad_left
  rw [nc_mk_append]
  exact ⟨nc_replicate _ _ (by decide), nc_to_base 16 (by decide) (by decide) _ _⟩

theorem nc_fmt_0wd (w i : Int) : no_control (fmt_0wd w i) := by
  unfold fmt_0wd pad_left
  split
  · rw [nc_mk_append]
    exact ⟨nc_fmt_d i, nc_replicate _ _ (by decide)⟩
  · split
    · rw [nc_mk_cons, nc_mk_append]
      exact ⟨Or.inr (by decide), nc_replicate _ _ (by decide),
        nc_to_base 10 (by decide) (by decide) _ _⟩
    · rw [nc_mk_append]
      exact ⟨nc_replicate _ _ (by decide), nc_to_base 10 (by decide) (by decide) _ _⟩

theorem nc_fmt_ws (w : Int) : no_control (fmt_ws w) :=
  nc_replicate _ _ (by decide)

theorem allowed_ge_space (c : Nat) (h : allowed c = true) : 32 ≤ c := by
  simp only [allowed, Bool.or_eq_true, Bool.and_eq_true, decide_eq_true_eq, beq_iff_eq] at h
  omega

theorem nc_append_encoded_char (m : Bool) (out : String) (ch : Char) :
    no_control (append_encoded_char ⟨m, false⟩ out ch) ↔ no_control out := by
  by_cases h : allowed ch.toNat = true
  · have := allowed_ge_space _ h
    simp [append_encoded_char, h, nc_push, this]
  · simp [append_encoded_char, write_color, h, nc_append, nc_fmt_04X]
    simp [no_control]

theorem nc_append_encoded_string (m : Bool) (out data : String) :
    no_control (append_encoded_string ⟨m, false⟩ out data) ↔ no_control out := by
  unfold append_encoded_string
  generalize data.data = l
  induction l generalizing out with
  | nil => rfl
  | cons ch rest ih => rw [List.foldl_cons, ih, nc_append_encoded_char]

theorem nc_write_string (m : Bool) (out s : String) :
    no_control (write_string ⟨m, false⟩ out s) ↔ no_control out := by
  simp [write_string, write_color, nc_push, nc_append_encoded_string]

theorem nc_write_fieldname (m : Bool) (out name : String) (h : no_control name) :
    no_control (write_fieldname ⟨m, false⟩ out name) ↔ no_control out := by
  simp [write_fieldname, write_color, nc_append, h]
  simp [no_control]

theorem nc_write_object_type (m : Bool) (out t : String) (v : Bool) (h : no_control t) :
    no_control (write_object_type ⟨m, false⟩ out t v) ↔ no_control out := by
  cases v <;> simp [write_object_type, write_color, nc_append, nc_push, h]

theorem nc_write_comment_field (m : Bool) (out name : String) (h : no_control name) :
    no_control (write_comment_field ⟨m, false⟩ out name) ↔ no_control out := by
  simp [write_comment_field, write_color, nc_append, h]
  simp [no_control]

theorem nc_write_counter (m : Bool) (out : String) (w n : Int) :
    no_control (write_counter ⟨m, false⟩ out w n) ↔ no_control out := by
  simp [write_counter, write_color, nc_append, nc_fmt_0wd]
  simp [no_control]

theorem nc_write_error (m : Bool) (out msg : String) (h : no_control msg) :
    no_control (write_error ⟨m, false⟩ out msg) ↔ no_control out := by
  simp [write_error, write_color, nc_append, h]

theorem nc_write_meta_version (m : Bool) (out : String) (object : OSMObject) :
    no_control (write_meta_version ⟨m, false⟩ out object) ↔ no_control out := by
  have h1 : no_control "version" := by simp [no_control]
  have h2 : no_control " deleted\n" := by simp [no_control]
  have h3 : no_control " visible\n" := by simp [no_control]
  have h4 : no_control "  " := by simp [no_control]
  cases hv : object.visible <;>
    simp [write_meta_version, nc_write_fieldname, nc_write_error, nc_append, nc_fmt_d, hv,
      h1, h2, h3, h4]

theorem nc_write_meta_changeset (m : Bool) (out : String) (object : OSMObject) :
    no_control (write_meta_changeset ⟨m, false⟩ out object) ↔ no_control out := by
  have h1 : no_control "changeset" := by simp [no_control]
  have h2 : no_control "\n" := by simp [no_control]
  simp [write_meta_changeset, nc_write_fieldname, nc_append, nc_fmt_d, h1, h2]

theorem nc_write_meta_timestamp (F : Formats Location) (m : Bool) (out : String)
    (object : OSMObject) (hiso : ∀ t, no_control (F.to_iso t)) :
    no_control (write_meta_timestamp F ⟨m, false⟩ out object) ↔ no_control out := by
  have h1 : no_control "timestamp" := by simp [no_control]
  have h2 : no_control " (" := by simp [no_control]
  have h3 : no_control ")\n" := by simp [no_control]
  simp [write_meta_timestamp, nc_write_fieldname, nc_append, nc_fmt_d, hiso, h1, h2, h3]

theorem nc_write_meta_user (m : Bool) (out : String) (object : OSMObject) :
    no_control (write_meta_user ⟨m, false⟩ out object) ↔ no_control out := by
  have h1 : no_control "user" := by simp [no_control]
  have h2 : no_control "     " := by simp [no_control]
  have h3 : no_control " " := by simp [no_control]
  simp [write_meta_user, nc_write_fieldname, nc_write_string, nc_append, nc_push, nc_fmt_d,
    h1, h2, h3]

theorem nc_write_meta (F : Formats Location) (opts : debug_output_options) (out : String)
    (object : OSMObject) (hcolor : opts.use_color = false)
    (hiso : ∀ t, no_control (F.to_iso t)) :
    no_control (write_meta F opts out object) ↔ no_control out := by
  obtain ⟨m, color⟩ := opts
  simp only at hcolor
  subst hcolor
  have h2 : no_control "\n" := by simp [no_control]
  cases m <;>
    simp [write_meta, nc_write_meta_version, nc_write_meta_changeset,
      nc_write_meta_timestamp F _ _ _ hiso, nc_write_meta_user, nc_append, nc_fmt_d, h2]

theorem nc_foldl {α : Type} (step : String → α → String)
    (h : ∀ out x, no_control (step out x) ↔ no_control out) (l : List α) (out : String) :
    no_control (l.foldl step out) ↔ no_control out := by
  induction l generalizing out with
  | nil => rfl
  | cons x xs ih => rw [List.foldl_cons, ih, h]

theorem nc_foldl_counted {α : Type} (step : String → Nat → α → String)
    (h : ∀ out n x, no_control (step out n x) ↔ no_control out) (l : List α) (out : String)
    (n : Nat) :
    no_control (foldl_counted step out n l) ↔ no_control out := by
  induction l generalizing out n with
  | nil => rfl
  | cons x xs ih => rw [foldl_counted, ih, h]

theorem nc_write_tag (m : Bool) (maxlen : Nat) (out : String) (tag : Tag) :
    no_control (write_tag ⟨m, false⟩ maxlen out tag) ↔ no_control out := by
  have h1 : no_control "    " := by simp [no_control]
  have h2 : no_control " = " := by simp [no_control]
  simp [write_tag, nc_write_string, nc_append, nc_push, h1, h2,
    nc_replicate _ ' ' (by decide)]

theorem nc_write_tags (m : Bool) (out : String) (tags : List Tag) (padding : String)
    (hp : no_control padding) :
    no_control (write_tags ⟨m, false⟩ out tags padding) ↔ no_control out := by
  have h1 : no_control "tags" := by simp [no_control]
  have h2 : no_control "     " := by simp [no_control]
  have h3 : no_control "\n" := by simp [no_control]
  cases he : tags.isEmpty <;>
    simp [write_tags, he, nc_foldl _ (nc_write_tag m _), nc_write_fieldname, nc_append,
      nc_fmt_d, hp, h1, h2, h3]

theorem nc_write_location (F : Formats Location) (m : Bool) (out : String)
    (location : Location) (hlon : ∀ l, no_control (F.lon_f7 l))
    (hlat : ∀ l, no_control (F.lat_f7 l)) :
    no_control (write_location F ⟨m, false⟩ out location) ↔ no_control out := by
  have h1 : no_control "lon/lat" := by simp [no_control]
  have h2 : no_control "  " := by simp [no_control]
  have h3 : no_control "," := by simp [no_control]
  have h4 : no_control " INVALID LOCATION!" := by simp [no_control]
  cases hv : F.location_valid location <;>
    simp [write_location, hv, nc_write_fieldname, nc_write_error, nc_append, nc_push, hlon,
      hlat, h1, h2, h3, h4]

theorem nc_write_box (F : Formats Location) (m : Bool) (out : String) (box : Box Location)
    (hlon : ∀ l, no_control (F.lon_f7 l)) (hlat : ∀ l, no_control (F.lat_f7 l)) :
    no_control (write_box F ⟨m, false⟩ out box) ↔ no_control out := by
  have h1 : no_control "box l/b/r/t" := by simp [no_control]
  have h2 : no_control "BOX NOT SET!\n" := by simp [no_control]
  have h3 : no_control "," := by simp [no_control]
  have h4 : no_control " INVALID BOX!" := by simp [no_control]
  have h5 : no_control " " := by simp [no_control]
  cases hs : F.box_set box <;> cases hv : F.box_valid box <;>
    simp [write_box, hs, hv, nc_write_fieldname, nc_write_error, nc_append, nc_push, hlon,
      hlat, h1, h2, h3, h4, h5]

theorem nc_way_nodes_line (m : Bool) (out : String) (nodes : List (NodeRef Location)) :
    no_control (way_nodes_line ⟨m, false⟩ out nodes) ↔ no_control out := by
  have h1 : no_control "nodes" := by simp [no_control]
  have h2 : no_control "    " := by simp [no_control]
  have h3 : no_control " LESS THAN 2 NODES!\n" := by simp [no_control]
  have h4 : no_control " MORE THAN 2000 NODES!\n" := by simp [no_control]
  have h5 : no_control " (closed)\n" := by simp [no_control]
  have h6 : no_control " (open)\n" := by simp [no_control]
  unfold way_nodes_line
  split
  · simp [nc_write_fieldname, nc_write_error, nc_append, nc_fmt_d, h1, h2, h3]
  · split
    · simp [nc_write_fieldname, nc_write_error, nc_append, nc_fmt_d, h1, h2, h4]
    · split <;> simp [nc_write_fieldname, nc_append, nc_fmt_d, h1, h2, h5, h6]

theorem nc_way_node_ref (F : Formats Location) (m : Bool) (width : Int) (out : String)
    (n : Nat) (node_ref : NodeRef Location) (hlon : ∀ l, no_control (F.lon_f7 l))
    (hlat : ∀ l, no_control (F.lat_f7 l)) :
    no_control (way_node_ref F ⟨m, false⟩ width out n node_ref) ↔ no_control out := by
  have h1 : no_control " (" := by simp [no_control]
  have h2 : no_control "," := by simp [no_control]
  have h3 : no_control ")" := by simp [no_control]
  cases hv : F.location_valid node_ref.location <;>
    simp [way_node_ref, hv, nc_write_counter, nc_append, nc_push, nc_fmt_10d, hlon, hlat,
      h1, h2, h3]

theorem nc_relation_member (m : Bool) (width : Int) (out : String) (n : Nat)
    (member : RelationMember) :
    no_control (relation_member ⟨m, false⟩ width out n member) ↔ no_control out := by
  have h1 : no_control " " := by simp [no_control]
  have h2 : ∀ k, no_control (short_typename k) := by
    intro k
    unfold short_typename
    split <;> simp [no_control]
  simp [relation_member, nc_write_counter, nc_write_string, nc_append, nc_push, nc_fmt_10d,
    h1, h2]

end NoControlLemmas

end DebugOutputBlock
end detail
end io
end osmium

namespace osmium.io.detail.DebugOutputBlock

section NoControlEntities

variable {Location : Type}

theorem nc_node (F : Formats Location) (m : Bool) (out : String) (n : Node Location)
    (hiso : ∀ t, no_control (F.to_iso t)) (hlon : ∀ l, no_control (F.lon_f7 l))
    (hlat : ∀ l, no_control (F.lat_f7 l)) :
    no_control (node F ⟨m, false⟩ out n) ↔ no_control out := by
  have h1 : no_control "node" := by simp [no_control]
  have h2 : no_control "" := by simp [no_control]
  cases hv : n.object.visible <;>
    simp [node, hv, nc_write_object_type, (fun o x => nc_write_meta F ⟨m, false⟩ o x rfl hiso),
      nc_write_location F _ _ _ hlon hlat, nc_write_tags, nc_push, h1, h2]

theorem nc_way (F : Formats Location) (m : Bool) (out : String) (w : Way Location)
    (hiso : ∀ t, no_control (F.to_iso t)) (hlon : ∀ l, no_control (F.lon_f7 l))
    (hlat : ∀ l, no_control (F.lat_f7 l)) :
    no_control (way F ⟨m, false⟩ out w) ↔ no_control out := by
  have h1 : no_control "way" := by simp [no_control]
  have h2 : no_control "" := by simp [no_control]
  simp [way, nc_write_object_type, (fun o x => nc_write_meta F ⟨m, false⟩ o x rfl hiso), nc_write_tags, nc_push,
    nc_way_nodes_line,
    nc_foldl_counted _ (fun o k x => nc_way_node_ref F m _ o k x hlon hlat), h1, h2]

theorem nc_relation (F : Formats Location) (m : Bool) (out : String) (r : Relation)
    (hiso : ∀ t, no_control (F.to_iso t)) :
    no_control (relation F ⟨m, false⟩ out r) ↔ no_control out := by
  have h1 : no_control "relation" := by simp [no_control]
  have h2 : no_control "" := by simp [no_control]
  have h3 : no_control "members" := by simp [no_control]
  have h4 : no_control "  " := by simp [no_control]
  have h5 : no_control "\n" := by simp [no_control]
  simp [relation, nc_write_object_type, (fun o x => nc_write_meta F ⟨m, false⟩ o x rfl hiso), nc_write_tags, nc_push,
    nc_write_fieldname, nc_append, nc_fmt_d,
    nc_foldl_counted _ (fun o k x => nc_relation_member m _ o k x), h1, h2, h3, h4, h5]

theorem nc_changeset_num_changes (m : Bool) (out : String) (k : Nat) :
    no_control (changeset_num_changes ⟨m, false⟩ out k) ↔ no_control out := by
  have h1 : no_control "num changes" := by simp [no_control]
  have h2 : no_control " NO CHANGES!" := by simp [no_control]
  by_cases hk : k = 0 <;>
    simp [changeset_num_changes, hk, nc_write_fieldname, nc_write_error, nc_append, nc_push,
      nc_fmt_d, h1, h2]

theorem nc_changeset_created_at (F : Formats Location) (m : Bool) (out : String) (t : Nat)
    (hiso : ∀ t, no_control (F.to_iso t)) :
    no_control (changeset_created_at F ⟨m, false⟩ out t) ↔ no_control out := by
  have h1 : no_control "created at" := by simp [no_control]
  have h2 : no_control " (" := by simp [no_control]
  have h3 : no_control ")\n" := by simp [no_control]
  simp [changeset_created_at, nc_write_fieldname, nc_append, nc_push, nc_fmt_d, hiso,
    h1, h2, h3]

theorem nc_changeset_closed_at (F : Formats Location) (m : Bool) (out : String) (closed : Bool)
    (t : Nat) (hiso : ∀ t, no_control (F.to_iso t)) :
    no_control (changeset_closed_at F ⟨m, false⟩ out closed t) ↔ no_control out := by
  have h1 : no_control "closed at" := by simp [no_control]
  have h2 : no_control " (" := by simp [no_control]
  have h3 : no_control ")\n" := by simp [no_control]
  have h4 : no_control "  " := by simp [no_control]
  have h5 : no_control "OPEN!\n" := by simp [no_control]
  cases closed <;>
    simp [changeset_closed_at, nc_write_fieldname, nc_write_error, nc_append, nc_fmt_d, hiso,
      h1, h2, h3, h4, h5]

theorem nc_changeset_user (m : Bool) (out : String) (uid : Nat) (user : String) :
    no_control (changeset_user ⟨m, false⟩ out uid user) ↔ no_control out := by
  have h1 : no_control "user" := by simp [no_control]
  have h2 : no_control "       " := by simp [no_control]
  have h3 : no_control " " := by simp [no_control]
  simp [changeset_user, nc_write_fieldname, nc_write_string, nc_append, nc_push, nc_fmt_d,
    h1, h2, h3]

theorem nc_changeset_comment (F : Formats Location) (m : Bool) (width : Int) (out : String)
    (n : Nat) (comment : ChangesetComment) (hiso : ∀ t, no_control (F.to_iso t)) :
    no_control (changeset_comment F ⟨m, false⟩ width out n comment) ↔ no_control out := by
  have h1 : no_control "date" := by simp [no_control]
  have h2 : no_control "user" := by simp [no_control]
  have h3 : no_control "text" := by simp [no_control]
  have h4 : no_control " (" := by simp [no_control]
  have h5 : no_control ")\n      " := by simp [no_control]
  have h6 : no_control "\n      " := by simp [no_control]
  have h7 : no_control " " := by simp [no_control]
  simp [changeset_comment, nc_write_counter, nc_write_comment_field, nc_write_string,
    nc_append, nc_push, nc_fmt_d, nc_fmt_ws, hiso, h1, h2, h3, h4, h5, h6, h7]

theorem nc_changeset_comments (F : Formats Location) (m : Bool) (out : String)
    (c : Changeset Location) (hiso : ∀ t, no_control (F.to_iso t)) :
    no_control (changeset_comments F ⟨m, false⟩ out c) ↔ no_control out := by
  have h1 : no_control "comments" := by simp [no_control]
  have h2 : no_control "   " := by simp [no_control]
  have h3 : no_control "\n" := by simp [no_control]
  unfold changeset_comments
  split
  · simp [nc_foldl_counted _ (fun o k x => nc_changeset_comment F m _ o k x hiso),
      nc_write_fieldname, nc_append, nc_fmt_d, h1, h2, h3]
  · rfl

theorem nc_changeset (F : Formats Location) (m : Bool) (out : String) (c : Changeset Location)
    (hiso : ∀ t, no_control (F.to_iso t)) (hlon : ∀ l, no_control (F.lon_f7 l))
    (hlat : ∀ l, no_control (F.lat_f7 l)) :
    no_control (changeset F ⟨m, false⟩ out c) ↔ no_control out := by
  have h1 : no_control "changeset" := by simp [no_control]
  have h2 : no_control "\n" := by simp [no_control]
  have h3 : no_control "  " := by simp [no_control]
  simp [changeset, nc_write_object_type, nc_changeset_num_changes,
    nc_changeset_created_at F _ _ _ hiso, nc_changeset_closed_at F _ _ _ _ hiso,
    nc_changeset_user, nc_write_box F _ _ _ hlon hlat, nc_write_tags,
    nc_changeset_comments F _ _ _ hiso, nc_append, nc_push, nc_fmt_d, h1, h2, h3]

theorem nc_item (F : Formats Location) (m : Bool) (out : String) (i : Item Location)
    (hiso : ∀ t, no_control (F.to_iso t)) (hlon : ∀ l, no_control (F.lon_f7 l))
    (hlat : ∀ l, no_control (F.lat_f7 l)) :
    no_control (item F ⟨m, false⟩ out i) ↔ no_control out := by
  cases i with
  | node n => exact nc_node F m out n hiso hlon hlat
  | way w => exact nc_way F m out w hiso hlon hlat
  | relation r => exact nc_relation F m out r hiso
  | changeset c => exact nc_changeset F m out c hiso hlon hlat

end NoControlEntities

/-- C22: with `use_color` false the text the block returns holds no ESC
character and no other character below U+0020 except line feed, for every input
buffer and both settings of `add_metadata`, whatever the user names, tag keys and
values, member roles and comment texts are, provided the timestamp and
coordinate formatters themselves emit none. -/
theorem no_control_characters_without_color {Location : Type} (F : Formats Location)
    (add_metadata : Bool) (buffer : List (Item Location))
    (hiso : ∀ t, no_control (F.to_iso t)) (hlon : ∀ l, no_control (F.lon_f7 l))
    (hlat : ∀ l, no_control (F.lat_f7 l)) :
    Char.ofNat 27 ∉ (run F ⟨buffer, ⟨add_metadata, false⟩⟩).data ∧
    ∀ c ∈ (run F ⟨buffer, ⟨add_metadata, false⟩⟩).data, c = '\n' ∨ 32 ≤ c.toNat := by
  have h : no_control (run F ⟨buffer, ⟨add_metadata, false⟩⟩) := by
    unfold run
    exact (nc_foldl _ (fun o x => nc_item F add_metadata o x hiso hlon hlat) buffer "").2
      (by simp [no_control])
  refine ⟨fun hmem => ?_, h⟩
  have := h _ hmem
  revert this
  decide

/-- Instance of C22: the buffer `example_buffer`, whose node carries a user name
with an ESC sequence and a tab, a tag key with a carriage return and a tag value
with a bell character, rendered with metadata and without colour. -/
theorem no_control_characters_without_color_witness :
    Char.ofNat 27 ∉ (run example_formats ⟨example_buffer, ⟨true, false⟩⟩).data ∧
    ∀ c ∈ (run example_formats ⟨example_buffer, ⟨true, false⟩⟩).data,
      c = '\n' ∨ 32 ≤ c.toNat :=
  no_control_characters_without_color example_formats true example_buffer
    (by intro t; simp [no_control, example_formats])
    (by intro l; simp [no_control, example_formats])
    (by intro l; simp [no_control, example_formats])

end osmium.io.detail.DebugOutputBlock

namespace osmium.io.detail.DebugOutputBlock

section StripLemmas

variable {Location : Type}

set_option linter.unusedTactic false
set_option linter.unreachableTactic false

theorem no_esc_of_nc (s : String) (h : no_control s) : Char.ofNat 27 ∉ s.data := by
  intro hmem
  have := h _ hmem
  revert this
  decide

theorem strip_colors_aux_plain (c : Char) (hc : c ≠ Char.ofNat 27) (rest : List Char) :
    strip_colors_aux 0 (c :: rest) = c :: strip_colors_aux 0 rest := by
  have hfind : color_sequences.find? (fun s => s.data.isPrefixOf (c :: rest)) = none := by
    rw [List.find?_eq_none]
    intro s hs
    simp only [color_sequences, List.mem_cons, List.mem_singleton, List.not_mem_nil,
      or_false] at hs
    rcases hs with rfl | rfl | rfl | rfl | rfl | rfl | rfl | rfl | rfl | rfl | rfl <;>
      simpa [color_bold, color_black, color_gray, color_red, color_green, color_yellow,
        color_blue, color_magenta, color_cyan, color_white, color_reset, List.isPrefixOf]
        using fun h => (hc h.symm).elim
  simp [strip_colors_aux, hfind]

theorem strips_nil : Strips "" "" := fun _ => rfl

theorem strips_append (a a2 b b2 : String) (ha : Strips a a2) (hb : Strips b b2) :
    Strips (a ++ b) (a2 ++ b2) := by
  intro rest
  rw [String.data_append, String.data_append, List.append_assoc, ha, hb, List.append_assoc]

theorem strips_plain (s : String) (h : Char.ofNat 27 ∉ s.data) : Strips s s := by
  intro rest
  obtain ⟨l⟩ := s
  induction l with
  | nil => rfl
  | cons c cs ih =>
    simp only [List.mem_cons, not_or] at h
    have := ih h.2
    simp only [List.cons_append] at this ⊢
    rw [strip_colors_aux_plain c (fun e => h.1 e.symm), this]

theorem strips_color (s : String) (hs : s ∈ color_sequences) : Strips s "" := by
  intro rest
  simp only [color_sequences, List.mem_cons, List.mem_singleton, List.not_mem_nil,
    or_false] at hs
  rcases hs with rfl | rfl | rfl | rfl | rfl | rfl | rfl | rfl | rfl | rfl | rfl <;>
    simp [strip_colors_aux, color_sequences, color_bold, color_black, color_gray, color_red,
      color_green, color_yellow, color_blue, color_magenta, color_cyan, color_white,
      color_reset, List.isPrefixOf, List.find?]

theorem strips_append_plain (a b s : String) (h : Strips a b) (hs : Char.ofNat 27 ∉ s.data) :
    Strips (a ++ s) (b ++ s) :=
  strips_append a b s s h (strips_plain s hs)

theorem strips_push (a b : String) (c : Char) (h : Strips a b) (hc : Char.ofNat 27 ≠ c) :
    Strips (a.push c) (b.push c) := by
  have := strips_append_plain a b (String.singleton c) h (by simpa using hc)
  simpa [String.ext_iff] using this

theorem strips_append_color (a b s : String) (h : Strips a b) (hs : s ∈ color_sequences) :
    Strips (a ++ s) b := by
  have := strips_append a b s "" h (strips_color s hs)
  simpa using this

theorem strips_foldl {α : Type} (f g : String → α → String)
    (h : ∀ a b x, Strips a b → Strips (f a x) (g b x)) (l : List α) (a b : String)
    (hab : Strips a b) : Strips (l.foldl f a) (l.foldl g b) := by
  induction l generalizing a b with
  | nil => exact hab
  | cons x xs ih => exact ih _ _ (h a b x hab)

theorem strips_foldl_counted {α : Type} (f g : String → Nat → α → String)
    (h : ∀ a b n x, Strips a b → Strips (f a n x) (g b n x)) (l : List α) (a b : String)
    (n : Nat) (hab : Strips a b) : Strips (foldl_counted f a n l) (foldl_counted g b n l) := by
  induction l generalizing a b n with
  | nil => exact hab
  | cons x xs ih => exact ih _ _ _ (h a b n x hab)

theorem st_write_color (m : Bool) (a b color : String) (h : Strips a b)
    (hc : color ∈ color_sequences) :
    Strips (write_color ⟨m, true⟩ a color) (write_color ⟨m, false⟩ b color) := by
  simpa [write_color] using strips_append_color a b color h hc

theorem st_append_encoded_char (m : Bool) (a b : String) (ch : Char) (h : Strips a b) :
    Strips (append_encoded_char ⟨m, true⟩ a ch) (append_encoded_char ⟨m, false⟩ b ch) := by
  by_cases hc : allowed ch.toNat = true
  · simp only [append_encoded_char, hc, if_true]
    apply strips_push _ _ _ h
    intro e
    have := allowed_ge_space _ hc
    rw [← e] at this
    revert this
    decide
  · simp only [append_encoded_char, hc]
    simp only [Bool.false_eq_true, if_false]
    repeat with_reducible first
      | exact h
      | apply st_write_color
      | apply strips_push
      | apply strips_append_plain
      | apply strips_append_color
    all_goals first
      | assumption
      | decide
      | (simp [color_sequences]; done)
      | exact no_esc_of_nc _ (nc_fmt_d _)
      | exact no_esc_of_nc _ (nc_fmt_10d _)
      | exact no_esc_of_nc _ (nc_fmt_04X _)
      | exact no_esc_of_nc _ (nc_fmt_0wd _ _)
      | exact no_esc_of_nc _ (nc_fmt_ws _)

theorem st_append_encoded_string (m : Bool) (a b s : String) (h : Strips a b) :
    Strips (append_encoded_string ⟨m, true⟩ a s) (append_encoded_string ⟨m, false⟩ b s) :=
  strips_foldl _ _ (fun a b x hab => st_append_encoded_char m a b x hab) s.data a b h

theorem st_write_string (m : Bool) (a b s : String) (h : Strips a b) :
    Strips (write_string ⟨m, true⟩ a s) (write_string ⟨m, false⟩ b s) := by
  simp only [write_string]
  repeat with_reducible first
    | exact h
    | apply st_write_color
    | apply st_append_encoded_string
    | apply strips_push
    | apply strips_append_plain
    | apply strips_append_color
  all_goals first
    | assumption
    | decide
    | (simp [color_sequences]; done)
    | exact no_esc_of_nc _ (nc_fmt_d _)
    | exact no_esc_of_nc _ (nc_fmt_10d _)
    | exact no_esc_of_nc _ (nc_fmt_04X _)
    | exact no_esc_of_nc _ (nc_fmt_0wd _ _)
    | exact no_esc_of_nc _ (nc_fmt_ws _)

theorem st_write_object_type (m : Bool) (a b t : String) (v : Bool) (h : Strips a b)
    (ht : Char.ofNat 27 ∉ t.data) :
    Strips (write_object_type ⟨m, true⟩ a t v) (write_object_type ⟨m, false⟩ b t v) := by
  cases v <;> simp only [write_object_type, if_true, if_false, Bool.false_eq_true]
  all_goals
    repeat with_reducible first
      | exact h
      | apply st_write_color
      | apply strips_push
      | apply strips_append_plain
      | apply strips_append_color
    all_goals first
      | assumption
      | decide
      | (simp [color_sequences]; done)
      | exact no_esc_of_nc _ (nc_fmt_d _)
      | exact no_esc_of_nc _ (nc_fmt_10d _)
      | exact no_esc_of_nc _ (nc_fmt_04X _)
      | exact no_esc_of_nc _ (nc_fmt_0wd _ _)
      | exact no_esc_of_nc _ (nc_fmt_ws _)

theorem st_write_fieldname (m : Bool) (a b name : String) (h : Strips a b)
    (hn : Char.ofNat 27 ∉ name.data) :
    Strips (write_fieldname ⟨m, true⟩ a name) (write_fieldname ⟨m, false⟩ b name) := by
  simp only [write_fieldname]
  repeat with_reducible first
    | exact h
    | apply st_write_color
    | apply strips_push
    | apply strips_append_plain
    | apply strips_append_color
  all_goals first
    | assumption
    | decide
    | (simp [color_sequences]; done)
    | exact no_esc_of_nc _ (nc_fmt_d _)
    | exact no_esc_of_nc _ (nc_fmt_10d _)
    | exact no_esc_of_nc _ (nc_fmt_04X _)
    | exact no_esc_of_nc _ (nc_fmt_0wd _ _)
    | exact no_esc_of_nc _ (nc_fmt_ws _)

theorem st_write_comment_field (m : Bool) (a b name : String) (h : Strips a b)
    (hn : Char.ofNat 27 ∉ name.data) :
    Strips (write_comment_field ⟨m, true⟩ a name) (write_comment_field ⟨m, false⟩ b name) := by
  simp only [write_comment_field]
  repeat with_reducible first
    | exact h
    | apply st_write_color
    | apply strips_push
    | apply strips_append_plain
    | apply strips_append_color
  all_goals first
    | assumption
    | decide
    | (simp [color_sequences]; done)
    | exact no_esc_of_nc _ (nc_fmt_d _)
    | exact no_esc_of_nc _ (nc_fmt_10d _)
    | exact no_esc_of_nc _ (nc_fmt_04X _)
    | exact no_esc_of_nc _ (nc_fmt_0wd _ _)
    | exact no_esc_of_nc _ (nc_fmt_ws _)

theorem st_write_counter (m : Bool) (a b : String) (w n : Int) (h : Strips a b) :
    Strips (write_counter ⟨m, true⟩ a w n) (write_counter ⟨m, false⟩ b w n) := by
  simp only [write_counter]
  repeat with_reducible first
    | exact h
    | apply st_write_color
    | apply strips_push
    | apply strips_append_plain
    | apply strips_append_color
  all_goals first
    | assumption
    | decide
    | (simp [color_sequences]; done)
    | exact no_esc_of_nc _ (nc_fmt_d _)
    | exact no_esc_of_nc _ (nc_fmt_10d _)
    | exact no_esc_of_nc _ (nc_fmt_04X _)
    | exact no_esc_of_nc _ (nc_fmt_0wd _ _)
    | exact no_esc_of_nc _ (nc_fmt_ws _)

theorem st_write_error (m : Bool) (a b msg : String) (h : Strips a b)
    (hn : Char.ofNat 27 ∉ msg.data) :
    Strips (write_error ⟨m, true⟩ a msg) (write_error ⟨m, false⟩ b msg) := by
  simp only [write_error]
  repeat with_reducible first
    | exact h
    | apply st_write_color
    | apply strips_push
    | apply strips_append_plain
    | apply strips_append_color
  all_goals first
    | assumption
    | decide
    | (simp [color_sequences]; done)
    | exact no_esc_of_nc _ (nc_fmt_d _)
    | exact no_esc_of_nc _ (nc_fmt_10d _)
    | exact no_esc_of_nc _ (nc_fmt_04X _)
    | exact no_esc_of_nc _ (nc_fmt_0wd _ _)
    | exact no_esc_of_nc _ (nc_fmt_ws _)

theorem st_write_meta_version (m : Bool) (a b : String) (object : OSMObject) (h : Strips a b) :
    Strips (write_meta_version ⟨m, true⟩ a object) (write_meta_version ⟨m, false⟩ b object) := by
  simp only [write_meta_version]
  split_ifs
  all_goals
    repeat with_reducible first
      | exact h
      | apply st_write_color
      | apply st_write_fieldname
      | apply st_write_error
      | apply strips_push
      | apply strips_append_plain
      | apply strips_append_color
    all_goals first
      | assumption
      | exact hiso _
      | exact hlon _
      | exact hlat _
      | decide
      | (simp [color_sequences]; done)
      | exact no_esc_of_nc _ (nc_fmt_d _)
      | exact no_esc_of_nc _ (nc_fmt_10d _)
      | exact no_esc_of_nc _ (nc_fmt_0wd _ _)
      | exact no_esc_of_nc _ (nc_fmt_ws _)
      | exact no_esc_of_nc _ (nc_replicate _ ' ' (by decide))

theorem st_write_meta_changeset (m : Bool) (a b : String) (object : OSMObject) (h : Strips a b) :
    Strips (write_meta_changeset ⟨m, true⟩ a object) (write_meta_changeset ⟨m, false⟩ b object) := by
  simp only [write_meta_changeset]
  repeat with_reducible first
    | exact h
    | apply st_write_color
    | apply st_write_fieldname
    | apply strips_push
    | apply strips_append_plain
    | apply strips_append_color
  all_goals first
    | assumption
    | exact hiso _
    | exact hlon _
    | exact hlat _
    | decide
    | (simp [color_sequences]; done)
    | exact no_esc_of_nc _ (nc_fmt_d _)
    | exact no_esc_of_nc _ (nc_fmt_10d _)
    | exact no_esc_of_nc _ (nc_fmt_0wd _ _)
    | exact no_esc_of_nc _ (nc_fmt_ws _)
    | exact no_esc_of_nc _ (nc_replicate _ ' ' (by decide))

theorem st_write_meta_timestamp (m : Bool) (a b : String) (F : Formats Location) (object : OSMObject) (h : Strips a b)
    (hiso : ∀ t, Char.ofNat 27 ∉ (F.to_iso t).data) :
    Strips (write_meta_timestamp F ⟨m, true⟩ a object) (write_meta_timestamp F ⟨m, false⟩ b object) := by
  simp only [write_meta_timestamp]
  repeat with_reducible first
    | exact h
    | apply st_write_color
    | apply st_write_fieldname
    | apply strips_push
    | apply strips_append_plain
    | apply strips_append_color
  all_goals first
    | assumption
    | exact hiso _
    | exact hlon _
    | exact hlat _
    | decide
    | (simp [color_sequences]; done)
    | exact no_esc_of_nc _ (nc_fmt_d _)
    | exact no_esc_of_nc _ (nc_fmt_10d _)
    | exact no_esc_of_nc _ (nc_fmt_0wd _ _)
    | exact no_esc_of_nc _ (nc_fmt_ws _)
    | exact no_esc_of_nc _ (nc_replicate _ ' ' (by decide))

theorem st_write_meta_user (m : Bool) (a b : String) (object : OSMObject) (h : Strips a b) :
    Strips (write_meta_user ⟨m, true⟩ a object) (write_meta_user ⟨m, false⟩ b object) := by
  simp only [write_meta_user]
  repeat with_reducible first
    | exact h
    | apply st_write_color
    | apply st_write_fieldname
    | apply st_write_string
    | apply strips_push
    | apply strips_append_plain
    | apply strips_append_color
  all_goals first
    | assumption
    | exact hiso _
    | exact hlon _
    | exact hlat _
    | decide
    | (simp [color_sequences]; done)
    | exact no_esc_of_nc _ (nc_fmt_d _)
    | exact no_esc_of_nc _ (nc_fmt_10d _)
    | exact no_esc_of_nc _ (nc_fmt_0wd _ _)
    | exact no_esc_of_nc _ (nc_fmt_ws _)
    | exact no_esc_of_nc _ (nc_replicate _ ' ' (by decide))

theorem st_write_meta (m : Bool) (a b : String) (F : Formats Location) (object : OSMObject) (h : Strips a b)
    (hiso : ∀ t, Char.ofNat 27 ∉ (F.to_iso t).data) :
    Strips (write_meta F ⟨m, true⟩ a object) (write_meta F ⟨m, false⟩ b object) := by
  simp only [write_meta]
  split_ifs
  all_goals
    repeat with_reducible first
      | exact h
      | apply st_write_color
      | apply st_write_meta_version
      | apply st_write_meta_changeset
      | apply st_write_meta_timestamp
      | apply st_write_meta_user
      | apply strips_push
      | apply strips_append_plain
      | apply strips_append_color
    all_goals first
      | assumption
      | exact hiso _
      | exact hlon _
      | exact hlat _
      | decide
      | (simp [color_sequences]; done)
      | exact no_esc_of_nc _ (nc_fmt_d _)
      | exact no_esc_of_nc _ (nc_fmt_10d _)
      | exact no_esc_of_nc _ (nc_fmt_0wd _ _)
      | exact no_esc_of_nc _ (nc_fmt_ws _)
      | exact no_esc_of_nc _ (nc_replicate _ ' ' (by decide))

theorem st_write_tag (m : Bool) (a b : String) (k : Nat) (tag : Tag) (h : Strips a b) :
    Strips (write_tag ⟨m, true⟩ k a tag) (write_tag ⟨m, false⟩ k b tag) := by
  simp only [write_tag]
  repeat with_reducible first
    | exact h
    | apply st_write_color
    | apply st_write_string
    | apply strips_push
    | apply strips_append_plain
    | apply strips_append_color
  all_goals first
    | assumption
    | exact hiso _
    | exact hlon _
    | exact hlat _
    | decide
    | (simp [color_sequences]; done)
    | exact no_esc_of_nc _ (nc_fmt_d _)
    | exact no_esc_of_nc _ (nc_fmt_10d _)
    | exact no_esc_of_nc _ (nc_fmt_0wd _ _)
    | exact no_esc_of_nc _ (nc_fmt_ws _)
    | exact no_esc_of_nc _ (nc_replicate _ ' ' (by decide))

theorem st_write_tags (m : Bool) (a b : String) (tags : List Tag) (padding : String) (h : Strips a b)
    (hp : Char.ofNat 27 ∉ padding.data) :
    Strips (write_tags ⟨m, true⟩ a tags padding) (write_tags ⟨m, false⟩ b tags padding) := by
  simp only [write_tags]
  split_ifs
  all_goals
    repeat with_reducible first
      | exact h
      | apply st_write_color
      | refine strips_foldl _ _ (fun a b x hab => st_write_tag m a b _ x hab) _ _ _ ?_
      | apply st_write_fieldname
      | apply strips_push
      | apply strips_append_plain
      | apply strips_append_color
    all_goals first
      | assumption
      | exact hiso _
      | exact hlon _
      | exact hlat _
      | decide
      | (simp [color_sequences]; done)
      | exact no_esc_of_nc _ (nc_fmt_d _)
      | exact no_esc_of_nc _ (nc_fmt_10d _)
      | exact no_esc_of_nc _ (nc_fmt_0wd _ _)
      | exact no_esc_of_nc _ (nc_fmt_ws _)
      | exact no_esc_of_nc _ (nc_replicate _ ' ' (by decide))

theorem st_write_location (m : Bool) (a b : String) (F : Formats Location) (location : Location) (h : Strips a b)
    (hlon : ∀ l, Char.ofNat 27 ∉ (F.lon_f7 l).data)
    (hlat : ∀ l, Char.ofNat 27 ∉ (F.lat_f7 l).data) :
    Strips (write_location F ⟨m, true⟩ a location) (write_location F ⟨m, false⟩ b location) := by
  simp only [write_location]
  split_ifs
  all_goals
    repeat with_reducible first
      | exact h
      | apply st_write_color
      | apply st_write_fieldname
      | apply st_write_error
      | apply strips_push
      | apply strips_append_plain
      | apply strips_append_color
    all_goals first
      | assumption
      | exact hiso _
      | exact hlon _
      | exact hlat _
      | decide
      | (simp [color_sequences]; done)
      | exact no_esc_of_nc _ (nc_fmt_d _)
      | exact no_esc_of_nc _ (nc_fmt_10d _)
      | exact no_esc_of_nc _ (nc_fmt_0wd _ _)
      | exact no_esc_of_nc _ (nc_fmt_ws _)
      | exact no_esc_of_nc _ (nc_replicate _ ' ' (by decide))

theorem st_write_box (m : Bool) (a b : String) (F : Formats Location) (box : Box Location) (h : Strips a b)
    (hlon : ∀ l, Char.ofNat 27 ∉ (F.lon_f7 l).data)
    (hlat : ∀ l, Char.ofNat 27 ∉ (F.lat_f7 l).data) :
    Strips (write_box F ⟨m, true⟩ a box) (write_box F ⟨m, false⟩ b box) := by
  simp only [write_box]
  split_ifs
  all_goals
    repeat with_reducible first
      | exact h
      | apply st_write_color
      | apply st_write_fieldname
      | apply st_write_error
      | apply strips_push
      | apply strips_append_plain
      | apply strips_append_color
    all_goals first
      | assumption
      | exact hiso _
      | exact hlon _
      | exact hlat _
      | decide
      | (simp [color_sequences]; done)
      | exact no_esc_of_nc _ (nc_fmt_d _)
      | exact no_esc_of_nc _ (nc_fmt_10d _)
      | exact no_esc_of_nc _ (nc_fmt_0wd _ _)
      | exact no_esc_of_nc _ (nc_fmt_ws _)
      | exact no_esc_of_nc _ (nc_replicate _ ' ' (by decide))

theorem st_node (m : Bool) (a b : String) (F : Formats Location) (n : Node Location) (h : Strips a b)
    (hiso : ∀ t, Char.ofNat 27 ∉ (F.to_iso t).data) (hlon : ∀ l, Char.ofNat 27 ∉ (F.lon_f7 l).data)
    (hlat : ∀ l, Char.ofNat 27 ∉ (F.lat_f7 l).data) :
    Strips (node F ⟨m, true⟩ a n) (node F ⟨m, false⟩ b n) := by
  simp only [node]
  split_ifs
  all_goals
    repeat with_reducible first
      | exact h
      | apply st_write_color
      | apply st_write_object_type
      | apply st_write_meta
      | apply st_write_location
      | apply st_write_tags
      | apply strips_push
      | apply strips_append_plain
      | apply strips_append_color
    all_goals first
      | assumption
      | exact hiso _
      | exact hlon _
      | exact hlat _
      | decide
      | (simp [color_sequences]; done)
      | exact no_esc_of_nc _ (nc_fmt_d _)
      | exact no_esc_of_nc _ (nc_fmt_10d _)
      | exact no_esc_of_nc _ (nc_fmt_0wd _ _)
      | exact no_esc_of_nc _ (nc_fmt_ws _)
      | exact no_esc_of_nc _ (nc_replicate _ ' ' (by decide))

theorem st_way_nodes_line (m : Bool) (a b : String) (nodes : List (NodeRef Location)) (h : Strips a b) :
    Strips (way_nodes_line ⟨m, true⟩ a nodes) (way_nodes_line ⟨m, false⟩ b nodes) := by
  simp only [way_nodes_line]
  split_ifs
  all_goals
    repeat with_reducible first
      | exact h
      | apply st_write_color
      | apply st_write_fieldname
      | apply st_write_error
      | apply strips_push
      | apply strips_append_plain
      | apply strips_append_color
    all_goals first
      | assumption
      | exact hiso _
      | exact hlon _
      | exact hlat _
      | decide
      | (simp [color_sequences]; done)
      | exact no_esc_of_nc _ (nc_fmt_d _)
      | exact no_esc_of_nc _ (nc_fmt_10d _)
      | exact no_esc_of_nc _ (nc_fmt_0wd _ _)
      | exact no_esc_of_nc _ (nc_fmt_ws _)
      | exact no_esc_of_nc _ (nc_replicate _ ' ' (by decide))

theorem st_way_node_ref (m : Bool) (a b : String) (F : Formats Location) (width : Int) (n : Nat) (node_ref : NodeRef Location) (h : Strips a b)
    (hlon : ∀ l, Char.ofNat 27 ∉ (F.lon_f7 l).data)
    (hlat : ∀ l, Char.ofNat 27 ∉ (F.lat_f7 l).data) :
    Strips (way_node_ref F ⟨m, true⟩ width a n node_ref) (way_node_ref F ⟨m, false⟩ width b n node_ref) := by
  simp only [way_node_ref]
  split_ifs
  all_goals
    repeat with_reducible first
      | exact h
      | apply st_write_color
      | apply st_write_counter
      | apply strips_push
      | apply strips_append_plain
      | apply strips_append_color
    all_goals first
      | assumption
      | exact hiso _
      | exact hlon _
      | exact hlat _
      | decide
      | (simp [color_sequences]; done)
      | exact no_esc_of_nc _ (nc_fmt_d _)
      | exact no_esc_of_nc _ (nc_fmt_10d _)
      | exact no_esc_of_nc _ (nc_fmt_0wd _ _)
      | exact no_esc_of_nc _ (nc_fmt_ws _)
      | exact no_esc_of_nc _ (nc_replicate _ ' ' (by decide))

theorem st_way (m : Bool) (a b : String) (F : Formats Location) (w : Way Location) (h : Strips a b)
    (hiso : ∀ t, Char.ofNat 27 ∉ (F.to_iso t).data) (hlon : ∀ l, Char.ofNat 27 ∉ (F.lon_f7 l).data)
    (hlat : ∀ l, Char.ofNat 27 ∉ (F.lat_f7 l).data) :
    Strips (way F ⟨m, true⟩ a w) (way F ⟨m, false⟩ b w) := by
  simp only [way]
  repeat with_reducible first
    | exact h
    | apply st_write_color
    | refine strips_foldl_counted _ _ (fun a b k x hab => st_way_node_ref m a b F _ k x hab hlon hlat) _ _ _ _ ?_
    | apply st_write_object_type
    | apply st_write_meta
    | apply st_way_nodes_line
    | apply st_write_tags
    | apply strips_push
    | apply strips_append_plain
    | apply strips_append_color
  all_goals first
    | assumption
    | exact hiso _
    | exact hlon _
    | exact hlat _
    | decide
    | (simp [color_sequences]; done)
    | exact no_esc_of_nc _ (nc_fmt_d _)
    | exact no_esc_of_nc _ (nc_fmt_10d _)
    | exact no_esc_of_nc _ (nc_fmt_0wd _ _)
    | exact no_esc_of_nc _ (nc_fmt_ws _)
    | exact no_esc_of_nc _ (nc_replicate _ ' ' (by decide))

theorem no_esc_short_typename (k : Nat) : Char.ofNat 27 ∉ (short_typename k).data := by
  unfold short_typename
  split <;> decide

theorem st_relation_member (m : Bool) (a b : String) (width : Int) (n : Nat) (member : RelationMember) (h : Strips a b) :
    Strips (relation_member ⟨m, true⟩ width a n member) (relation_member ⟨m, false⟩ width b n member) := by
  simp only [relation_member]
  repeat with_reducible first
    | exact h
    | apply st_write_color
    | apply st_write_counter
    | apply st_write_string
    | apply strips_push
    | apply strips_append_plain
    | apply strips_append_color
  all_goals first
    | assumption
    | exact hiso _
    | exact hlon _
    | exact hlat _
    | decide
    | (simp [color_sequences]; done)
    | exact no_esc_of_nc _ (nc_fmt_d _)
    | exact no_esc_of_nc _ (nc_fmt_10d _)
    | exact no_esc_of_nc _ (nc_fmt_0wd _ _)
    | exact no_esc_of_nc _ (nc_fmt_ws _)
    | exact no_esc_short_typename _

theorem st_relation (m : Bool) (a b : String) (F : Formats Location) (r : Relation) (h : Strips a b)
    (hiso : ∀ t, Char.ofNat 27 ∉ (F.to_iso t).data) :
    Strips (relation F ⟨m, true⟩ a r) (relation F ⟨m, false⟩ b r) := by
  simp only [relation]
  repeat with_reducible first
    | exact h
    | apply st_write_color
    | refine strips_foldl_counted _ _ (fun a b k x hab => st_relation_member m a b _ k x hab) _ _ _ _ ?_
    | apply st_write_object_type
    | apply st_write_meta
    | apply st_write_fieldname
    | apply st_write_tags
    | apply strips_push
    | apply strips_append_plain
    | apply strips_append_color
  all_goals first
    | assumption
    | exact hiso _
    | exact hlon _
    | exact hlat _
    | decide
    | (simp [color_sequences]; done)
    | exact no_esc_of_nc _ (nc_fmt_d _)
    | exact no_esc_of_nc _ (nc_fmt_10d _)
    | exact no_esc_of_nc _ (nc_fmt_0wd _ _)
    | exact no_esc_of_nc _ (nc_fmt_ws _)
    | exact no_esc_of_nc _ (nc_replicate _ ' ' (by decide))

theorem st_changeset_num_changes (m : Bool) (a b : String) (k : Nat) (h : Strips a b) :
    Strips (changeset_num_changes ⟨m, true⟩ a k) (changeset_num_changes ⟨m, false⟩ b k) := by
  simp only [changeset_num_changes]
  split_ifs
  all_goals
    repeat with_reducible first
      | exact h
      | apply st_write_color
      | apply st_write_fieldname
      | apply st_write_error
      | apply strips_push
      | apply strips_append_plain
      | apply strips_append_color
    all_goals first
      | assumption
      | exact hiso _
      | exact hlon _
      | exact hlat _
      | decide
      | (simp [color_sequences]; done)
      | exact no_esc_of_nc _ (nc_fmt_d _)
      | exact no_esc_of_nc _ (nc_fmt_10d _)
      | exact no_esc_of_nc _ (nc_fmt_0wd _ _)
      | exact no_esc_of_nc _ (nc_fmt_ws _)
      | exact no_esc_of_nc _ (nc_replicate _ ' ' (by decide))

theorem st_changeset_created_at (m : Bool) (a b : String) (F : Formats Location) (t : Nat) (h : Strips a b)
    (hiso : ∀ t, Char.ofNat 27 ∉ (F.to_iso t).data) :
    Strips (changeset_created_at F ⟨m, true⟩ a t) (changeset_created_at F ⟨m, false⟩ b t) := by
  simp only [changeset_created_at]
  repeat with_reducible first
    | exact h
    | apply st_write_color
    | apply st_write_fieldname
    | apply strips_push
    | apply strips_append_plain
    | apply strips_append_color
  all_goals first
    | assumption
    | exact hiso _
    | exact hlon _
    | exact hlat _
    | decide
    | (simp [color_sequences]; done)
    | exact no_esc_of_nc _ (nc_fmt_d _)
    | exact no_esc_of_nc _ (nc_fmt_10d _)
    | exact no_esc_of_nc _ (nc_fmt_0wd _ _)
    | exact no_esc_of_nc _ (nc_fmt_ws _)
    | exact no_esc_of_nc _ (nc_replicate _ ' ' (by decide))

theorem st_changeset_closed_at (m : Bool) (a b : String) (F : Formats Location) (closed : Bool) (t : Nat) (h : Strips a b)
    (hiso : ∀ t, Char.ofNat 27 ∉ (F.to_iso t).data) :
    Strips (changeset_closed_at F ⟨m, true⟩ a closed t) (changeset_closed_at F ⟨m, false⟩ b closed t) := by
  simp only [changeset_closed_at]
  split_ifs
  all_goals
    repeat with_reducible first
      | exact h
      | apply st_write_color
      | apply st_write_fieldname
      | apply st_write_error
      | apply strips_push
      | apply strips_append_plain
      | apply strips_append_color
    all_goals first
      | assumption
      | exact hiso _
      | exact hlon _
      | exact hlat _
      | decide
      | (simp [color_sequences]; done)
      | exact no_esc_of_nc _ (nc_fmt_d _)
      | exact no_esc_of_nc _ (nc_fmt_10d _)
      | exact no_esc_of_nc _ (nc_fmt_0wd _ _)
      | exact no_esc_of_nc _ (nc_fmt_ws _)
      | exact no_esc_of_nc _ (nc_replicate _ ' ' (by decide))

theorem st_changeset_user (m : Bool) (a b : String) (uid : Nat) (user : String) (h : Strips a b) :
    Strips (changeset_user ⟨m, true⟩ a uid user) (changeset_user ⟨m, false⟩ b uid user) := by
  simp only [changeset_user]
  repeat with_reducible first
    | exact h
    | apply st_write_color
    | apply st_write_fieldname
    | apply st_write_string
    | apply strips_push
    | apply strips_append_plain
    | apply strips_append_color
  all_goals first
    | assumption
    | exact hiso _
    | exact hlon _
    | exact hlat _
    | decide
    | (simp [color_sequences]; done)
    | exact no_esc_of_nc _ (nc_fmt_d _)
    | exact no_esc_of_nc _ (nc_fmt_10d _)
    | exact no_esc_of_nc _ (nc_fmt_0wd _ _)
    | exact no_esc_of_nc _ (nc_fmt_ws _)
    | exact no_esc_of_nc _ (nc_replicate _ ' ' (by decide))

theorem st_changeset_comment (m : Bool) (a b : String) (F : Formats Location) (width : Int) (n : Nat) (comment : ChangesetComment) (h : Strips a b)
    (hiso : ∀ t, Char.ofNat 27 ∉ (F.to_iso t).data) :
    Strips (changeset_comment F ⟨m, true⟩ width a n comment) (changeset_comment F ⟨m, false⟩ width b n comment) := by
  simp only [changeset_comment]
  repeat with_reducible first
    | exact h
    | apply st_write_color
    | apply st_write_counter
    | apply st_write_comment_field
    | apply st_write_string
    | apply strips_push
    | apply strips_append_plain
    | apply strips_append_color
  all_goals first
    | assumption
    | exact hiso _
    | exact hlon _
    | exact hlat _
    | decide
    | (simp [color_sequences]; done)
    | exact no_esc_of_nc _ (nc_fmt_d _)
    | exact no_esc_of_nc _ (nc_fmt_10d _)
    | exact no_esc_of_nc _ (nc_fmt_0wd _ _)
    | exact no_esc_of_nc _ (nc_fmt_ws _)
    | exact no_esc_of_nc _ (nc_replicate _ ' ' (by decide))

theorem st_changeset_comments (m : Bool) (a b : String) (F : Formats Location) (c : Changeset Location) (h : Strips a b)
    (hiso : ∀ t, Char.ofNat 27 ∉ (F.to_iso t).data) :
    Strips (changeset_comments F ⟨m, true⟩ a c) (changeset_comments F ⟨m, false⟩ b c) := by
  simp only [changeset_comments]
  split_ifs
  all_goals
    repeat with_reducible first
      | exact h
      | apply st_write_color
      | refine strips_foldl_counted _ _ (fun a b k x hab => st_changeset_comment m a b F _ k x hab hiso) _ _ _ _ ?_
      | apply st_write_fieldname
      | apply strips_push
      | apply strips_append_plain
      | apply strips_append_color
    all_goals first
      | assumption
      | exact hiso _
      | exact hlon _
      | exact hlat _
      | decide
      | (simp [color_sequences]; done)
      | exact no_esc_of_nc _ (nc_fmt_d _)
      | exact no_esc_of_nc _ (nc_fmt_10d _)
      | exact no_esc_of_nc _ (nc_fmt_0wd _ _)
      | exact no_esc_of_nc _ (nc_fmt_ws _)
      | exact no_esc_of_nc _ (nc_replicate _ ' ' (by decide))

theorem st_changeset (m : Bool) (a b : String) (F : Formats Location) (c : Changeset Location) (h : Strips a b)
    (hiso : ∀ t, Char.ofNat 27 ∉ (F.to_iso t).data) (hlon : ∀ l, Char.ofNat 27 ∉ (F.lon_f7 l).data)
    (hlat : ∀ l, Char.ofNat 27 ∉ (F.lat_f7 l).data) :
    Strips (changeset F ⟨m, true⟩ a c) (changeset F ⟨m, false⟩ b c) := by
  simp only [changeset]
  repeat with_reducible first
    | exact h
    | apply st_write_color
    | apply st_write_object_type
    | apply st_changeset_num_changes
    | apply st_changeset_created_at
    | apply st_changeset_closed_at
    | apply st_changeset_user
    | apply st_write_box
    | apply st_write_tags
    | apply st_changeset_comments
    | apply strips_push
    | apply strips_append_plain
    | apply strips_append_color
  all_goals first
    | assumption
    | exact hiso _
    | exact hlon _
    | exact hlat _
    | decide
    | (simp [color_sequences]; done)
    | exact no_esc_of_nc _ (nc_fmt_d _)
    | exact no_esc_of_nc _ (nc_fmt_10d _)
    | exact no_esc_of_nc _ (nc_fmt_0wd _ _)
    | exact no_esc_of_nc _ (nc_fmt_ws _)
    | exact no_esc_of_nc _ (nc_replicate _ ' ' (by decide))

theorem st_item (m : Bool) (a b : String) (F : Formats Location) (i : Item Location)
    (h : Strips a b) (hiso : ∀ t, Char.ofNat 27 ∉ (F.to_iso t).data)
    (hlon : ∀ l, Char.ofNat 27 ∉ (F.lon_f7 l).data)
    (hlat : ∀ l, Char.ofNat 27 ∉ (F.lat_f7 l).data) :
    Strips (item F ⟨m, true⟩ a i) (item F ⟨m, false⟩ b i) := by
  cases i with
  | node n => exact st_node m a b F n h hiso hlon hlat
  | way w => exact st_way m a b F w h hiso hlon hlat
  | relation r => exact st_relation m a b F r h hiso
  | changeset c => exact st_changeset m a b F c h hiso hlon hlat

end StripLemmas

/-- C23: for every input buffer and either setting of `add_metadata`, deleting
the eleven colour sequences from the text the block returns with `use_color`
true gives the text it returns with `use_color` false, provided the timestamp
and coordinate formatters emit no ESC character themselves. -/
theorem color_only_decorates {Location : Type} (F : Formats Location) (add_metadata : Bool)
    (buffer : List (Item Location))
    (hiso : ∀ t, Char.ofNat 27 ∉ (F.to_iso t).data)
    (hlon : ∀ l, Char.ofNat 27 ∉ (F.lon_f7 l).data)
    (hlat : ∀ l, Char.ofNat 27 ∉ (F.lat_f7 l).data) :
    strip_colors (run F ⟨buffer, ⟨add_metadata, true⟩⟩) =
      run F ⟨buffer, ⟨add_metadata, false⟩⟩ := by
  have h := strips_foldl _ _
    (fun a b x hab => st_item add_metadata a b F x hab hiso hlon hlat) buffer "" "" strips_nil []
  simp only [List.append_nil] at h
  apply String.ext
  simpa [strip_colors, run, strip_colors_aux] using h

/-- Instance of C23: the buffer `example_buffer` (a node whose user name holds
an ESC sequence, a way and a changeset), rendered with metadata. -/
theorem color_only_decorates_witness :
    strip_colors (run example_formats ⟨example_buffer, ⟨true, true⟩⟩) =
      run example_formats ⟨example_buffer, ⟨true, false⟩⟩ :=
  color_only_decorates example_formats true example_buffer
    (by intro t; simp [example_formats])
    (by intro l; simp [example_formats])
    (by intro l; simp [example_formats])

end osmium.io.detail.DebugOutputBlock

namespace osmium
namespace io
namespace Reader

/-- C7 fails on the code: the location `http` (a file of that name; it has no
colon, hence no scheme prefix) is not opened as a local file.  The code forks a
child that runs `curl http` and attaches it (`m_childpid` is 1234, not 0), and
the constructor starts the input thread on the pipe.  The location `http.osm`
next to it is opened as a local file with no child, and the URL
`http://example.org/data.osm` is handed to `curl`, both as the claim says. -/
theorem scheme_word_without_colon_spawns_curl :
    ':' ∉ "http".data ∧
      (open_input_file_or_url curl_env
          ({ reader_before_open with m_file := ⟨"http", ""⟩ }, World.initial) "http").1.2.log
        = [Event.pipe, Event.fork 1234 ["curl", "http"], Event.close 4] ∧
      (open_input_file_or_url curl_env
          ({ reader_before_open with m_file := ⟨"http", ""⟩ }, World.initial)
          "http").1.1.m_childpid = 1234 ∧
      (construct curl_env World.initial ⟨"http", ""⟩).1.log
        = [Event.pipe, Event.fork 1234 ["curl", "http"], Event.close 4,
            Event.thread_start "" 3] ∧
      (open_input_file_or_url curl_env
          ({ reader_before_open with m_file := ⟨"http.osm", ""⟩ }, World.initial)
          "http.osm").1.2.log
        = [Event.open_for_reading "http.osm"] ∧
      (open_input_file_or_url curl_env
          ({ reader_before_open with m_file := ⟨"http.osm", ""⟩ }, World.initial)
          "http.osm").1.1.m_childpid = 0 ∧
      (open_input_file_or_url curl_env
          ({ reader_before_open with m_file := ⟨"http://example.org/data.osm", ""⟩ },
            World.initial)
          "http://example.org/data.osm").1.2.log
        = [Event.pipe, Event.fork 1234 ["curl", "http://example.org/data.osm"],
            Event.close 4] := by
  refine ⟨by decide, by decide, by decide, by decide, by decide, by decide, by decide⟩

end Reader
end io
end osmium
